import Mathlib

/-!
Verification development for the JiraGenie backend
(resilient ticket materialization pipeline).

Part 1 models the JSON extraction of `ai_service.py` (`extract_json`,
lines 101-129, and the failure path of `run_ai_analysis`, lines 130-144).
Part 2 models the Jira service of `jira_service.py` (`create_epic`,
`create_story`, `_create_story_fallback`, `create_subtask`,
`create_issues`) as a state-passing embedding over an explicit tracker
environment, recording a trace of tracker calls, field updates and
cancellation polls.
-/

namespace JiraGenie

/-! ## Part 1: JSON values and a model of Python json.loads

`J` is the shape of a parsed JSON document.  Numbers keep their source
lexeme (the claims under verification depend only on parse success and
on which candidate substring was parsed, never on numeric semantics);
string values likewise keep the raw lexeme found between the quotes. -/

inductive J where
  | null : J
  | bool (b : Bool) : J
  | num (lexeme : String) : J
  | str (lexeme : String) : J
  | arr (items : List J) : J
  | obj (members : List (String × J)) : J

/-- JSON whitespace accepted by Python json.loads between tokens. -/
def isJsonWs (c : Char) : Bool :=
  c = ' ' || c = '\t' || c = '\n' || c = '\r'

def skipWs : List Char → List Char
  | [] => []
  | c :: cs => if isJsonWs c then skipWs cs else c :: cs

def isHexDig (c : Char) : Bool :=
  c.isDigit || ('a' ≤ c && c ≤ 'f') || ('A' ≤ c && c ≤ 'F')

/-- Body of a JSON string literal, positioned after the opening quote.
Returns the raw lexeme (escape sequences kept verbatim) and the rest of
the input after the closing quote.  Control characters are rejected as
in strict-mode json.loads. -/
def parseStringBody : Nat → List Char → Option (List Char × List Char)
  | 0, _ => none
  | _, [] => none
  | fuel + 1, c :: cs =>
    if c = '"' then some ([], cs)
    else if c = '\\' then
      match cs with
      | [] => none
      | e :: cs2 =>
        if e = 'u' then
          match cs2 with
          | h1 :: h2 :: h3 :: h4 :: cs3 =>
            if isHexDig h1 && isHexDig h2 && isHexDig h3 && isHexDig h4 then
              (parseStringBody fuel cs3).map
                (fun p => (c :: e :: h1 :: h2 :: h3 :: h4 :: p.1, p.2))
            else none
          | _ => none
        else if e = '"' || e = '\\' || e = '/' || e = 'b' || e = 'f' ||
            e = 'n' || e = 'r' || e = 't' then
          (parseStringBody fuel cs2).map (fun p => (c :: e :: p.1, p.2))
        else none
    else if c.val < 32 then none
    else (parseStringBody fuel cs).map (fun p => (c :: p.1, p.2))

def spanDigits (l : List Char) : List Char × List Char :=
  (l.takeWhile Char.isDigit, l.dropWhile Char.isDigit)

/-- Fractional part of a JSON number (possibly empty). -/
def parseFracPart : List Char → Option (List Char × List Char)
  | '.' :: t =>
    let p := spanDigits t
    if p.1 = [] then none else some ('.' :: p.1, p.2)
  | l => some ([], l)

/-- Exponent part of a JSON number (possibly empty). -/
def parseExpPart : List Char → Option (List Char × List Char)
  | [] => some ([], [])
  | c :: t =>
    if c = 'e' || c = 'E' then
      let s := match t with
        | s0 :: tt => if s0 = '+' || s0 = '-' then ([s0], tt) else ([], t)
        | [] => (([] : List Char), ([] : List Char))
      let p := spanDigits s.2
      if p.1 = [] then none else some (c :: (s.1 ++ p.1), p.2)
    else some ([], c :: t)

/-- A JSON number token (sign, integer part without leading zeros,
optional fraction and exponent), returned as its lexeme. -/
def parseNumber (l : List Char) : Option (List Char × List Char) :=
  let p0 : List Char × List Char :=
    match l with | '-' :: t => (['-'], t) | _ => ([], l)
  match p0.2 with
  | [] => none
  | c :: _ =>
    if ¬ c.isDigit then none
    else
      let p1 := spanDigits p0.2
      if 1 < p1.1.length ∧ p1.1.head? = some '0' then none
      else
        match parseFracPart p1.2 with
        | none => none
        | some (fp, r2) =>
          match parseExpPart r2 with
          | none => none
          | some (ep, r3) => some (p0.1 ++ p1.1 ++ fp ++ ep, r3)

mutual

/-- A JSON value, as accepted by Python json.loads (including the
non-standard NaN/Infinity tokens json accepts by default). -/
def parseVal : Nat → List Char → Option (J × List Char)
  | 0, _ => none
  | fuel + 1, l =>
    match skipWs l with
    | [] => none
    | c :: cs =>
      if c = '\x7b' then
        match skipWs cs with
        | '\x7d' :: r => some (J.obj [], r)
        | r => (parseMembers fuel r).map (fun p => (J.obj p.1, p.2))
      else if c = '[' then
        match skipWs cs with
        | ']' :: r => some (J.arr [], r)
        | r => (parseItems fuel r).map (fun p => (J.arr p.1, p.2))
      else if c = '"' then
        (parseStringBody (cs.length + 1) cs).map
          (fun p => (J.str (String.mk p.1), p.2))
      else if c = 't' then
        match cs with | 'r' :: 'u' :: 'e' :: r => some (J.bool true, r) | _ => none
      else if c = 'f' then
        match cs with | 'a' :: 'l' :: 's' :: 'e' :: r => some (J.bool false, r) | _ => none
      else if c = 'n' then
        match cs with | 'u' :: 'l' :: 'l' :: r => some (J.null, r) | _ => none
      else if c = 'N' then
        match cs with | 'a' :: 'N' :: r => some (J.num "NaN", r) | _ => none
      else if c = 'I' then
        match cs with
        | 'n' :: 'f' :: 'i' :: 'n' :: 'i' :: 't' :: 'y' :: r => some (J.num "Infinity", r)
        | _ => none
      else if c = '-' then
        match cs with
        | 'I' :: 'n' :: 'f' :: 'i' :: 'n' :: 'i' :: 't' :: 'y' :: r =>
          some (J.num "-Infinity", r)
        | _ => (parseNumber (c :: cs)).map (fun p => (J.num (String.mk p.1), p.2))
      else if c.isDigit then
        (parseNumber (c :: cs)).map (fun p => (J.num (String.mk p.1), p.2))
      else none

/-- Members of a JSON object, positioned (whitespace already skipped) at
the opening quote of a key; consumes the closing brace. -/
def parseMembers : Nat → List Char → Option (List (String × J) × List Char)
  | 0, _ => none
  | fuel + 1, l =>
    match l with
    | '"' :: cs =>
      match parseStringBody (cs.length + 1) cs with
      | none => none
      | some (kcs, r1) =>
        match skipWs r1 with
        | ':' :: r2 =>
          match parseVal fuel r2 with
          | none => none
          | some (v, r3) =>
            match skipWs r3 with
            | ',' :: r4 =>
              (parseMembers fuel (skipWs r4)).map
                (fun p => ((String.mk kcs, v) :: p.1, p.2))
            | '\x7d' :: r5 => some ([(String.mk kcs, v)], r5)
            | _ => none
        | _ => none
    | _ => none

/-- Items of a JSON array; consumes the closing bracket. -/
def parseItems : Nat → List Char → Option (List J × List Char)
  | 0, _ => none
  | fuel + 1, l =>
    match parseVal fuel l with
    | none => none
    | some (v, r1) =>
      match skipWs r1 with
      | ',' :: r2 => (parseItems fuel r2).map (fun p => (v :: p.1, p.2))
      | ']' :: r3 => some ([v], r3)
      | _ => none

end

/-- Model of Python json.loads: a single JSON value with nothing but
whitespace after it.  The fuel is generous; all uses in the claims
either supply a concrete input (evaluated by the kernel) or take the
parse result as a hypothesis. -/
def jsonParse (s : String) : Option J :=
  match parseVal (4 * s.data.length + 16) s.data with
  | some (v, rest) => if skipWs rest = [] then some v else none
  | none => none

/-! ### The three extraction strategies of extract_json -/

def startsWithL : List Char → List Char → Bool
  | [], _ => true
  | _ :: _, [] => false
  | a :: as, b :: bs => a = b && startsWithL as bs

/-- Python str.replace(old, "") : remove every occurrence of a
non-empty needle, scanning left to right. -/
def removeAllSub (ndl : List Char) : Nat → List Char → List Char
  | 0, l => l
  | _, [] => []
  | fuel + 1, c :: cs =>
    if ndl ≠ [] ∧ startsWithL ndl (c :: cs) then
      removeAllSub ndl fuel (cs.drop (ndl.length - 1))
    else c :: removeAllSub ndl fuel cs

def pyRemove (ndl s : String) : String :=
  ⟨removeAllSub ndl.data (s.data.length + 1) s.data⟩

/-- Characters removed by Python str.strip() (ASCII whitespace). -/
def isPyWs (c : Char) : Bool :=
  c = ' ' || c = '\t' || c = '\n' || c = '\r' || c = '\x0b' || c = '\x0c'

def pyStrip (s : String) : String :=
  ⟨((s.data.dropWhile isPyWs).reverse.dropWhile isPyWs).reverse⟩

def firstIdx (c : Char) : List Char → Option Nat
  | [] => none
  | x :: xs => if x = c then some 0 else (firstIdx c xs).map (· + 1)

def lastIdx (c : Char) (l : List Char) : Option Nat :=
  (firstIdx c l.reverse).map (fun k => l.length - 1 - k)

/-- Strategy 2 of extract_json: the substring from the first brace to
the last closing brace (text_input[start_idx : end_idx + 1]), provided
both exist and end_idx > start_idx. -/
def braceSpan (s : String) : Option String :=
  match firstIdx '\x7b' s.data, lastIdx '\x7d' s.data with
  | some a, some b => if a < b then some ⟨(s.data.drop a).take (b - a + 1)⟩ else none
  | _, _ => none

/-- One attempt of the strategy-3 regex
\x7b[^\x7b\x7d]*(?:\x7b[^\x7b\x7d]*\x7d[^\x7b\x7d]*)*\x7d
starting just after an opening brace.  The pattern is deterministic:
runs of non-brace characters are maximal munch and every alternative is
decided by the next character, so no backtracking arises. -/
def matchTail : Nat → List Char → Option (List Char × List Char)
  | 0, _ => none
  | fuel + 1, l =>
    let p := l.span (fun c => c ≠ '\x7b' && c ≠ '\x7d')
    match p.2 with
    | '\x7d' :: r => some (p.1 ++ ['\x7d'], r)
    | '\x7b' :: r =>
      let q := r.span (fun c => c ≠ '\x7b' && c ≠ '\x7d')
      match q.2 with
      | '\x7d' :: r2 =>
        match matchTail fuel r2 with
        | some (m, rest) => some (p.1 ++ '\x7b' :: q.1 ++ '\x7d' :: m, rest)
        | none => none
      | _ => none
    | _ => none

/-- re.findall of the strategy-3 pattern: non-overlapping matches,
scanning resumes one character later after a failed attempt and after
the match end on success. -/
def findallDepth1 : Nat → List Char → List (List Char)
  | 0, _ => []
  | _, [] => []
  | fuel + 1, c :: cs =>
    if c = '\x7b' then
      match matchTail (cs.length + 1) cs with
      | some (m, rest) => ('\x7b' :: m) :: findallDepth1 fuel rest
      | none => findallDepth1 fuel cs
    else findallDepth1 fuel cs

def firstParse : List (List Char) → Option J
  | [] => none
  | m :: ms =>
    match jsonParse ⟨m⟩ with
    | some v => some v
    | none => firstParse ms

/-- Strategy 3 of extract_json: try each regex match, last match
first, and return the first that parses. -/
def strat3 (s : String) : Option J :=
  firstParse (findallDepth1 (s.data.length + 1) s.data).reverse

/-- The fence-stripped text of strategy 1:
text.replace("```json", "").replace("```", "").strip(). -/
def fenceStripped (t : String) : String :=
  pyStrip (pyRemove "```" (pyRemove "```json" t))

/-- ai_service.extract_json (lines 101-129): strategy 1 strips markdown
fences and parses; strategy 2 parses the first-brace-to-last-brace
span; strategy 3 parses depth-bounded regex candidates, largest/last
first; otherwise None. -/
def extract_json (t : String) : Option J :=
  match jsonParse (fenceStripped t) with
  | some v => some v
  | none =>
    match braceSpan t with
    | some sub =>
      match jsonParse sub with
      | some v => some v
      | none => strat3 t
    | none => strat3 t

/-- The structured failure produced when no strategy succeeds
(run_ai_analysis lines 134-138 plus the outer handler at 142-144): the
wrapped HTTP error detail, and the two 500-character log previews. -/
structure ParseFailure where
  detail : String
  previewHead : String
  previewTail : String

/-- text[:500] -/
def pyTake500 (t : String) : String := ⟨t.data.take 500⟩

/-- text[-500:] -/
def pyLast500 (t : String) : String := ⟨t.data.drop (t.data.length - 500)⟩

/-- The extraction phase of run_ai_analysis (lines 131-144): a parsed
document, or a ParseFailure carrying only the fixed detail string and
the two bounded previews of the raw text. -/
def run_ai_extract (text : String) : Except ParseFailure J :=
  match extract_json text with
  | some j => Except.ok j
  | none =>
    Except.error
      { detail := "AI analysis failed: 500: AI response was not valid JSON"
        previewHead := pyTake500 text
        previewTail := pyLast500 text }

/-! ## Part 2: the Jira service

The tracker and the client-connection are modelled by an environment:
`resp n` is the tracker's answer to the n-th issue-creation call of the
run, `updateOk n` the outcome of the n-th post-creation field update,
and `disconnected n` the n-th cancellation poll.  The service state
carries the discovered schema (as `JiraService.__init__` leaves it) and
the trace of all calls, updates and polls made so far.  The embedding
covers the configured service (`_is_configured` true), which is the
setting of all the claims; `DynamicJiraService.create_issues` in
jira_router.py is line-for-line the same walk as
`JiraService.create_issues` and is covered by the same definitions. -/

structure TrackerOk where
  key : String
  selfUrl : String
deriving DecidableEq, Repr

inductive TrackerResp where
  | ok (r : TrackerOk)
  | err (msg : String)
deriving DecidableEq, Repr

/-- The fields dict passed to jira.issue_create: the standard fields
plus custom fields (Epic Name / Epic Link) in `extra` and the subtask
parent link. -/
structure CreateReq where
  project : String
  summary : String
  description : String
  issuetype : String
  priority : Option String
  extra : List (String × String)
  parent : Option String
deriving DecidableEq, Repr

/-- Ghost tag recording which document item a tracker call was made
for (indices are the loop counters of the walk). -/
inductive Tag where
  | epic (i : Nat)
  | story (i j : Nat)
  | subtask (i j k : Nat)
deriving DecidableEq, Repr

inductive Ev where
  | call (tag : Tag) (req : CreateReq) (resp : TrackerResp)
  | update (fieldId : String) (ok : Bool)
  | poll (b : Bool)
deriving DecidableEq, Repr

/-- The discovered schema held on the service object after __init__
(project key, issue-type names from settings/detection, and the
Epic-Name / Epic-Link custom field ids). -/
structure Svc where
  project_key : String
  epic_issue_type : String
  epic_name_field : Option String
  epic_link_field : String
  story_issue_type : String
  subtask_issue_type : String
  available_issue_types : List String
deriving DecidableEq, Repr

structure St where
  svc : Svc
  nCall : Nat
  nUpd : Nat
  nPoll : Nat
  trace : List Ev
deriving DecidableEq, Repr

structure Env where
  resp : Nat → TrackerResp
  updateOk : Nat → Bool
  disconnected : Nat → Bool

def doCreate (env : Env) (tag : Tag) (req : CreateReq) (st : St) : TrackerResp × St :=
  let r := env.resp st.nCall
  (r, { st with nCall := st.nCall + 1, trace := st.trace ++ [Ev.call tag req r] })

def doUpdate (env : Env) (fieldId : String) (st : St) : Bool × St :=
  let b := env.updateOk st.nUpd
  (b, { st with nUpd := st.nUpd + 1, trace := st.trace ++ [Ev.update fieldId b] })

def doPoll (env : Env) (st : St) : Bool × St :=
  let b := env.disconnected st.nPoll
  (b, { st with nPoll := st.nPoll + 1, trace := st.trace ++ [Ev.poll b] })

/-- Python `needle in haystack` for strings. -/
def py_in (needle hay : String) : Bool :=
  decide (needle.data <:+: hay.data)

def pyLower (s : String) : String := ⟨s.data.map Char.toLower⟩

/-- Python truthiness of an optional string (None and "" are falsy). -/
def truthy (o : Option String) : Bool := o.getD "" ≠ ""

/-! ### Parsed document data

Fields a creation method reads with dict[key] are Options (a missing
key raises KeyError); fields read with .get(key, default) fall back to
the default.  Wrong-typed fields are out of scope of the embedding. -/

structure SubtaskData where
  summary : Option String
  description : Option String
deriving DecidableEq, Repr

structure StoryData where
  summary : Option String
  description : Option String
  priority : Option String
  subtasks : List SubtaskData
deriving DecidableEq, Repr

structure EpicData where
  summary : Option String
  description : Option String
  stories : List StoryData
deriving DecidableEq, Repr

/-- The ai_output dict: create_issues reads data.get('epics', []). -/
structure DocData where
  epics : Option (List EpicData)
deriving DecidableEq, Repr

structure CreatedIssue where
  key : String
  selfUrl : String
  summary : String
deriving DecidableEq, Repr

/-! ### create_epic (jira_service.py lines 239-332) -/

/-- The Epic-Name field candidates: the discovered field (if truthy)
followed by the three historically common ids. -/
def epicCandidates (svc : Svc) : List String :=
  (match svc.epic_name_field with
   | some f => if f = "" then [] else [f]
   | none => []) ++
    ["customfield_10011", "customfield_10012", "customfield_10013"]

/-- The field-error test on a lowercased message (line 284). -/
def isFieldErr (m : String) : Bool :=
  py_in "field" m && (py_in "cannot be set" m || py_in "invalid" m || py_in "not found" m)

/-- The candidate loop of create_epic (lines 266-291): one creation
call per Epic-Name candidate; a field error tries the next candidate; a
non-"required" error breaks to the no-field fallback; success caches
the winning field id. -/
def epicNameAttempts (env : Env) (i : Nat) (base : CreateReq) (summ : String) :
    List String → St → Option CreatedIssue × St
  | [], st => (none, st)
  | f :: rest, st =>
    let p := doCreate env (Tag.epic i) { base with extra := [(f, summ)] } st
    match p.1 with
    | TrackerResp.ok k =>
      (some ⟨k.key, k.selfUrl, summ⟩,
       { p.2 with svc := { p.2.svc with epic_name_field := some f } })
    | TrackerResp.err msg =>
      let m := pyLower msg
      if isFieldErr m then epicNameAttempts env i base summ rest p.2
      else if !py_in "required" m && !py_in "must be provided" m then (none, p.2)
      else epicNameAttempts env i base summ rest p.2

/-- The post-creation Epic-Name update loop (lines 299-323): try each
candidate until an update succeeds, caching the field that worked.  The
two duck-typed update methods are modelled as one update probe. -/
def epicNameUpdates (env : Env) : List String → St → St
  | [], st => st
  | f :: rest, st =>
    let u := doUpdate env f st
    if u.1 then { u.2 with svc := { u.2.svc with epic_name_field := some f } }
    else epicNameUpdates env rest u.2

/-- The base epic fields dict of create_epic (lines 258-263). -/
def epicBaseReq (svc : Svc) (ed : EpicData) (summ : String) : CreateReq :=
  { project := svc.project_key, summary := summ,
    description := ed.description.getD "", issuetype := svc.epic_issue_type,
    priority := none, extra := [], parent := none }

/-- JiraService.create_epic.  epic_data['summary'] is read outside any
try block (line 260), so a missing summary raises to the caller. -/
def create_epic (env : Env) (i : Nat) (ed : EpicData) (st : St) :
    Except String (Option CreatedIssue) × St :=
  match ed.summary with
  | none => (Except.error "\x27summary\x27", st)
  | some summ =>
    let base := epicBaseReq st.svc ed summ
    let a := epicNameAttempts env i base summ (epicCandidates st.svc) st
    match a.1 with
    | some ci => (Except.ok (some ci), a.2)
    | none =>
      let p := doCreate env (Tag.epic i) base a.2
      match p.1 with
      | TrackerResp.ok k =>
        (Except.ok (some ⟨k.key, k.selfUrl, summ⟩),
         epicNameUpdates env (epicCandidates st.svc) p.2)
      | TrackerResp.err _ => (Except.ok none, p.2)

/-! ### create_story (lines 334-434) and _create_story_fallback -/

/-- The story fields dict (lines 340-358 and the fallback builder):
core fields, priority when truthy and included, Epic Link when both the
epic key and the discovered link field are truthy. -/
def storyReq (svc : Svc) (sd : StoryData) (summ : String) (itype : String)
    (ek : Option String) (includePriority : Bool) : CreateReq :=
  { project := svc.project_key, summary := summ,
    description := sd.description.getD "", issuetype := itype,
    priority := if includePriority && truthy sd.priority then sd.priority else none,
    extra :=
      if truthy ek && svc.epic_link_field ≠ "" then
        [(svc.epic_link_field, ek.getD "")]
      else [],
    parent := none }

/-- The alternate issue types tried on an invalid-issue-type rejection
(lines 375-379): available types whose lowercased name contains none of
"epic", "subtask", "sub-task", excluding the current story type. -/
def storyAltTypes (svc : Svc) : List String :=
  svc.available_issue_types.filter (fun t =>
    let l := pyLower t
    !py_in "epic" l && !py_in "subtask" l && !py_in "sub-task" l &&
      t ≠ svc.story_issue_type)

/-- The alternate-type retry loop (lines 375-406): one creation call
per candidate; the first success is adopted as the run's story issue
type. -/
def storyAltAttempts (env : Env) (tg : Tag) (sd : StoryData) (summ : String)
    (ek : Option String) : List String → St → Option CreatedIssue × St
  | [], st => (none, st)
  | t :: rest, st =>
    let p := doCreate env tg (storyReq st.svc sd summ t ek true) st
    match p.1 with
    | TrackerResp.ok k =>
      (some ⟨k.key, k.selfUrl, summ⟩,
       { p.2 with svc := { p.2.svc with story_issue_type := t } })
    | TrackerResp.err _ => storyAltAttempts env tg sd summ ek rest p.2

/-- JiraService._create_story_fallback (lines 436-461): a single
creation call with optional priority, raising any API error to the
caller (and KeyError when summary is missing). -/
def create_story_fallback (env : Env) (tg : Tag) (sd : StoryData)
    (ek : Option String) (includePriority : Bool) (st : St) :
    Except String (Option CreatedIssue) × St :=
  match sd.summary with
  | none => (Except.error "\x27summary\x27", st)
  | some summ =>
    let p := doCreate env tg (storyReq st.svc sd summ st.svc.story_issue_type ek includePriority) st
    match p.1 with
    | TrackerResp.ok k => (Except.ok (some ⟨k.key, k.selfUrl, summ⟩), p.2)
    | TrackerResp.err m => (Except.error m, p.2)

/-- The fallback ladder of create_story (lines 408-432): when the
original error mentions "priority", first retry with the epic key and
no priority; always finally retry with no epic key and no priority;
exceptions in an attempt continue to the next one. -/
def storyFallbacks (env : Env) (tg : Tag) (sd : StoryData) (ek : Option String)
    (st : St) (origMsg : String) : Option CreatedIssue × St :=
  let r1 : Option CreatedIssue × St :=
    if py_in "priority" (pyLower origMsg) then
      match create_story_fallback env tg sd ek false st with
      | (Except.ok (some ci), st2) => (some ci, st2)
      | (_, st2) => (none, st2)
    else (none, st)
  match r1.1 with
  | some ci => (some ci, r1.2)
  | none =>
    match create_story_fallback env tg sd none false r1.2 with
    | (Except.ok (some ci), st2) => (some ci, st2)
    | (_, st2) => (none, st2)

/-- The recovery path of create_story after the first attempt raised
(lines 367-434): alternate issue types on an invalid-issue-type error,
then the fallback ladder. -/
def storyRecover (env : Env) (tg : Tag) (sd : StoryData) (summ : String)
    (ek : Option String) (st : St) (msg : String) : Option CreatedIssue × St :=
  let lower := pyLower msg
  let a : Option CreatedIssue × St :=
    if py_in "issue type" lower || py_in "valid issue type" lower then
      storyAltAttempts env tg sd summ ek (storyAltTypes st.svc) st
    else (none, st)
  match a.1 with
  | some ci => (some ci, a.2)
  | none => storyFallbacks env tg sd ek a.2 msg

/-- JiraService.create_story.  The whole body is inside a try, so a
missing summary becomes the caught KeyError text, the quoted word
summary (which matches
neither the issue-type nor the priority test) and the fallbacks, which
re-raise the same KeyError, leave the result None without any tracker
call. -/
def create_story (env : Env) (tg : Tag) (sd : StoryData) (ek : Option String)
    (st : St) : Option CreatedIssue × St :=
  match sd.summary with
  | none => storyFallbacks env tg sd ek st "\x27summary\x27"
  | some summ =>
    let p := doCreate env tg (storyReq st.svc sd summ st.svc.story_issue_type ek true) st
    match p.1 with
    | TrackerResp.ok k => (some ⟨k.key, k.selfUrl, summ⟩, p.2)
    | TrackerResp.err msg => storyRecover env tg sd summ ek p.2 msg

/-! ### create_subtask (lines 463-486) -/

/-- The subtask fields dict (lines 469-475): core fields plus the
mandatory parent link. -/
def subReqOf (svc : Svc) (sd : SubtaskData) (summ pk : String) : CreateReq :=
  { project := svc.project_key, summary := summ,
    description := sd.description.getD "", issuetype := svc.subtask_issue_type,
    priority := none, extra := [], parent := some pk }

/-- JiraService.create_subtask: a single attempt with the mandatory
parent link; any failure (including a missing summary) yields None. -/
def create_subtask (env : Env) (tg : Tag) (sd : SubtaskData) (parentKey : String)
    (st : St) : Option CreatedIssue × St :=
  match sd.summary with
  | none => (none, st)
  | some summ =>
    let p := doCreate env tg (subReqOf st.svc sd summ parentKey) st
    match p.1 with
    | TrackerResp.ok k => (some ⟨k.key, k.selfUrl, summ⟩, p.2)
    | TrackerResp.err _ => (none, p.2)

/-! ### create_issues (lines 488-547) -/

structure CreationResult where
  epics : List CreatedIssue
  stories : List CreatedIssue
  subtasks : List CreatedIssue
  errors : List String
deriving DecidableEq, Repr

def emptyResult : CreationResult := ⟨[], [], [], []⟩

def cancelMsg : String := "Ticket creation was cancelled by client"

/-- How a walk level ended: normally, by a cancellation early-return,
or by an uncaught exception (absorbed at the top of create_issues). -/
inductive Outcome where
  | done
  | cancelled
  | raised (msg : String)
deriving DecidableEq, Repr

/-- The subtask loop of create_issues (lines 524-535): poll, create,
append result or error.  The error f-string reads subtask['summary'],
so a failed subtask with no summary raises. -/
def runSubtasks (env : Env) (i j : Nat) :
    Nat → List SubtaskData → String → CreationResult → St →
    CreationResult × St × Outcome
  | _, [], _, res, st => (res, st, Outcome.done)
  | k, sub :: rest, storyKey, res, st =>
    let p := doPoll env st
    if p.1 then
      ({ res with errors := res.errors ++ [cancelMsg] }, p.2, Outcome.cancelled)
    else
      match create_subtask env (Tag.subtask i j k) sub storyKey p.2 with
      | (some ci, st2) =>
        runSubtasks env i j (k + 1) rest storyKey
          { res with subtasks := res.subtasks ++ [ci] } st2
      | (none, st2) =>
        match sub.summary with
        | some s =>
          runSubtasks env i j (k + 1) rest storyKey
            { res with errors := res.errors ++ ["Failed to create subtask: " ++ s] } st2
        | none => (res, st2, Outcome.raised "\x27summary\x27")

/-- The story loop of create_issues (lines 512-537). -/
def runStories (env : Env) (i : Nat) :
    Nat → List StoryData → String → CreationResult → St →
    CreationResult × St × Outcome
  | _, [], _, res, st => (res, st, Outcome.done)
  | j, sd :: rest, epicKey, res, st =>
    let p := doPoll env st
    if p.1 then
      ({ res with errors := res.errors ++ [cancelMsg] }, p.2, Outcome.cancelled)
    else
      match create_story env (Tag.story i j) sd (some epicKey) p.2 with
      | (some ci, st2) =>
        match runSubtasks env i j 0 sd.subtasks ci.key
            { res with stories := res.stories ++ [ci] } st2 with
        | (res2, st3, Outcome.done) => runStories env i (j + 1) rest epicKey res2 st3
        | (res2, st3, oc) => (res2, st3, oc)
      | (none, st2) =>
        match sd.summary with
        | some s =>
          runStories env i (j + 1) rest epicKey
            { res with errors := res.errors ++ ["Failed to create story: " ++ s] } st2
        | none => (res, st2, Outcome.raised "\x27summary\x27")

/-- The epic loop of create_issues (lines 498-539). -/
def runEpics (env : Env) :
    Nat → List EpicData → CreationResult → St → CreationResult × St × Outcome
  | _, [], res, st => (res, st, Outcome.done)
  | i, ed :: rest, res, st =>
    let p := doPoll env st
    if p.1 then
      ({ res with errors := res.errors ++ [cancelMsg] }, p.2, Outcome.cancelled)
    else
      match create_epic env i ed p.2 with
      | (Except.error m, st2) => (res, st2, Outcome.raised m)
      | (Except.ok none, st2) =>
        match ed.summary with
        | some s =>
          runEpics env (i + 1) rest
            { res with errors := res.errors ++ ["Failed to create epic: " ++ s] } st2
        | none => (res, st2, Outcome.raised "\x27summary\x27")
      | (Except.ok (some ci), st2) =>
        match runStories env i 0 ed.stories ci.key
            { res with epics := res.epics ++ [ci] } st2 with
        | (res2, st3, Outcome.done) => runEpics env (i + 1) rest res2 st3
        | (res2, st3, oc) => (res2, st3, oc)

/-- JiraService.create_issues: the triple-nested walk, with the outer
try/except turning an uncaught exception into one generic error on the
partial result (lines 543-547). -/
def create_issues (env : Env) (doc : DocData) (st : St) : CreationResult × St :=
  match runEpics env 0 (doc.epics.getD []) emptyResult st with
  | (res, st', Outcome.raised m) =>
    ({ res with errors := res.errors ++ ["Error creating issues in Jira: " ++ m] }, st')
  | (res, st', _) => (res, st')

/-! ## Part 3: trace predicates and generic lemmas -/

/-- Event classifiers used by the claims. -/
def isStoryCallEv (i j : Nat) (e : Ev) : Prop :=
  ∃ req r, e = Ev.call (Tag.story i j) req r

def isEpicOkEv (i : Nat) (e : Ev) : Prop :=
  ∃ req k, e = Ev.call (Tag.epic i) req (TrackerResp.ok k)

def isSubCallEv (i j k : Nat) (e : Ev) : Prop :=
  ∃ req r, e = Ev.call (Tag.subtask i j k) req r

def isStoryOkEv (i j : Nat) (e : Ev) : Prop :=
  ∃ req kk, e = Ev.call (Tag.story i j) req (TrackerResp.ok kk)

/-- Every Q-event of the trace has an earlier P-event. -/
def seenB (Q P : Ev → Prop) (tr : List Ev) : Prop :=
  ∀ pre e suf, tr = pre ++ e :: suf → Q e → ∃ x, x ∈ pre ∧ P x

/-- Creation order of the walk: every story call is preceded by a
successful creation call for its parent epic, and every subtask call by
a successful creation call for its parent story. -/
def orderOK (tr : List Ev) : Prop :=
  (∀ i j, seenB (isStoryCallEv i j) (isEpicOkEv i) tr) ∧
  (∀ i j k, seenB (isSubCallEv i j k) (isStoryOkEv i j) tr)

/-- Every story call in the trace carries the Epic-Link pair for its
parent epic's tracker-assigned key. -/
def storiesLinked (lf : String) (tr : List Ev) : Prop :=
  ∀ i j req r, Ev.call (Tag.story i j) req r ∈ tr →
    ∃ req2 k, Ev.call (Tag.epic i) req2 (TrackerResp.ok k) ∈ tr ∧
      (lf, k.key) ∈ req.extra

/-- Every subtask call in the trace carries its parent story's
tracker-assigned key. -/
def subtasksLinked (tr : List Ev) : Prop :=
  ∀ i j k0 req r, Ev.call (Tag.subtask i j k0) req r ∈ tr →
    ∃ req2 kk, Ev.call (Tag.story i j) req2 (TrackerResp.ok kk) ∈ tr ∧
      req.parent = some kk.key

def isOkCallB (p : Tag → Bool) : Ev → Bool
  | Ev.call t _ (TrackerResp.ok _) => p t
  | _ => false

/-- Number of successful creation calls with a tag satisfying p. -/
def countOk (p : Tag → Bool) (tr : List Ev) : Nat :=
  (tr.filter (isOkCallB p)).length

def tagEpicB : Tag → Bool
  | Tag.epic _ => true
  | _ => false

def tagStoryB : Tag → Bool
  | Tag.story _ _ => true
  | _ => false

def tagSubB : Tag → Bool
  | Tag.subtask _ _ _ => true
  | _ => false

def evTag : Ev → Option Tag
  | Ev.call t _ _ => some t
  | _ => none

/-- Number of creation calls (attempts) carrying the given tag. -/
def callsTagged (t : Tag) (tr : List Ev) : Nat :=
  (tr.filter (fun e => evTag e = some t)).length

/-- All events of a creation delta: calls with one fixed tag. -/
def onlyTagged (tg : Tag) (Δ : List Ev) : Prop :=
  ∀ e ∈ Δ, ∃ req r, e = Ev.call tg req r

/-- All events of a create_epic delta: epic-i calls or field updates. -/
def epicDelta (i : Nat) (Δ : List Ev) : Prop :=
  ∀ e ∈ Δ, (∃ req r, e = Ev.call (Tag.epic i) req r) ∨ (∃ f b, e = Ev.update f b)

/-- Fields of the discovered schema no creation method ever mutates
(create_epic relearns only epic_name_field; create_story only
story_issue_type). -/
def svcCompat (a b : Svc) : Prop :=
  a.project_key = b.project_key ∧ a.epic_issue_type = b.epic_issue_type ∧
  a.epic_link_field = b.epic_link_field ∧ a.subtask_issue_type = b.subtask_issue_type ∧
  a.available_issue_types = b.available_issue_types

theorem svcCompat_refl (a : Svc) : svcCompat a a :=
  ⟨rfl, rfl, rfl, rfl, rfl⟩

theorem svcCompat_trans {a b c : Svc} (h1 : svcCompat a b) (h2 : svcCompat b c) :
    svcCompat a c := by
  obtain ⟨p1, e1, l1, s1, v1⟩ := h1
  obtain ⟨p2, e2, l2, s2, v2⟩ := h2
  exact ⟨p1.trans p2, e1.trans e2, l1.trans l2, s1.trans s2, v1.trans v2⟩

theorem countOk_append (p : Tag → Bool) (a b : List Ev) :
    countOk p (a ++ b) = countOk p a + countOk p b := by
  simp [countOk, List.filter_append]

theorem callsTagged_append (t : Tag) (a b : List Ev) :
    callsTagged t (a ++ b) = callsTagged t a + callsTagged t b := by
  simp [callsTagged, List.filter_append]

theorem countOk_nil (p : Tag → Bool) : countOk p [] = 0 := rfl

theorem callsTagged_nil (t : Tag) : callsTagged t [] = 0 := rfl

theorem countOk_zero_of_onlyTagged {p : Tag → Bool} {tg : Tag} (hp : p tg = false)
    {Δ : List Ev} (h : onlyTagged tg Δ) : countOk p Δ = 0 := by
  have : Δ.filter (isOkCallB p) = [] := by
    apply List.filter_eq_nil_iff.mpr
    intro e he
    obtain ⟨req, r, rfl⟩ := h e he
    cases r <;> simp [isOkCallB, hp]
  simp [countOk, this]

theorem countOk_zero_of_epicDelta {p : Tag → Bool} {i : Nat}
    (hp : p (Tag.epic i) = false) {Δ : List Ev} (h : epicDelta i Δ) :
    countOk p Δ = 0 := by
  have : Δ.filter (isOkCallB p) = [] := by
    apply List.filter_eq_nil_iff.mpr
    intro e he
    rcases h e he with ⟨req, r, rfl⟩ | ⟨f, b, rfl⟩
    · cases r <;> simp [isOkCallB, hp]
    · simp [isOkCallB]
  simp [countOk, this]

theorem callsTagged_zero_of_onlyTagged {t tg : Tag} (ht : t ≠ tg)
    {Δ : List Ev} (h : onlyTagged tg Δ) : callsTagged t Δ = 0 := by
  have : Δ.filter (fun e => evTag e = some t) = [] := by
    apply List.filter_eq_nil_iff.mpr
    intro e he
    obtain ⟨req, r, rfl⟩ := h e he
    simp [evTag]
    intro hc
    exact ht hc.symm
  simp [callsTagged, this]

theorem seenB_nil (Q P : Ev → Prop) : seenB Q P [] := by
  intro pre e suf h _
  exact absurd h (by simp)

theorem seenB_append {Q P : Ev → Prop} {tr : List Ev} (Δ : List Ev)
    (h : seenB Q P tr) (hΔ : ∀ e ∈ Δ, Q e → ∃ x, x ∈ tr ∧ P x) :
    seenB Q P (tr ++ Δ) := by
  intro pre e suf heq hQ
  rcases List.append_eq_append_iff.mp heq with ⟨a, ha1, ha2⟩ | ⟨c, hc1, hc2⟩
  · -- pre = tr ++ a and Δ = a ++ e :: suf : e is in Δ
    have he : e ∈ Δ := by
      rw [ha2]
      exact List.mem_append_right a (List.mem_cons_self e suf)
    obtain ⟨x, hx, hPx⟩ := hΔ e he hQ
    exact ⟨x, by rw [ha1]; exact List.mem_append_left a hx, hPx⟩
  · -- tr = pre ++ c and e :: suf = c ++ Δ
    cases c with
    | nil =>
      have he : e ∈ Δ := by
        have : e :: suf = Δ := by simpa using hc2
        rw [← this]
        exact List.mem_cons_self e suf
      obtain ⟨x, hx, hPx⟩ := hΔ e he hQ
      refine ⟨x, ?_, hPx⟩
      have : tr = pre := by simpa using hc1
      rw [← this]
      exact hx
    | cons y c' =>
      obtain ⟨hy, hsuf⟩ : y = e ∧ c' ++ Δ = suf := by
        constructor
        · injection hc2 with h1 _
          exact h1.symm
        · injection hc2 with _ h2
          exact h2.symm
      subst hy
      exact h pre y c' hc1 hQ

theorem orderOK_nil : orderOK [] :=
  ⟨fun _ _ => seenB_nil _ _, fun _ _ _ => seenB_nil _ _⟩

theorem orderOK_append {tr : List Ev} (Δ : List Ev) (h : orderOK tr)
    (hS : ∀ e ∈ Δ, ∀ i j, isStoryCallEv i j e → ∃ x, x ∈ tr ∧ isEpicOkEv i x)
    (hT : ∀ e ∈ Δ, ∀ i j k, isSubCallEv i j k e → ∃ x, x ∈ tr ∧ isStoryOkEv i j x) :
    orderOK (tr ++ Δ) := by
  constructor
  · intro i j
    exact seenB_append Δ (h.1 i j) (fun e he hQ => hS e he i j hQ)
  · intro i j k
    exact seenB_append Δ (h.2 i j k) (fun e he hQ => hT e he i j k hQ)

theorem storiesLinked_nil (lf : String) : storiesLinked lf [] := by
  intro i j req r h
  exact absurd h (by simp)

theorem subtasksLinked_nil : subtasksLinked [] := by
  intro i j k0 req r h
  exact absurd h (by simp)

theorem storiesLinked_append {lf : String} {tr : List Ev} (Δ : List Ev)
    (h : storiesLinked lf tr)
    (hΔ : ∀ i j req r, Ev.call (Tag.story i j) req r ∈ Δ →
      ∃ req2 k, Ev.call (Tag.epic i) req2 (TrackerResp.ok k) ∈ tr ∧
        (lf, k.key) ∈ req.extra) :
    storiesLinked lf (tr ++ Δ) := by
  intro i j req r hm
  rcases List.mem_append.mp hm with hin | hin
  · obtain ⟨req2, k, hk, hx⟩ := h i j req r hin
    exact ⟨req2, k, List.mem_append_left Δ hk, hx⟩
  · obtain ⟨req2, k, hk, hx⟩ := hΔ i j req r hin
    exact ⟨req2, k, List.mem_append_left Δ hk, hx⟩

theorem subtasksLinked_append {tr : List Ev} (Δ : List Ev)
    (h : subtasksLinked tr)
    (hΔ : ∀ i j k0 req r, Ev.call (Tag.subtask i j k0) req r ∈ Δ →
      ∃ req2 kk, Ev.call (Tag.story i j) req2 (TrackerResp.ok kk) ∈ tr ∧
        req.parent = some kk.key) :
    subtasksLinked (tr ++ Δ) := by
  intro i j k0 req r hm
  rcases List.mem_append.mp hm with hin | hin
  · obtain ⟨req2, kk, hk, hx⟩ := h i j k0 req r hin
    exact ⟨req2, kk, List.mem_append_left Δ hk, hx⟩
  · obtain ⟨req2, kk, hk, hx⟩ := hΔ i j k0 req r hin
    exact ⟨req2, kk, List.mem_append_left Δ hk, hx⟩

/-- A walk error string never equals the cancellation message (they
start with different characters). -/
theorem append_ne_cancelMsg (p s : String) (hp : p.data.head? = some 'F' ∨ p.data.head? = some 'E') :
    p ++ s ≠ cancelMsg := by
  intro h
  obtain ⟨pd⟩ := p
  obtain ⟨sd⟩ := s
  have hd : pd ++ sd = cancelMsg.data := by
    have : (String.mk pd ++ String.mk sd).data = cancelMsg.data := by rw [h]
    simpa using this
  have hT : cancelMsg.data.head? = some 'T' := by decide
  rcases hp with hF | hE
  · cases pd with
    | nil => simp at hF
    | cons c t =>
      have : c = 'F' := by simpa using hF
      subst this
      rw [← hd] at hT
      simp at hT
  · cases pd with
    | nil => simp at hE
    | cons c t =>
      have : c = 'E' := by simpa using hE
      subst this
      rw [← hd] at hT
      simp at hT

theorem poll_not_mem_of_onlyTagged {tg : Tag} {Δ : List Ev} (h : onlyTagged tg Δ)
    (b : Bool) : Ev.poll b ∉ Δ := by
  intro hm
  obtain ⟨req, r, he⟩ := h _ hm
  exact absurd he (by simp)

theorem poll_not_mem_of_epicDelta {i : Nat} {Δ : List Ev} (h : epicDelta i Δ)
    (b : Bool) : Ev.poll b ∉ Δ := by
  intro hm
  rcases h _ hm with ⟨req, r, he⟩ | ⟨f, bb, he⟩ <;> exact absurd he (by simp)

/-! ## Part 4: behaviour of the single-issue creators (arbitrary tracker) -/

/-- The indicator used to count successful creations per call delta. -/
def okInd : Option CreatedIssue → Nat
  | some _ => 1
  | none => 0

theorem create_subtask_spec (env : Env) (tg : Tag) (sd : SubtaskData) (pk : String)
    (st : St) :
    ∃ Δ,
      (create_subtask env tg sd pk st).2.trace = st.trace ++ Δ ∧
      onlyTagged tg Δ ∧
      (∀ p : Tag → Bool, p tg = true →
        countOk p Δ = okInd (create_subtask env tg sd pk st).1) ∧
      (∀ ci, (create_subtask env tg sd pk st).1 = some ci →
        ∃ req kk, Ev.call tg req (TrackerResp.ok kk) ∈ Δ ∧ kk.key = ci.key) ∧
      (create_subtask env tg sd pk st).2.svc = st.svc ∧
      callsTagged tg Δ ≤ 1 ∧
      (∀ req r, Ev.call tg req r ∈ Δ → req.parent = some pk) := by
  cases hsum : sd.summary with
  | none =>
    refine ⟨[], ?_⟩
    simp [create_subtask, hsum, onlyTagged, countOk, callsTagged, okInd]
  | some s =>
    cases hr : env.resp st.nCall with
    | ok k =>
      refine ⟨[Ev.call tg (subReqOf st.svc sd s pk) (TrackerResp.ok k)], ?_⟩
      have he : create_subtask env tg sd pk st =
          (some ⟨k.key, k.selfUrl, s⟩,
           { st with
               nCall := st.nCall + 1
               trace := st.trace ++
                 [Ev.call tg (subReqOf st.svc sd s pk) (TrackerResp.ok k)] }) := by
        simp [create_subtask, hsum, doCreate, hr]
      rw [he]
      refine ⟨rfl, ?_, ?_, ?_, rfl, ?_, ?_⟩
      · intro e he'
        simp at he'
        exact ⟨_, _, he'⟩
      · intro p hp
        simp [countOk, isOkCallB, hp, okInd]
      · intro ci hci
        injection hci with h1
        refine ⟨subReqOf st.svc sd s pk, k, by simp, ?_⟩
        rw [← h1]
      · simp [callsTagged, evTag, List.filter]
      · intro req r hm
        simp at hm
        rw [hm.1]
        simp [subReqOf]
    | err m =>
      refine ⟨[Ev.call tg (subReqOf st.svc sd s pk) (TrackerResp.err m)], ?_⟩
      have he : create_subtask env tg sd pk st =
          (none,
           { st with
               nCall := st.nCall + 1
               trace := st.trace ++
                 [Ev.call tg (subReqOf st.svc sd s pk) (TrackerResp.err m)] }) := by
        simp [create_subtask, hsum, doCreate, hr]
      rw [he]
      refine ⟨rfl, ?_, ?_, ?_, rfl, ?_, ?_⟩
      · intro e he'
        simp at he'
        exact ⟨_, _, he'⟩
      · intro p hp
        simp [countOk, isOkCallB, okInd]
      · intro ci hci
        simp at hci
      · simp [callsTagged, evTag, List.filter]
      · intro req r hm
        simp at hm
        rw [hm.1]
        simp [subReqOf]

theorem onlyTagged_nil (tg : Tag) : onlyTagged tg [] := by
  intro e he
  exact absurd he (by simp)

theorem onlyTagged_append {tg : Tag} {a b : List Ev}
    (ha : onlyTagged tg a) (hb : onlyTagged tg b) : onlyTagged tg (a ++ b) := by
  intro e he
  rcases List.mem_append.mp he with h | h
  · exact ha e h
  · exact hb e h

/-- The result type of a story helper: success indicator over
Except-valued fallbacks. -/
def okIndE : Except String (Option CreatedIssue) → Nat
  | Except.ok (some _) => 1
  | _ => 0

theorem create_story_fallback_spec (env : Env) (tg : Tag) (sd : StoryData)
    (ek : Option String) (ip : Bool) (st : St) :
    ∃ Δ,
      (create_story_fallback env tg sd ek ip st).2.trace = st.trace ++ Δ ∧
      onlyTagged tg Δ ∧
      (∀ p : Tag → Bool, p tg = true →
        countOk p Δ = okIndE (create_story_fallback env tg sd ek ip st).1) ∧
      (∀ ci, (create_story_fallback env tg sd ek ip st).1 = Except.ok (some ci) →
        ∃ req kk, Ev.call tg req (TrackerResp.ok kk) ∈ Δ ∧ kk.key = ci.key) ∧
      (create_story_fallback env tg sd ek ip st).2.svc = st.svc ∧
      callsTagged tg Δ ≤ 1 := by
  cases hsum : sd.summary with
  | none =>
    refine ⟨[], ?_⟩
    simp [create_story_fallback, hsum, onlyTagged, countOk, callsTagged, okIndE]
  | some s =>
    cases hr : env.resp st.nCall with
    | ok k =>
      refine ⟨[Ev.call tg (storyReq st.svc sd s st.svc.story_issue_type ek ip)
        (TrackerResp.ok k)], ?_⟩
      have he : create_story_fallback env tg sd ek ip st =
          (Except.ok (some ⟨k.key, k.selfUrl, s⟩),
           { st with
               nCall := st.nCall + 1
               trace := st.trace ++
                 [Ev.call tg (storyReq st.svc sd s st.svc.story_issue_type ek ip)
                   (TrackerResp.ok k)] }) := by
        simp [create_story_fallback, hsum, doCreate, hr]
      rw [he]
      refine ⟨rfl, ?_, ?_, ?_, rfl, ?_⟩
      · intro e he'
        simp at he'
        exact ⟨_, _, he'⟩
      · intro p hp
        simp [countOk, isOkCallB, hp, okIndE]
      · intro ci hci
        injection hci with h1
        injection h1 with h1
        refine ⟨storyReq st.svc sd s st.svc.story_issue_type ek ip, k, by simp, ?_⟩
        rw [← h1]
      · simp [callsTagged, evTag, List.filter]
    | err m =>
      refine ⟨[Ev.call tg (storyReq st.svc sd s st.svc.story_issue_type ek ip)
        (TrackerResp.err m)], ?_⟩
      have he : create_story_fallback env tg sd ek ip st =
          (Except.error m,
           { st with
               nCall := st.nCall + 1
               trace := st.trace ++
                 [Ev.call tg (storyReq st.svc sd s st.svc.story_issue_type ek ip)
                   (TrackerResp.err m)] }) := by
        simp [create_story_fallback, hsum, doCreate, hr]
      rw [he]
      refine ⟨rfl, ?_, ?_, ?_, rfl, ?_⟩
      · intro e he'
        simp at he'
        exact ⟨_, _, he'⟩
      · intro p hp
        simp [countOk, isOkCallB, okIndE]
      · intro ci hci
        simp at hci
      · simp [callsTagged, evTag, List.filter]

theorem storyAltAttempts_spec (env : Env) (tg : Tag) (sd : StoryData) (summ : String)
    (ek : Option String) :
    ∀ (cands : List String) (st : St),
    ∃ Δ,
      (storyAltAttempts env tg sd summ ek cands st).2.trace = st.trace ++ Δ ∧
      onlyTagged tg Δ ∧
      (∀ p : Tag → Bool, p tg = true →
        countOk p Δ = okInd (storyAltAttempts env tg sd summ ek cands st).1) ∧
      (∀ ci, (storyAltAttempts env tg sd summ ek cands st).1 = some ci →
        ∃ req kk, Ev.call tg req (TrackerResp.ok kk) ∈ Δ ∧ kk.key = ci.key) ∧
      svcCompat (storyAltAttempts env tg sd summ ek cands st).2.svc st.svc ∧
      (storyAltAttempts env tg sd summ ek cands st).2.svc.epic_name_field =
        st.svc.epic_name_field ∧
      callsTagged tg Δ ≤ cands.length := by
  intro cands
  induction cands with
  | nil =>
    intro st
    refine ⟨[], by simp [storyAltAttempts], onlyTagged_nil tg, ?_, ?_, ?_, ?_, ?_⟩
    · intro p hp
      simp [storyAltAttempts, countOk, okInd]
    · intro ci hci
      simp [storyAltAttempts] at hci
    · exact svcCompat_refl _
    · rfl
    · simp [callsTagged]
  | cons t rest ih =>
    intro st
    cases hr : env.resp st.nCall with
    | ok k =>
      refine ⟨[Ev.call tg (storyReq st.svc sd summ t ek true) (TrackerResp.ok k)], ?_⟩
      have he : storyAltAttempts env tg sd summ ek (t :: rest) st =
          (some ⟨k.key, k.selfUrl, summ⟩,
           { st with
               svc := { st.svc with story_issue_type := t }
               nCall := st.nCall + 1
               trace := st.trace ++
                 [Ev.call tg (storyReq st.svc sd summ t ek true) (TrackerResp.ok k)] }) := by
        simp [storyAltAttempts, doCreate, hr]
      rw [he]
      refine ⟨rfl, ?_, ?_, ?_, ?_, rfl, ?_⟩
      · intro e he'
        simp at he'
        exact ⟨_, _, he'⟩
      · intro p hp
        simp [countOk, isOkCallB, hp, okInd]
      · intro ci hci
        injection hci with h1
        refine ⟨storyReq st.svc sd summ t ek true, k, by simp, ?_⟩
        rw [← h1]
      · exact ⟨rfl, rfl, rfl, rfl, rfl⟩
      · simp [callsTagged, evTag, List.filter]
    | err m =>
      have he : storyAltAttempts env tg sd summ ek (t :: rest) st =
          storyAltAttempts env tg sd summ ek rest
            { st with
                nCall := st.nCall + 1
                trace := st.trace ++
                  [Ev.call tg (storyReq st.svc sd summ t ek true) (TrackerResp.err m)] } := by
        simp [storyAltAttempts, doCreate, hr]
      obtain ⟨Δ, h1, h2, h3, h4, h5, h6, h7⟩ := ih
        { st with
            nCall := st.nCall + 1
            trace := st.trace ++
              [Ev.call tg (storyReq st.svc sd summ t ek true) (TrackerResp.err m)] }
      refine ⟨[Ev.call tg (storyReq st.svc sd summ t ek true) (TrackerResp.err m)] ++ Δ,
        ?_, ?_, ?_, ?_, ?_, ?_, ?_⟩
      · rw [he, h1]
        simp
      · refine onlyTagged_append ?_ h2
        intro e he'
        simp at he'
        exact ⟨_, _, he'⟩
      · intro p hp
        rw [he, countOk_append, h3 p hp]
        simp [countOk, isOkCallB]
      · intro ci hci
        rw [he] at hci
        obtain ⟨req, kk, hk, hx⟩ := h4 ci hci
        exact ⟨req, kk, List.mem_append_right _ hk, hx⟩
      · rw [he]
        exact h5
      · rw [he]
        exact h6
      · rw [callsTagged_append]
        have h0 : callsTagged tg
            [Ev.call tg (storyReq st.svc sd summ t ek true) (TrackerResp.err m)] = 1 := by
          simp [callsTagged, evTag, List.filter]
        rw [h0]
        simp only [List.length_cons]
        omega

theorem storyFallbacks_spec (env : Env) (tg : Tag) (sd : StoryData) (ek : Option String)
    (st : St) (msg : String) :
    ∃ Δ,
      (storyFallbacks env tg sd ek st msg).2.trace = st.trace ++ Δ ∧
      onlyTagged tg Δ ∧
      (∀ p : Tag → Bool, p tg = true →
        countOk p Δ = okInd (storyFallbacks env tg sd ek st msg).1) ∧
      (∀ ci, (storyFallbacks env tg sd ek st msg).1 = some ci →
        ∃ req kk, Ev.call tg req (TrackerResp.ok kk) ∈ Δ ∧ kk.key = ci.key) ∧
      (storyFallbacks env tg sd ek st msg).2.svc = st.svc ∧
      callsTagged tg Δ ≤ 2 := by
  cases hp : py_in "priority" (pyLower msg) with
  | false =>
    obtain ⟨Δ2, g1, g2, g3, g4, g5, g6⟩ := create_story_fallback_spec env tg sd none false st
    rcases hq : create_story_fallback env tg sd none false st with ⟨r2, st2⟩
    rw [hq] at g1 g3 g4 g5
    cases r2 with
    | ok o =>
      cases o with
      | some ci =>
        have he : storyFallbacks env tg sd ek st msg = (some ci, st2) := by
          simp [storyFallbacks, hp, hq]
        refine ⟨Δ2, ?_, g2, ?_, ?_, ?_, Nat.le_succ_of_le g6⟩
        · rw [he]; exact g1
        · intro p hpp
          rw [he]
          exact g3 p hpp
        · intro ci2 hci2
          rw [he] at hci2
          injection hci2 with h1
          exact h1 ▸ g4 ci rfl
        · rw [he]; exact g5
      | none =>
        have he : storyFallbacks env tg sd ek st msg = (none, st2) := by
          simp [storyFallbacks, hp, hq]
        refine ⟨Δ2, ?_, g2, ?_, ?_, ?_, Nat.le_succ_of_le g6⟩
        · rw [he]; exact g1
        · intro p hpp
          rw [he]
          simpa [okIndE, okInd] using g3 p hpp
        · intro ci2 hci2
          rw [he] at hci2
          simp at hci2
        · rw [he]; exact g5
    | error m2 =>
      have he : storyFallbacks env tg sd ek st msg = (none, st2) := by
        simp [storyFallbacks, hp, hq]
      refine ⟨Δ2, ?_, g2, ?_, ?_, ?_, Nat.le_succ_of_le g6⟩
      · rw [he]; exact g1
      · intro p hpp
        rw [he]
        simpa [okIndE, okInd] using g3 p hpp
      · intro ci2 hci2
        rw [he] at hci2
        simp at hci2
      · rw [he]; exact g5
  | true =>
    obtain ⟨Δ1, f1, f2, f3, f4, f5, f6⟩ := create_story_fallback_spec env tg sd ek false st
    rcases hq1 : create_story_fallback env tg sd ek false st with ⟨r1, st1⟩
    rw [hq1] at f1 f3 f4 f5
    cases r1 with
    | ok o =>
      cases o with
      | some ci =>
        have he : storyFallbacks env tg sd ek st msg = (some ci, st1) := by
          simp [storyFallbacks, hp, hq1]
        refine ⟨Δ1, ?_, f2, ?_, ?_, ?_, Nat.le_succ_of_le f6⟩
        · rw [he]; exact f1
        · intro p hpp
          rw [he]
          exact f3 p hpp
        · intro ci2 hci2
          rw [he] at hci2
          injection hci2 with h1
          exact h1 ▸ f4 ci rfl
        · rw [he]; exact f5
      | none =>
        obtain ⟨Δ2, g1, g2, g3, g4, g5, g6⟩ := create_story_fallback_spec env tg sd none false st1
        rcases hq2 : create_story_fallback env tg sd none false st1 with ⟨r2, st2⟩
        rw [hq2] at g1 g3 g4 g5
        have hnone : okIndE (Except.ok (none : Option CreatedIssue)) = 0 := rfl
        cases r2 with
        | ok o2 =>
          cases o2 with
          | some ci =>
            have he : storyFallbacks env tg sd ek st msg = (some ci, st2) := by
              simp [storyFallbacks, hp, hq1, hq2]
            refine ⟨Δ1 ++ Δ2, ?_, onlyTagged_append f2 g2, ?_, ?_, ?_, ?_⟩
            · rw [he]
              simp at g1
              rw [g1, f1, List.append_assoc]
            · intro p hpp
              rw [he, countOk_append]
              have := f3 p hpp
              simp [okIndE] at this
              rw [this, g3 p hpp]
              simp [okIndE, okInd]
            · intro ci2 hci2
              rw [he] at hci2
              injection hci2 with h1
              obtain ⟨req, kk, hk, hx⟩ := g4 ci rfl
              exact ⟨req, kk, List.mem_append_right _ hk, h1 ▸ hx⟩
            · rw [he]
              simp at g5
              rw [g5]
              exact f5
            · rw [callsTagged_append]
              omega
          | none =>
            have he : storyFallbacks env tg sd ek st msg = (none, st2) := by
              simp [storyFallbacks, hp, hq1, hq2]
            refine ⟨Δ1 ++ Δ2, ?_, onlyTagged_append f2 g2, ?_, ?_, ?_, ?_⟩
            · rw [he]
              simp at g1
              rw [g1, f1, List.append_assoc]
            · intro p hpp
              rw [he, countOk_append]
              have h1 := f3 p hpp
              have h2 := g3 p hpp
              simp [okIndE] at h1 h2
              rw [h1, h2]
              simp [okInd]
            · intro ci2 hci2
              rw [he] at hci2
              simp at hci2
            · rw [he]
              simp at g5
              rw [g5]
              exact f5
            · rw [callsTagged_append]
              omega
        | error m2 =>
          have he : storyFallbacks env tg sd ek st msg = (none, st2) := by
            simp [storyFallbacks, hp, hq1, hq2]
          refine ⟨Δ1 ++ Δ2, ?_, onlyTagged_append f2 g2, ?_, ?_, ?_, ?_⟩
          · rw [he]
            simp at g1
            rw [g1, f1, List.append_assoc]
          · intro p hpp
            rw [he, countOk_append]
            have h1 := f3 p hpp
            have h2 := g3 p hpp
            simp [okIndE] at h1 h2
            rw [h1, h2]
            simp [okInd]
          · intro ci2 hci2
            rw [he] at hci2
            simp at hci2
          · rw [he]
            simp at g5
            rw [g5]
            exact f5
          · rw [callsTagged_append]
            omega
    | error m1 =>
      obtain ⟨Δ2, g1, g2, g3, g4, g5, g6⟩ := create_story_fallback_spec env tg sd none false st1
      rcases hq2 : create_story_fallback env tg sd none false st1 with ⟨r2, st2⟩
      rw [hq2] at g1 g3 g4 g5
      cases r2 with
      | ok o2 =>
        cases o2 with
        | some ci =>
          have he : storyFallbacks env tg sd ek st msg = (some ci, st2) := by
            simp [storyFallbacks, hp, hq1, hq2]
          refine ⟨Δ1 ++ Δ2, ?_, onlyTagged_append f2 g2, ?_, ?_, ?_, ?_⟩
          · rw [he]
            simp at g1
            rw [g1, f1, List.append_assoc]
          · intro p hpp
            rw [he, countOk_append]
            have h1 := f3 p hpp
            simp [okIndE] at h1
            rw [h1, g3 p hpp]
            simp [okIndE, okInd]
          · intro ci2 hci2
            rw [he] at hci2
            injection hci2 with h1
            obtain ⟨req, kk, hk, hx⟩ := g4 ci rfl
            exact ⟨req, kk, List.mem_append_right _ hk, h1 ▸ hx⟩
          · rw [he]
            simp at g5
            rw [g5]
            exact f5
          · rw [callsTagged_append]
            omega
        | none =>
          have he : storyFallbacks env tg sd ek st msg = (none, st2) := by
            simp [storyFallbacks, hp, hq1, hq2]
          refine ⟨Δ1 ++ Δ2, ?_, onlyTagged_append f2 g2, ?_, ?_, ?_, ?_⟩
          · rw [he]
            simp at g1
            rw [g1, f1, List.append_assoc]
          · intro p hpp
            rw [he, countOk_append]
            have h1 := f3 p hpp
            have h2 := g3 p hpp
            simp [okIndE] at h1 h2
            rw [h1, h2]
            simp [okInd]
          · intro ci2 hci2
            rw [he] at hci2
            simp at hci2
          · rw [he]
            simp at g5
            rw [g5]
            exact f5
          · rw [callsTagged_append]
            omega
      | error m2 =>
        have he : storyFallbacks env tg sd ek st msg = (none, st2) := by
          simp [storyFallbacks, hp, hq1, hq2]
        refine ⟨Δ1 ++ Δ2, ?_, onlyTagged_append f2 g2, ?_, ?_, ?_, ?_⟩
        · rw [he]
          simp at g1
          rw [g1, f1, List.append_assoc]
        · intro p hpp
          rw [he, countOk_append]
          have h1 := f3 p hpp
          have h2 := g3 p hpp
          simp [okIndE] at h1 h2
          rw [h1, h2]
          simp [okInd]
        · intro ci2 hci2
          rw [he] at hci2
          simp at hci2
        · rw [he]
          simp at g5
          rw [g5]
          exact f5
        · rw [callsTagged_append]
          omega

theorem storyRecover_spec (env : Env) (tg : Tag) (sd : StoryData) (summ : String)
    (ek : Option String) (st : St) (msg : String) :
    ∃ Δ,
      (storyRecover env tg sd summ ek st msg).2.trace = st.trace ++ Δ ∧
      onlyTagged tg Δ ∧
      (∀ p : Tag → Bool, p tg = true →
        countOk p Δ = okInd (storyRecover env tg sd summ ek st msg).1) ∧
      (∀ ci, (storyRecover env tg sd summ ek st msg).1 = some ci →
        ∃ req kk, Ev.call tg req (TrackerResp.ok kk) ∈ Δ ∧ kk.key = ci.key) ∧
      svcCompat (storyRecover env tg sd summ ek st msg).2.svc st.svc ∧
      (storyRecover env tg sd summ ek st msg).2.svc.epic_name_field =
        st.svc.epic_name_field ∧
      callsTagged tg Δ ≤ (storyAltTypes st.svc).length + 2 := by
  cases hit : (py_in "issue type" (pyLower msg) || py_in "valid issue type" (pyLower msg)) with
  | false =>
    obtain ⟨Δf, k1, k2, k3, k4, k5, k6⟩ := storyFallbacks_spec env tg sd ek st msg
    have he : storyRecover env tg sd summ ek st msg = storyFallbacks env tg sd ek st msg := by
      simp [storyRecover, hit]
    rw [he]
    exact ⟨Δf, k1, k2, k3, k4, by rw [k5]; exact svcCompat_refl _, by rw [k5], by omega⟩
  | true =>
    obtain ⟨Δa, a1, a2, a3, a4, a5, a6, a7⟩ :=
      storyAltAttempts_spec env tg sd summ ek (storyAltTypes st.svc) st
    rcases haa : storyAltAttempts env tg sd summ ek (storyAltTypes st.svc) st with ⟨ra, sta⟩
    rw [haa] at a1 a3 a4 a5 a6
    cases ra with
    | some ci =>
      have he : storyRecover env tg sd summ ek st msg = (some ci, sta) := by
        simp [storyRecover, hit, haa]
      refine ⟨Δa, ?_, a2, ?_, ?_, ?_, ?_, by omega⟩
      · rw [he]; exact a1
      · intro p hpp
        rw [he]
        exact a3 p hpp
      · intro ci2 hci2
        rw [he] at hci2
        injection hci2 with h1
        exact h1 ▸ a4 ci rfl
      · rw [he]; exact a5
      · rw [he]; exact a6
    | none =>
      obtain ⟨Δf, k1, k2, k3, k4, k5, k6⟩ := storyFallbacks_spec env tg sd ek sta msg
      have he : storyRecover env tg sd summ ek st msg = storyFallbacks env tg sd ek sta msg := by
        simp [storyRecover, hit, haa]
      rw [he]
      refine ⟨Δa ++ Δf, ?_, onlyTagged_append a2 k2, ?_, ?_, ?_, ?_, ?_⟩
      · rw [k1, a1, List.append_assoc]
      · intro p hpp
        rw [countOk_append]
        have h0 := a3 p hpp
        simp [okInd] at h0
        rw [h0, k3 p hpp]
        simp
      · intro ci2 hci2
        obtain ⟨req, kk, hk, hx⟩ := k4 ci2 hci2
        exact ⟨req, kk, List.mem_append_right _ hk, hx⟩
      · rw [k5]
        exact a5
      · rw [k5]
        exact a6
      · rw [callsTagged_append]
        omega

theorem create_story_spec (env : Env) (tg : Tag) (sd : StoryData) (ek : Option String)
    (st : St) :
    ∃ Δ,
      (create_story env tg sd ek st).2.trace = st.trace ++ Δ ∧
      onlyTagged tg Δ ∧
      (∀ p : Tag → Bool, p tg = true →
        countOk p Δ = okInd (create_story env tg sd ek st).1) ∧
      (∀ ci, (create_story env tg sd ek st).1 = some ci →
        ∃ req kk, Ev.call tg req (TrackerResp.ok kk) ∈ Δ ∧ kk.key = ci.key) ∧
      svcCompat (create_story env tg sd ek st).2.svc st.svc ∧
      (create_story env tg sd ek st).2.svc.epic_name_field = st.svc.epic_name_field ∧
      callsTagged tg Δ ≤ 1 + (storyAltTypes st.svc).length + 2 := by
  cases hsum : sd.summary with
  | none =>
    obtain ⟨Δf, k1, k2, k3, k4, k5, k6⟩ :=
      storyFallbacks_spec env tg sd ek st "\x27summary\x27"
    have he : create_story env tg sd ek st =
        storyFallbacks env tg sd ek st "\x27summary\x27" := by
      simp [create_story, hsum]
    rw [he]
    exact ⟨Δf, k1, k2, k3, k4, by rw [k5]; exact svcCompat_refl _, by rw [k5], by omega⟩
  | some s =>
    cases hr : env.resp st.nCall with
    | ok k =>
      refine ⟨[Ev.call tg (storyReq st.svc sd s st.svc.story_issue_type ek true)
        (TrackerResp.ok k)], ?_⟩
      have he : create_story env tg sd ek st =
          (some ⟨k.key, k.selfUrl, s⟩,
           { st with
               nCall := st.nCall + 1
               trace := st.trace ++
                 [Ev.call tg (storyReq st.svc sd s st.svc.story_issue_type ek true)
                   (TrackerResp.ok k)] }) := by
        simp [create_story, hsum, doCreate, hr]
      rw [he]
      refine ⟨rfl, ?_, ?_, ?_, svcCompat_refl _, rfl, ?_⟩
      · intro e he'
        simp at he'
        exact ⟨_, _, he'⟩
      · intro p hp
        simp [countOk, isOkCallB, hp, okInd]
      · intro ci hci
        injection hci with h1
        refine ⟨storyReq st.svc sd s st.svc.story_issue_type ek true, k, by simp, ?_⟩
        rw [← h1]
      · simp [callsTagged, evTag, List.filter]
    | err m =>
      have he : create_story env tg sd ek st =
          storyRecover env tg sd s ek
            { st with
                nCall := st.nCall + 1
                trace := st.trace ++
                  [Ev.call tg (storyReq st.svc sd s st.svc.story_issue_type ek true)
                    (TrackerResp.err m)] } m := by
        simp [create_story, hsum, doCreate, hr]
      obtain ⟨Δr, r1, r2, r3, r4, r5, r6, r7⟩ := storyRecover_spec env tg sd s ek
        { st with
            nCall := st.nCall + 1
            trace := st.trace ++
              [Ev.call tg (storyReq st.svc sd s st.svc.story_issue_type ek true)
                (TrackerResp.err m)] } m
      refine ⟨[Ev.call tg (storyReq st.svc sd s st.svc.story_issue_type ek true)
        (TrackerResp.err m)] ++ Δr, ?_, ?_, ?_, ?_, ?_, ?_, ?_⟩
      · rw [he, r1]
        simp
      · refine onlyTagged_append ?_ r2
        intro e he'
        simp at he'
        exact ⟨_, _, he'⟩
      · intro p hp
        rw [he, countOk_append, r3 p hp]
        simp [countOk, isOkCallB]
      · intro ci hci
        rw [he] at hci
        obtain ⟨req, kk, hk, hx⟩ := r4 ci hci
        exact ⟨req, kk, List.mem_append_right _ hk, hx⟩
      · rw [he]
        exact r5
      · rw [he]
        exact r6
      · rw [callsTagged_append]
        have h0 : callsTagged tg
            [Ev.call tg (storyReq st.svc sd s st.svc.story_issue_type ek true)
              (TrackerResp.err m)] = 1 := by
          simp [callsTagged, evTag, List.filter]
        have r7' : callsTagged tg Δr ≤ (storyAltTypes st.svc).length + 2 := r7
        rw [h0]
        omega

/-- create_story with a missing summary makes no tracker call and
returns None with the state unchanged: the first attempt raises
KeyError before any call, the message matches neither retry test, and
both fallbacks raise the same KeyError. -/
theorem create_story_none_summary (env : Env) (tg : Tag) (sd : StoryData)
    (ek : Option String) (st : St) (h : sd.summary = none) :
    create_story env tg sd ek st = (none, st) := by
  have hp : py_in "priority" (pyLower "\x27summary\x27") = false := by decide
  simp [create_story, h, storyFallbacks, hp, create_story_fallback]

/-- create_subtask with a missing summary makes no tracker call. -/
theorem create_subtask_none_summary (env : Env) (tg : Tag) (sd : SubtaskData)
    (pk : String) (st : St) (h : sd.summary = none) :
    create_subtask env tg sd pk st = (none, st) := by
  simp [create_subtask, h]

theorem countOk_zero_of_updates {Δ : List Ev}
    (h : ∀ e ∈ Δ, ∃ f b, e = Ev.update f b) (p : Tag → Bool) : countOk p Δ = 0 := by
  have : Δ.filter (isOkCallB p) = [] := by
    apply List.filter_eq_nil_iff.mpr
    intro e he
    obtain ⟨f, b, rfl⟩ := h e he
    simp [isOkCallB]
  simp [countOk, this]

theorem callsTagged_zero_of_updates {Δ : List Ev}
    (h : ∀ e ∈ Δ, ∃ f b, e = Ev.update f b) (t : Tag) : callsTagged t Δ = 0 := by
  have : Δ.filter (fun e => evTag e = some t) = [] := by
    apply List.filter_eq_nil_iff.mpr
    intro e he
    obtain ⟨f, b, rfl⟩ := h e he
    simp [evTag]
  simp [callsTagged, this]

theorem epicCandidates_ne_nil (svc : Svc) : epicCandidates svc ≠ [] := by
  unfold epicCandidates
  cases svc.epic_name_field with
  | none => simp
  | some f =>
    by_cases hf : f = "" <;> simp [hf]

theorem epicCandidates_length_le (svc : Svc) : (epicCandidates svc).length ≤ 4 := by
  unfold epicCandidates
  cases svc.epic_name_field with
  | none => simp
  | some f =>
    by_cases hf : f = "" <;> simp [hf]

theorem epicNameAttempts_spec (env : Env) (i : Nat) (base : CreateReq) (summ : String) :
    ∀ (cands : List String) (st : St),
    ∃ Δ,
      (epicNameAttempts env i base summ cands st).2.trace = st.trace ++ Δ ∧
      onlyTagged (Tag.epic i) Δ ∧
      (∀ p : Tag → Bool, p (Tag.epic i) = true →
        countOk p Δ = okInd (epicNameAttempts env i base summ cands st).1) ∧
      (∀ ci, (epicNameAttempts env i base summ cands st).1 = some ci →
        ∃ req kk, Ev.call (Tag.epic i) req (TrackerResp.ok kk) ∈ Δ ∧ kk.key = ci.key) ∧
      svcCompat (epicNameAttempts env i base summ cands st).2.svc st.svc ∧
      callsTagged (Tag.epic i) Δ ≤ cands.length ∧
      (cands ≠ [] → ∃ req r, Ev.call (Tag.epic i) req r ∈ Δ) := by
  intro cands
  induction cands with
  | nil =>
    intro st
    refine ⟨[], by simp [epicNameAttempts], onlyTagged_nil _, ?_, ?_, ?_, ?_, ?_⟩
    · intro p hp
      simp [epicNameAttempts, countOk, okInd]
    · intro ci hci
      simp [epicNameAttempts] at hci
    · exact svcCompat_refl _
    · simp [callsTagged]
    · intro hne
      exact absurd rfl hne
  | cons f rest ih =>
    intro st
    cases hr : env.resp st.nCall with
    | ok k =>
      refine ⟨[Ev.call (Tag.epic i) { base with extra := [(f, summ)] } (TrackerResp.ok k)], ?_⟩
      have he : epicNameAttempts env i base summ (f :: rest) st =
          (some ⟨k.key, k.selfUrl, summ⟩,
           { st with
               svc := { st.svc with epic_name_field := some f }
               nCall := st.nCall + 1
               trace := st.trace ++
                 [Ev.call (Tag.epic i) { base with extra := [(f, summ)] }
                   (TrackerResp.ok k)] }) := by
        simp [epicNameAttempts, doCreate, hr]
      rw [he]
      refine ⟨rfl, ?_, ?_, ?_, ⟨rfl, rfl, rfl, rfl, rfl⟩, ?_, ?_⟩
      · intro e he'
        simp at he'
        exact ⟨_, _, he'⟩
      · intro p hp
        simp [countOk, isOkCallB, hp, okInd]
      · intro ci hci
        injection hci with h1
        refine ⟨{ base with extra := [(f, summ)] }, k, by simp, ?_⟩
        rw [← h1]
      · simp [callsTagged, evTag, List.filter]
      · intro _
        exact ⟨{ base with extra := [(f, summ)] }, TrackerResp.ok k, by simp⟩
    | err m =>
      have hstep : ∀ st2,
          st2 = ({ st with
              nCall := st.nCall + 1
              trace := st.trace ++
                [Ev.call (Tag.epic i) { base with extra := [(f, summ)] }
                  (TrackerResp.err m)] } : St) →
          epicNameAttempts env i base summ (f :: rest) st =
            epicNameAttempts env i base summ rest st2 →
          ∃ Δ,
            (epicNameAttempts env i base summ (f :: rest) st).2.trace = st.trace ++ Δ ∧
            onlyTagged (Tag.epic i) Δ ∧
            (∀ p : Tag → Bool, p (Tag.epic i) = true →
              countOk p Δ = okInd (epicNameAttempts env i base summ (f :: rest) st).1) ∧
            (∀ ci, (epicNameAttempts env i base summ (f :: rest) st).1 = some ci →
              ∃ req kk, Ev.call (Tag.epic i) req (TrackerResp.ok kk) ∈ Δ ∧ kk.key = ci.key) ∧
            svcCompat (epicNameAttempts env i base summ (f :: rest) st).2.svc st.svc ∧
            callsTagged (Tag.epic i) Δ ≤ (f :: rest).length ∧
            ((f :: rest) ≠ [] → ∃ req r, Ev.call (Tag.epic i) req r ∈ Δ) := by
        intro st2 hst2 he
        obtain ⟨Δ, h1, h2, h3, h4, h5, h6, h7⟩ := ih st2
        refine ⟨[Ev.call (Tag.epic i) { base with extra := [(f, summ)] }
          (TrackerResp.err m)] ++ Δ, ?_, ?_, ?_, ?_, ?_, ?_, ?_⟩
        · rw [he, h1, hst2]
          simp
        · refine onlyTagged_append ?_ h2
          intro e he'
          simp at he'
          exact ⟨_, _, he'⟩
        · intro p hp
          rw [he, countOk_append, h3 p hp]
          simp [countOk, isOkCallB]
        · intro ci hci
          rw [he] at hci
          obtain ⟨req, kk, hk, hx⟩ := h4 ci hci
          exact ⟨req, kk, List.mem_append_right _ hk, hx⟩
        · rw [he]
          refine svcCompat_trans h5 ?_
          rw [hst2]
          exact svcCompat_refl _
        · rw [callsTagged_append]
          have h0 : callsTagged (Tag.epic i)
              [Ev.call (Tag.epic i) { base with extra := [(f, summ)] }
                (TrackerResp.err m)] = 1 := by
            simp [callsTagged, evTag, List.filter]
          rw [h0]
          simp only [List.length_cons]
          omega
        · intro _
          exact ⟨{ base with extra := [(f, summ)] }, TrackerResp.err m,
            List.mem_append_left _ (by simp)⟩
      cases hfe : isFieldErr (pyLower m) with
      | true =>
        exact hstep _ rfl (by simp [epicNameAttempts, doCreate, hr, hfe])
      | false =>
        cases hrq : (!py_in "required" (pyLower m) && !py_in "must be provided" (pyLower m)) with
        | true =>
          refine ⟨[Ev.call (Tag.epic i) { base with extra := [(f, summ)] }
            (TrackerResp.err m)], ?_⟩
          have he : epicNameAttempts env i base summ (f :: rest) st =
              (none,
               { st with
                   nCall := st.nCall + 1
                   trace := st.trace ++
                     [Ev.call (Tag.epic i) { base with extra := [(f, summ)] }
                       (TrackerResp.err m)] }) := by
            simp [epicNameAttempts, doCreate, hr, hfe, hrq]
          rw [he]
          refine ⟨rfl, ?_, ?_, ?_, svcCompat_refl _, ?_, ?_⟩
          · intro e he'
            simp at he'
            exact ⟨_, _, he'⟩
          · intro p hp
            simp [countOk, isOkCallB, okInd]
          · intro ci hci
            simp at hci
          · simp [callsTagged, evTag, List.filter]
          · intro _
            exact ⟨{ base with extra := [(f, summ)] }, TrackerResp.err m, by simp⟩
        | false =>
          exact hstep _ rfl (by simp [epicNameAttempts, doCreate, hr, hfe, hrq])

theorem epicNameUpdates_spec (env : Env) :
    ∀ (cands : List String) (st : St),
    ∃ Δ,
      (epicNameUpdates env cands st).trace = st.trace ++ Δ ∧
      (∀ e ∈ Δ, ∃ f b, e = Ev.update f b) ∧
      svcCompat (epicNameUpdates env cands st).svc st.svc := by
  intro cands
  induction cands with
  | nil =>
    intro st
    exact ⟨[], by simp [epicNameUpdates], fun e he => absurd he (by simp), svcCompat_refl _⟩
  | cons f rest ih =>
    intro st
    cases hu : env.updateOk st.nUpd with
    | true =>
      refine ⟨[Ev.update f true], ?_, ?_, ?_⟩
      · simp [epicNameUpdates, doUpdate, hu]
      · intro e he
        simp at he
        exact ⟨f, true, he⟩
      · simp [epicNameUpdates, doUpdate, hu]
        exact ⟨rfl, rfl, rfl, rfl, rfl⟩
    | false =>
      have he : epicNameUpdates env (f :: rest) st =
          epicNameUpdates env rest
            { st with
                nUpd := st.nUpd + 1
                trace := st.trace ++ [Ev.update f false] } := by
        simp [epicNameUpdates, doUpdate, hu]
      obtain ⟨Δ, h1, h2, h3⟩ := ih
        { st with
            nUpd := st.nUpd + 1
            trace := st.trace ++ [Ev.update f false] }
      refine ⟨[Ev.update f false] ++ Δ, ?_, ?_, ?_⟩
      · rw [he, h1]
        simp
      · intro e he'
        rcases List.mem_append.mp he' with h | h
        · simp at h
          exact ⟨f, false, h⟩
        · exact h2 e h
      · rw [he]
        exact h3

/-- The success indicator for create_epic results. -/
def okIndR : Except String (Option CreatedIssue) → Nat
  | Except.ok (some _) => 1
  | _ => 0

theorem create_epic_spec (env : Env) (i : Nat) (ed : EpicData) (st : St) :
    ∃ Δ,
      (create_epic env i ed st).2.trace = st.trace ++ Δ ∧
      epicDelta i Δ ∧
      (∀ p : Tag → Bool, p (Tag.epic i) = true →
        countOk p Δ = okIndR (create_epic env i ed st).1) ∧
      (∀ ci, (create_epic env i ed st).1 = Except.ok (some ci) →
        ∃ req kk, Ev.call (Tag.epic i) req (TrackerResp.ok kk) ∈ Δ ∧ kk.key = ci.key) ∧
      svcCompat (create_epic env i ed st).2.svc st.svc ∧
      callsTagged (Tag.epic i) Δ ≤ 5 ∧
      (ed.summary = none →
        create_epic env i ed st = (Except.error "\x27summary\x27", st)) ∧
      (∀ s, ed.summary = some s → ∃ req r, Ev.call (Tag.epic i) req r ∈ Δ) ∧
      (∀ m, (create_epic env i ed st).1 = Except.error m → ed.summary = none) := by
  cases hsum : ed.summary with
  | none =>
    refine ⟨[], ?_⟩
    simp [create_epic, hsum, countOk, callsTagged, okIndR, epicDelta]
    exact svcCompat_refl _
  | some s =>
    obtain ⟨Δa, a1, a2, a3, a4, a5, a6, a7⟩ :=
      epicNameAttempts_spec env i (epicBaseReq st.svc ed s) s (epicCandidates st.svc) st
    rcases haa : epicNameAttempts env i (epicBaseReq st.svc ed s) s (epicCandidates st.svc) st
      with ⟨ra, sta⟩
    rw [haa] at a1 a3 a4 a5
    have a1' : sta.trace = st.trace ++ Δa := a1
    have hlen := epicCandidates_length_le st.svc
    have hne := epicCandidates_ne_nil st.svc
    cases ra with
    | some ci =>
      have he : create_epic env i ed st = (Except.ok (some ci), sta) := by
        simp [create_epic, hsum, haa]
      refine ⟨Δa, ?_, ?_, ?_, ?_, ?_, by omega, ?_, ?_, ?_⟩
      · rw [he]; exact a1
      · intro e he'
        exact Or.inl (a2 e he')
      · intro p hp
        rw [he]
        simpa [okInd, okIndR] using a3 p hp
      · intro ci2 hci2
        rw [he] at hci2
        injection hci2 with h1
        injection h1 with h1
        exact h1 ▸ a4 ci rfl
      · rw [he]; exact a5
      · intro hc
        exact Option.noConfusion hc
      · intro s2 _
        exact a7 hne
      · intro m hm
        rw [he] at hm
        exact Except.noConfusion hm
    | none =>
      cases hr : env.resp sta.nCall with
      | ok k =>
        obtain ⟨Δu, u1, u2, u3⟩ := epicNameUpdates_spec env (epicCandidates st.svc)
          { sta with
              nCall := sta.nCall + 1
              trace := sta.trace ++
                [Ev.call (Tag.epic i) (epicBaseReq st.svc ed s) (TrackerResp.ok k)] }
        have he : create_epic env i ed st =
            (Except.ok (some ⟨k.key, k.selfUrl, s⟩),
             epicNameUpdates env (epicCandidates st.svc)
               { sta with
                   nCall := sta.nCall + 1
                   trace := sta.trace ++
                     [Ev.call (Tag.epic i) (epicBaseReq st.svc ed s)
                       (TrackerResp.ok k)] }) := by
          simp [create_epic, hsum, haa, doCreate, hr]
        refine ⟨Δa ++ [Ev.call (Tag.epic i) (epicBaseReq st.svc ed s)
          (TrackerResp.ok k)] ++ Δu, ?_, ?_, ?_, ?_, ?_, ?_, ?_, ?_, ?_⟩
        · rw [he, u1]
          simp only [St.mk.injEq] at u1 ⊢
          rw [a1']
          simp [List.append_assoc]
        · intro e he'
          rcases List.mem_append.mp he' with h | h
          · rcases List.mem_append.mp h with h' | h'
            · exact Or.inl (a2 e h')
            · simp at h'
              exact Or.inl ⟨_, _, h'⟩
          · exact Or.inr (u2 e h)
        · intro p hp
          rw [he, countOk_append, countOk_append]
          have h0 := a3 p hp
          simp [okInd] at h0
          rw [h0, countOk_zero_of_updates u2 p]
          simp [countOk, isOkCallB, hp, okIndR]
        · intro ci hci
          rw [he] at hci
          injection hci with h1
          injection h1 with h1
          refine ⟨epicBaseReq st.svc ed s, k, ?_, by rw [← h1]⟩
          exact List.mem_append_left _ (List.mem_append_right _ (by simp))
        · rw [he]
          refine svcCompat_trans u3 ?_
          exact a5
        · rw [callsTagged_append, callsTagged_append,
            callsTagged_zero_of_updates u2]
          have h0 : callsTagged (Tag.epic i)
              [Ev.call (Tag.epic i) (epicBaseReq st.svc ed s) (TrackerResp.ok k)] = 1 := by
            simp [callsTagged, evTag, List.filter]
          rw [h0]
          omega
        · intro hc
          exact Option.noConfusion hc
        · intro s2 _
          obtain ⟨req, r, hm⟩ := a7 hne
          exact ⟨req, r, List.mem_append_left _ (List.mem_append_left _ hm)⟩
        · intro m hm
          rw [he] at hm
          exact Except.noConfusion hm
      | err m =>
        have he : create_epic env i ed st =
            (Except.ok none,
             { sta with
                 nCall := sta.nCall + 1
                 trace := sta.trace ++
                   [Ev.call (Tag.epic i) (epicBaseReq st.svc ed s)
                     (TrackerResp.err m)] }) := by
          simp [create_epic, hsum, haa, doCreate, hr]
        refine ⟨Δa ++ [Ev.call (Tag.epic i) (epicBaseReq st.svc ed s)
          (TrackerResp.err m)], ?_, ?_, ?_, ?_, ?_, ?_, ?_, ?_, ?_⟩
        · rw [he]
          show sta.trace ++ _ = _
          rw [a1']
          simp [List.append_assoc]
        · intro e he'
          rcases List.mem_append.mp he' with h | h
          · exact Or.inl (a2 e h)
          · simp at h
            exact Or.inl ⟨_, _, h⟩
        · intro p hp
          rw [he, countOk_append]
          have h0 := a3 p hp
          simp [okInd] at h0
          rw [h0]
          simp [countOk, isOkCallB, okIndR]
        · intro ci hci
          rw [he] at hci
          simp at hci
        · rw [he]
          exact a5
        · rw [callsTagged_append]
          have h0 : callsTagged (Tag.epic i)
              [Ev.call (Tag.epic i) (epicBaseReq st.svc ed s) (TrackerResp.err m)] = 1 := by
            simp [callsTagged, evTag, List.filter]
          rw [h0]
          omega
        · intro hc
          exact Option.noConfusion hc
        · intro s2 _
          obtain ⟨req, r, hm⟩ := a7 hne
          exact ⟨req, r, List.mem_append_left _ hm⟩
        · intro m2 hm2
          rw [he] at hm2
          exact Except.noConfusion hm2

/-! ## Part 5: behaviour of the create_issues walk (arbitrary tracker) -/

theorem runSubtasks_spec (env : Env) (i j : Nat) :
    ∀ (subs : List SubtaskData) (k : Nat) (skey : String) (res : CreationResult) (st : St)
      (res' : CreationResult) (st' : St) (oc : Outcome),
    runSubtasks env i j k subs skey res st = (res', st', oc) →
    ∃ Δ le,
      st'.trace = st.trace ++ Δ ∧
      res'.errors = res.errors ++ le ∧
      res'.epics = res.epics ∧
      res'.stories = res.stories ∧
      res'.subtasks.length = res.subtasks.length + countOk tagSubB Δ ∧
      countOk tagEpicB Δ = 0 ∧
      countOk tagStoryB Δ = 0 ∧
      st'.svc = st.svc ∧
      (∀ e ∈ Δ, (∃ b, e = Ev.poll b) ∨ ∃ req r k0, e = Ev.call (Tag.subtask i j k0) req r) ∧
      (Ev.poll true ∉ st.trace →
        (oc = Outcome.cancelled →
          ∃ pre, st'.trace = pre ++ [Ev.poll true] ∧ Ev.poll true ∉ pre) ∧
        (oc ≠ Outcome.cancelled → Ev.poll true ∉ st'.trace)) ∧
      (cancelMsg ∉ res.errors →
        (oc = Outcome.cancelled →
          ∃ es, res'.errors = es ++ [cancelMsg] ∧ cancelMsg ∉ es) ∧
        (oc ≠ Outcome.cancelled → cancelMsg ∉ res'.errors)) ∧
      ((∀ su ∈ subs, su.summary ≠ none) → (∀ n, env.disconnected n = false) →
        oc = Outcome.done) ∧
      (orderOK st.trace →
        (∃ req kk, Ev.call (Tag.story i j) req (TrackerResp.ok kk) ∈ st.trace) →
        orderOK st'.trace) := by
  intro subs
  induction subs with
  | nil =>
    intro k skey res st res' st' oc heq
    simp [runSubtasks] at heq
    obtain ⟨h1, h2, h3⟩ := heq
    subst h1; subst h2; subst h3
    refine ⟨[], [], by simp, by simp, rfl, rfl, by simp [countOk], rfl, rfl, rfl,
      ?_, ?_, ?_, ?_, ?_⟩
    · intro e he
      exact absurd he (by simp)
    · intro hpt
      exact ⟨fun h => by simp at h, fun _ => hpt⟩
    · intro hcm
      exact ⟨fun h => by simp at h, fun _ => hcm⟩
    · intro _ _
      rfl
    · intro ho _
      exact ho
  | cons sub rest ih =>
    intro k skey res st res' st' oc heq
    cases hdisc : env.disconnected st.nPoll with
    | true =>
      rw [show runSubtasks env i j k (sub :: rest) skey res st =
          ({ res with errors := res.errors ++ [cancelMsg] },
           { st with nPoll := st.nPoll + 1, trace := st.trace ++ [Ev.poll true] },
           Outcome.cancelled) from by simp [runSubtasks, doPoll, hdisc]] at heq
      injection heq with h1 h23
      injection h23 with h2 h3
      subst h1; subst h2; subst h3
      refine ⟨[Ev.poll true], [cancelMsg], rfl, rfl, rfl, rfl, ?_, ?_, ?_, rfl,
        ?_, ?_, ?_, ?_, ?_⟩
      · simp [countOk, isOkCallB]
      · simp [countOk, isOkCallB]
      · simp [countOk, isOkCallB]
      · intro e he
        simp at he
        exact Or.inl ⟨true, he⟩
      · intro hpt
        exact ⟨fun _ => ⟨st.trace, rfl, hpt⟩, fun hne => absurd rfl hne⟩
      · intro hcm
        exact ⟨fun _ => ⟨res.errors, rfl, hcm⟩, fun hne => absurd rfl hne⟩
      · intro _ hdis
        rw [hdis st.nPoll] at hdisc
        exact Bool.noConfusion hdisc
      · intro ho _
        refine orderOK_append [Ev.poll true] ho ?_ ?_
        · intro e he i0 j0 hsc
          simp at he
          obtain ⟨req, r, hec⟩ := hsc
          rw [he] at hec
          exact absurd hec (by simp)
        · intro e he i0 j0 k0 hsc
          simp at he
          obtain ⟨req, r, hec⟩ := hsc
          rw [he] at hec
          exact absurd hec (by simp)
    | false =>
      obtain ⟨Δc, c1, c2, c3, c4, c5, c6, c7⟩ := create_subtask_spec env
        (Tag.subtask i j k) sub skey
        { st with nPoll := st.nPoll + 1, trace := st.trace ++ [Ev.poll false] }
      rcases hcs : create_subtask env (Tag.subtask i j k) sub skey
        { st with nPoll := st.nPoll + 1, trace := st.trace ++ [Ev.poll false] }
        with ⟨rc, st2⟩
      rw [hcs] at c1 c3 c4 c5
      have c1' : st2.trace = (st.trace ++ [Ev.poll false]) ++ Δc := c1
      have c5' : st2.svc = st.svc := c5
      have hptc : Ev.poll true ∉ st.trace → Ev.poll true ∉ st2.trace := by
        intro hpt
        rw [c1']
        intro hm
        rcases List.mem_append.mp hm with h | h
        · rcases List.mem_append.mp h with h' | h'
          · exact hpt h'
          · simp at h'
        · exact poll_not_mem_of_onlyTagged c2 true h
      have horder : orderOK st.trace →
          (∃ req kk, Ev.call (Tag.story i j) req (TrackerResp.ok kk) ∈ st.trace) →
          orderOK st2.trace ∧
          (∃ req kk, Ev.call (Tag.story i j) req (TrackerResp.ok kk) ∈ st2.trace) := by
        intro ho hw
        obtain ⟨reqW, kkW, hwm⟩ := hw
        have ho1 : orderOK (st.trace ++ [Ev.poll false]) := by
          refine orderOK_append [Ev.poll false] ho ?_ ?_
          · intro e he i0 j0 hsc
            simp at he
            obtain ⟨req, r, hec⟩ := hsc
            rw [he] at hec
            exact absurd hec (by simp)
          · intro e he i0 j0 k0 hsc
            simp at he
            obtain ⟨req, r, hec⟩ := hsc
            rw [he] at hec
            exact absurd hec (by simp)
        have hw1 : Ev.call (Tag.story i j) reqW (TrackerResp.ok kkW) ∈
            st.trace ++ [Ev.poll false] := List.mem_append_left _ hwm
        have ho2 : orderOK st2.trace := by
          rw [c1']
          refine orderOK_append Δc ho1 ?_ ?_
          · intro e he i0 j0 hsc
            obtain ⟨req, r, hec⟩ := c2 e he
            obtain ⟨req', r', hec'⟩ := hsc
            rw [hec] at hec'
            injection hec' with htag _ _
            exact absurd htag (by simp)
          · intro e he i0 j0 k0 hsc
            obtain ⟨req, r, hec⟩ := c2 e he
            obtain ⟨req', r', hec'⟩ := hsc
            rw [hec] at hec'
            injection hec' with htag _ _
            injection htag with hi hj hk
            subst hi; subst hj
            exact ⟨Ev.call (Tag.story i j) reqW (TrackerResp.ok kkW), hw1,
              reqW, kkW, rfl⟩
        refine ⟨ho2, reqW, kkW, ?_⟩
        rw [c1']
        exact List.mem_append_left _ hw1
      cases rc with
      | some ci =>
        rw [show runSubtasks env i j k (sub :: rest) skey res st =
            runSubtasks env i j (k + 1) rest skey
              { res with subtasks := res.subtasks ++ [ci] } st2 from by
          simp [runSubtasks, doPoll, hdisc, hcs]] at heq
        obtain ⟨Δr, ler, r1, r2, r3, r4, r5, r6, r7, r8, r9, r10, r11, r12, r13⟩ :=
          ih (k + 1) skey { res with subtasks := res.subtasks ++ [ci] } st2
            res' st' oc heq
        have c3s : countOk tagSubB Δc = 1 := by
          have := c3 tagSubB rfl
          simpa [okInd] using this
        refine ⟨[Ev.poll false] ++ Δc ++ Δr, ler, ?_, ?_, ?_, ?_, ?_, ?_, ?_, ?_,
          ?_, ?_, ?_, ?_, ?_⟩
        · rw [r1, c1']
          simp [List.append_assoc]
        · rw [r2]
        · rw [r3]
        · rw [r4]
        · rw [r5, countOk_append, countOk_append, c3s]
          simp [countOk, isOkCallB]
          omega
        · rw [countOk_append, countOk_append, r6,
            countOk_zero_of_onlyTagged (by rfl) c2]
          simp [countOk, isOkCallB]
        · rw [countOk_append, countOk_append, r7,
            countOk_zero_of_onlyTagged (by rfl) c2]
          simp [countOk, isOkCallB]
        · rw [r8, c5']
        · intro e he
          rcases List.mem_append.mp he with h | h
          · rcases List.mem_append.mp h with h' | h'
            · simp at h'
              exact Or.inl ⟨false, h'⟩
            · obtain ⟨req, r, hec⟩ := c2 e h'
              exact Or.inr ⟨req, r, k, hec⟩
          · exact r9 e h
        · intro hpt
          exact r10 (hptc hpt)
        · intro hcm
          exact r11 hcm
        · intro hwf hdis
          exact r12 (fun su h => hwf su (List.mem_cons_of_mem _ h)) hdis
        · intro ho hw
          obtain ⟨ho2, hw2⟩ := horder ho hw
          exact r13 ho2 hw2
      | none =>
        cases hsub : sub.summary with
        | some s =>
          rw [show runSubtasks env i j k (sub :: rest) skey res st =
              runSubtasks env i j (k + 1) rest skey
                { res with errors := res.errors ++ ["Failed to create subtask: " ++ s] }
                st2 from by
            simp [runSubtasks, doPoll, hdisc, hcs, hsub]] at heq
          obtain ⟨Δr, ler, r1, r2, r3, r4, r5, r6, r7, r8, r9, r10, r11, r12, r13⟩ :=
            ih (k + 1) skey
              { res with errors := res.errors ++ ["Failed to create subtask: " ++ s] }
              st2 res' st' oc heq
          have c3s : countOk tagSubB Δc = 0 := by
            have := c3 tagSubB rfl
            simpa [okInd] using this
          have hFne : ("Failed to create subtask: " ++ s) ≠ cancelMsg :=
            append_ne_cancelMsg "Failed to create subtask: " s (Or.inl (by decide))
          refine ⟨[Ev.poll false] ++ Δc ++ Δr, ("Failed to create subtask: " ++ s) :: ler,
            ?_, ?_, ?_, ?_, ?_, ?_, ?_, ?_, ?_, ?_, ?_, ?_, ?_⟩
          · rw [r1, c1']
            simp [List.append_assoc]
          · rw [r2]
            simp
          · rw [r3]
          · rw [r4]
          · rw [r5, countOk_append, countOk_append, c3s]
            simp [countOk, isOkCallB]
          · rw [countOk_append, countOk_append, r6,
              countOk_zero_of_onlyTagged (by rfl) c2]
            simp [countOk, isOkCallB]
          · rw [countOk_append, countOk_append, r7,
              countOk_zero_of_onlyTagged (by rfl) c2]
            simp [countOk, isOkCallB]
          · rw [r8, c5']
          · intro e he
            rcases List.mem_append.mp he with h | h
            · rcases List.mem_append.mp h with h' | h'
              · simp at h'
                exact Or.inl ⟨false, h'⟩
              · obtain ⟨req, r, hec⟩ := c2 e h'
                exact Or.inr ⟨req, r, k, hec⟩
            · exact r9 e h
          · intro hpt
            exact r10 (hptc hpt)
          · intro hcm
            have hcm2 : cancelMsg ∉ res.errors ++ ["Failed to create subtask: " ++ s] := by
              intro hm
              rcases List.mem_append.mp hm with h | h
              · exact hcm h
              · simp at h
                exact hFne h.symm
            exact r11 hcm2
          · intro hwf hdis
            exact r12 (fun su h => hwf su (List.mem_cons_of_mem _ h)) hdis
          · intro ho hw
            obtain ⟨ho2, hw2⟩ := horder ho hw
            exact r13 ho2 hw2
        | none =>
          rw [show runSubtasks env i j k (sub :: rest) skey res st =
              (res, st2, Outcome.raised "\x27summary\x27") from by
            simp [runSubtasks, doPoll, hdisc, hcs, hsub]] at heq
          injection heq with h1 h23
          injection h23 with h2 h3
          subst h1; subst h2; subst h3
          have c3s : countOk tagSubB Δc = 0 := by
            have := c3 tagSubB rfl
            simpa [okInd] using this
          refine ⟨[Ev.poll false] ++ Δc, [], ?_, by simp, rfl, rfl, ?_, ?_, ?_, c5',
            ?_, ?_, ?_, ?_, ?_⟩
          · rw [c1']
            simp [List.append_assoc]
          · rw [countOk_append, c3s]
            simp [countOk, isOkCallB]
          · rw [countOk_append, countOk_zero_of_onlyTagged (by rfl) c2]
            simp [countOk, isOkCallB]
          · rw [countOk_append, countOk_zero_of_onlyTagged (by rfl) c2]
            simp [countOk, isOkCallB]
          · intro e he
            rcases List.mem_append.mp he with h | h
            · simp at h
              exact Or.inl ⟨false, h⟩
            · obtain ⟨req, r, hec⟩ := c2 e h
              exact Or.inr ⟨req, r, k, hec⟩
          · intro hpt
            exact ⟨fun h => by simp at h, fun _ => hptc hpt⟩
          · intro hcm
            exact ⟨fun h => by simp at h, fun _ => hcm⟩
          · intro hwf _
            exact absurd hsub (hwf sub (List.mem_cons_self sub rest))
          · intro ho hw
            exact (horder ho hw).1

/-- A story whose data carries a summary always gets at least one
creation call (the first attempt of create_story is unconditional). -/
theorem create_story_attempted (env : Env) (tg : Tag) (sd : StoryData) (s : String)
    (ek : Option String) (st : St) (h : sd.summary = some s) :
    ∃ req r, Ev.call tg req r ∈ (create_story env tg sd ek st).2.trace := by
  cases hr : env.resp st.nCall with
  | ok k =>
    refine ⟨storyReq st.svc sd s st.svc.story_issue_type ek true, TrackerResp.ok k, ?_⟩
    simp [create_story, h, doCreate, hr]
  | err m =>
    have he : create_story env tg sd ek st =
        storyRecover env tg sd s ek
          { st with
              nCall := st.nCall + 1
              trace := st.trace ++ [Ev.call tg
                (storyReq st.svc sd s st.svc.story_issue_type ek true)
                (TrackerResp.err m)] } m := by
      simp [create_story, h, doCreate, hr]
    obtain ⟨Δ, k1, _⟩ := storyRecover_spec env tg sd s ek
      { st with
          nCall := st.nCall + 1
          trace := st.trace ++ [Ev.call tg
            (storyReq st.svc sd s st.svc.story_issue_type ek true)
            (TrackerResp.err m)] } m
    refine ⟨storyReq st.svc sd s st.svc.story_issue_type ek true, TrackerResp.err m, ?_⟩
    rw [he, k1]
    exact List.mem_append_left _ (List.mem_append_right _ (by simp))

theorem runStories_spec (env : Env) (i : Nat) :
    ∀ (sds : List StoryData) (j : Nat) (ekey : String) (res : CreationResult) (st : St)
      (res' : CreationResult) (st' : St) (oc : Outcome),
    runStories env i j sds ekey res st = (res', st', oc) →
    ∃ Δ le,
      st'.trace = st.trace ++ Δ ∧
      res'.errors = res.errors ++ le ∧
      res'.epics = res.epics ∧
      res'.stories.length = res.stories.length + countOk tagStoryB Δ ∧
      res'.subtasks.length = res.subtasks.length + countOk tagSubB Δ ∧
      countOk tagEpicB Δ = 0 ∧
      svcCompat st'.svc st.svc ∧
      (∀ e ∈ Δ, (∃ b, e = Ev.poll b) ∨
        (∃ req r j0, e = Ev.call (Tag.story i j0) req r) ∨
        (∃ req r j0 k0, e = Ev.call (Tag.subtask i j0 k0) req r)) ∧
      (Ev.poll true ∉ st.trace →
        (oc = Outcome.cancelled →
          ∃ pre, st'.trace = pre ++ [Ev.poll true] ∧ Ev.poll true ∉ pre) ∧
        (oc ≠ Outcome.cancelled → Ev.poll true ∉ st'.trace)) ∧
      (cancelMsg ∉ res.errors →
        (oc = Outcome.cancelled →
          ∃ es, res'.errors = es ++ [cancelMsg] ∧ cancelMsg ∉ es) ∧
        (oc ≠ Outcome.cancelled → cancelMsg ∉ res'.errors)) ∧
      ((∀ sd0 ∈ sds, sd0.summary ≠ none ∧ ∀ su ∈ sd0.subtasks, su.summary ≠ none) →
        (∀ n, env.disconnected n = false) → oc = Outcome.done) ∧
      (orderOK st.trace →
        (∃ req kk, Ev.call (Tag.epic i) req (TrackerResp.ok kk) ∈ st.trace) →
        orderOK st'.trace) ∧
      ((∀ sd0 ∈ sds, sd0.summary ≠ none ∧ ∀ su ∈ sd0.subtasks, su.summary ≠ none) →
        (∀ n, env.disconnected n = false) →
        ∀ j0 (hj : j0 < sds.length),
          (∃ req r, Ev.call (Tag.story i (j + j0)) req r ∈ st'.trace) ∧
          ((¬ ∃ req kk,
              Ev.call (Tag.story i (j + j0)) req (TrackerResp.ok kk) ∈ st'.trace) →
            ("Failed to create story: " ++ (sds.get ⟨j0, hj⟩).summary.getD "") ∈
              res'.errors)) := by
  intro sds
  induction sds with
  | nil =>
    intro j ekey res st res' st' oc heq
    simp [runStories] at heq
    obtain ⟨h1, h2, h3⟩ := heq
    subst h1; subst h2; subst h3
    refine ⟨[], [], by simp, by simp, rfl, by simp [countOk], by simp [countOk],
      by simp [countOk], svcCompat_refl _, ?_, ?_, ?_, ?_, ?_, ?_⟩
    · intro e he
      exact absurd he (by simp)
    · intro hpt
      exact ⟨fun h => by simp at h, fun _ => hpt⟩
    · intro hcm
      exact ⟨fun h => by simp at h, fun _ => hcm⟩
    · intro _ _
      rfl
    · intro ho _
      exact ho
    · intro _ _ j0 hj
      exact absurd hj (by simp)
  | cons sd rest ih =>
    intro j ekey res st res' st' oc heq
    cases hdisc : env.disconnected st.nPoll with
    | true =>
      rw [show runStories env i j (sd :: rest) ekey res st =
          ({ res with errors := res.errors ++ [cancelMsg] },
           { st with nPoll := st.nPoll + 1, trace := st.trace ++ [Ev.poll true] },
           Outcome.cancelled) from by simp [runStories, doPoll, hdisc]] at heq
      injection heq with h1 h23
      injection h23 with h2 h3
      subst h1; subst h2; subst h3
      refine ⟨[Ev.poll true], [cancelMsg], rfl, rfl, rfl, ?_, ?_, ?_,
        svcCompat_refl _, ?_, ?_, ?_, ?_, ?_, ?_⟩
      · simp [countOk, isOkCallB]
      · simp [countOk, isOkCallB]
      · simp [countOk, isOkCallB]
      · intro e he
        simp at he
        exact Or.inl ⟨true, he⟩
      · intro hpt
        exact ⟨fun _ => ⟨st.trace, rfl, hpt⟩, fun hne => absurd rfl hne⟩
      · intro hcm
        exact ⟨fun _ => ⟨res.errors, rfl, hcm⟩, fun hne => absurd rfl hne⟩
      · intro _ hdis
        rw [hdis st.nPoll] at hdisc
        exact Bool.noConfusion hdisc
      · intro ho _
        refine orderOK_append [Ev.poll true] ho ?_ ?_
        · intro e he i0 j0 hsc
          simp at he
          obtain ⟨req, r, hec⟩ := hsc
          rw [he] at hec
          exact absurd hec (by simp)
        · intro e he i0 j0 k0 hsc
          simp at he
          obtain ⟨req, r, hec⟩ := hsc
          rw [he] at hec
          exact absurd hec (by simp)
      · intro _ hdis
        rw [hdis st.nPoll] at hdisc
        exact Bool.noConfusion hdisc
    | false =>
      obtain ⟨Δs, s1, s2, s3, s4, s5, s6, s7⟩ := create_story_spec env
        (Tag.story i j) sd (some ekey)
        { st with nPoll := st.nPoll + 1, trace := st.trace ++ [Ev.poll false] }
      rcases hcsy : create_story env (Tag.story i j) sd (some ekey)
        { st with nPoll := st.nPoll + 1, trace := st.trace ++ [Ev.poll false] }
        with ⟨rs, st2⟩
      rw [hcsy] at s1 s3 s4 s5 s6
      have s1' : st2.trace = (st.trace ++ [Ev.poll false]) ++ Δs := s1
      have s5' : svcCompat st2.svc st.svc := s5
      have hptc : Ev.poll true ∉ st.trace → Ev.poll true ∉ st2.trace := by
        intro hpt
        rw [s1']
        intro hm
        rcases List.mem_append.mp hm with h | h
        · rcases List.mem_append.mp h with h' | h'
          · exact hpt h'
          · simp at h'
        · exact poll_not_mem_of_onlyTagged s2 true h
      have horder : orderOK st.trace →
          (∃ req kk, Ev.call (Tag.epic i) req (TrackerResp.ok kk) ∈ st.trace) →
          orderOK st2.trace ∧
          (∃ req kk, Ev.call (Tag.epic i) req (TrackerResp.ok kk) ∈ st2.trace) := by
        intro ho hw
        obtain ⟨reqW, kkW, hwm⟩ := hw
        have ho1 : orderOK (st.trace ++ [Ev.poll false]) := by
          refine orderOK_append [Ev.poll false] ho ?_ ?_
          · intro e he i0 j0 hsc
            simp at he
            obtain ⟨req, r, hec⟩ := hsc
            rw [he] at hec
            exact absurd hec (by simp)
          · intro e he i0 j0 k0 hsc
            simp at he
            obtain ⟨req, r, hec⟩ := hsc
            rw [he] at hec
            exact absurd hec (by simp)
        have hw1 : Ev.call (Tag.epic i) reqW (TrackerResp.ok kkW) ∈
            st.trace ++ [Ev.poll false] := List.mem_append_left _ hwm
        have ho2 : orderOK st2.trace := by
          rw [s1']
          refine orderOK_append Δs ho1 ?_ ?_
          · intro e he i0 j0 hsc
            obtain ⟨req, r, hec⟩ := s2 e he
            obtain ⟨req', r', hec'⟩ := hsc
            rw [hec] at hec'
            injection hec' with htag _ _
            injection htag with hi hj
            subst hi
            exact ⟨Ev.call (Tag.epic i) reqW (TrackerResp.ok kkW), hw1,
              reqW, kkW, rfl⟩
          · intro e he i0 j0 k0 hsc
            obtain ⟨req, r, hec⟩ := s2 e he
            obtain ⟨req', r', hec'⟩ := hsc
            rw [hec] at hec'
            injection hec' with htag _ _
            exact absurd htag (by simp)
        refine ⟨ho2, reqW, kkW, ?_⟩
        rw [s1']
        exact List.mem_append_left _ hw1
      cases rs with
      | some ci =>
        have s4' : ∃ req kk, Ev.call (Tag.story i j) req (TrackerResp.ok kk) ∈ Δs ∧
            kk.key = ci.key := s4 ci rfl
        have s3s : countOk tagStoryB Δs = 1 := by
          have := s3 tagStoryB rfl
          simpa [okInd] using this
        rcases hrs : runSubtasks env i j 0 sd.subtasks ci.key
            { res with stories := res.stories ++ [ci] } st2 with ⟨resB, stB, ocB⟩
        obtain ⟨ΔB, leB, b1, b2, b3, b4, b5, b6, b7, b8, b9, b10, b11, b12, b13⟩ :=
          runSubtasks_spec env i j sd.subtasks 0 ci.key
            { res with stories := res.stories ++ [ci] } st2 resB stB ocB hrs
        have hwit2 : ∃ req kk, Ev.call (Tag.story i j) req (TrackerResp.ok kk) ∈
            st2.trace := by
          obtain ⟨req, kk, hm, _⟩ := s4'
          exact ⟨req, kk, by rw [s1']; exact List.mem_append_right _ hm⟩
        have hptcB : Ev.poll true ∉ st.trace → Ev.poll true ∉ st2.trace := hptc
        cases ocB with
        | done =>
          rw [show runStories env i j (sd :: rest) ekey res st =
              runStories env i (j + 1) rest ekey resB stB from by
            simp [runStories, doPoll, hdisc, hcsy, hrs]] at heq
          obtain ⟨Δr, ler, r1, r2, r3, r4, r5, r6, r7, r8, r9, r10, r11, r12, r13⟩ :=
            ih (j + 1) ekey resB stB res' st' oc heq
          refine ⟨[Ev.poll false] ++ Δs ++ ΔB ++ Δr, leB ++ ler,
            ?_, ?_, ?_, ?_, ?_, ?_, ?_, ?_, ?_, ?_, ?_, ?_, ?_⟩
          · rw [r1, b1, s1']
            simp [List.append_assoc]
          · rw [r2, b2]
            simp
          · rw [r3, b3]
          · rw [r4, countOk_append, countOk_append, countOk_append, s3s, b4]
            have hB0 : countOk tagStoryB ΔB = 0 := b7
            rw [hB0]
            simp [countOk, isOkCallB]
            omega
          · rw [r5, countOk_append, countOk_append, countOk_append, b5]
            have hs0 : countOk tagSubB Δs = countOk tagSubB Δs := rfl
            rw [countOk_zero_of_onlyTagged (by rfl) s2]
            simp [countOk, isOkCallB]
            omega
          · rw [countOk_append, countOk_append, countOk_append, r6, b6,
              countOk_zero_of_onlyTagged (by rfl) s2]
            simp [countOk, isOkCallB]
          · exact svcCompat_trans r7 (svcCompat_trans (b8 ▸ svcCompat_refl _) s5')
          · intro e he
            rcases List.mem_append.mp he with h | h
            · rcases List.mem_append.mp h with h' | h'
              · rcases List.mem_append.mp h' with h'' | h''
                · simp at h''
                  exact Or.inl ⟨false, h''⟩
                · obtain ⟨req, r, hec⟩ := s2 e h''
                  exact Or.inr (Or.inl ⟨req, r, j, hec⟩)
              · rcases b9 e h' with ⟨b, hb⟩ | ⟨req, r, k0, hb⟩
                · exact Or.inl ⟨b, hb⟩
                · exact Or.inr (Or.inr ⟨req, r, j, k0, hb⟩)
            · exact r8 e h
          · intro hpt
            have hpt2 := hptcB hpt
            have hptB : Ev.poll true ∉ stB.trace := (b10 hpt2).2 (by simp)
            exact r9 hptB
          · intro hcm
            have hcm2 : cancelMsg ∉
                ({ res with stories := res.stories ++ [ci] } : CreationResult).errors := hcm
            have hcmB : cancelMsg ∉ resB.errors := (b11 hcm2).2 (by simp)
            exact r10 hcmB
          · intro hwf hdis
            exact r11 (fun sd0 h => hwf sd0 (List.mem_cons_of_mem _ h)) hdis
          · intro ho hw
            obtain ⟨ho2, hw2⟩ := horder ho hw
            have hoB : orderOK stB.trace := b13 ho2 hwit2
            have hwB : ∃ req kk, Ev.call (Tag.epic i) req (TrackerResp.ok kk) ∈
                stB.trace := by
              obtain ⟨req, kk, hm⟩ := hw2
              exact ⟨req, kk, by rw [b1]; exact List.mem_append_left _ hm⟩
            exact r12 hoB hwB
          · intro hwf hdis j0 hj
            cases j0 with
            | zero =>
              obtain ⟨reqq, kkq, hmq, _⟩ := s4'
              have hmem : Ev.call (Tag.story i (j + 0)) reqq (TrackerResp.ok kkq) ∈
                  st'.trace := by
                rw [r1, b1, s1']
                exact List.mem_append_left _ (List.mem_append_left _
                  (List.mem_append_right _ hmq))
              exact ⟨⟨reqq, TrackerResp.ok kkq, hmem⟩,
                fun hno => absurd ⟨reqq, kkq, hmem⟩ hno⟩
            | succ j0' =>
              have hj' : j0' < rest.length := by simpa using hj
              have h13 := r13 (fun sd0 h => hwf sd0 (List.mem_cons_of_mem _ h))
                hdis j0' hj'
              rw [show j + 1 + j0' = j + (j0' + 1) from by omega] at h13
              exact h13
        | cancelled =>
          rw [show runStories env i j (sd :: rest) ekey res st =
              (resB, stB, Outcome.cancelled) from by
            simp [runStories, doPoll, hdisc, hcsy, hrs]] at heq
          injection heq with h1 h23
          injection h23 with h2 h3
          subst h1; subst h2; subst h3
          refine ⟨[Ev.poll false] ++ Δs ++ ΔB, leB,
            ?_, ?_, ?_, ?_, ?_, ?_, ?_, ?_, ?_, ?_, ?_, ?_, ?_⟩
          · rw [b1, s1']
            simp [List.append_assoc]
          · rw [b2]
          · rw [b3]
          · rw [countOk_append, countOk_append, s3s, b4, b7]
            simp [countOk, isOkCallB]
          · rw [countOk_append, countOk_append, b5,
              countOk_zero_of_onlyTagged (by rfl) s2]
            simp [countOk, isOkCallB]
          · rw [countOk_append, countOk_append, b6,
              countOk_zero_of_onlyTagged (by rfl) s2]
            simp [countOk, isOkCallB]
          · exact svcCompat_trans (b8 ▸ svcCompat_refl _) s5'
          · intro e he
            rcases List.mem_append.mp he with h | h
            · rcases List.mem_append.mp h with h'' | h''
              · simp at h''
                exact Or.inl ⟨false, h''⟩
              · obtain ⟨req, r, hec⟩ := s2 e h''
                exact Or.inr (Or.inl ⟨req, r, j, hec⟩)
            · rcases b9 e h with ⟨b, hb⟩ | ⟨req, r, k0, hb⟩
              · exact Or.inl ⟨b, hb⟩
              · exact Or.inr (Or.inr ⟨req, r, j, k0, hb⟩)
          · intro hpt
            exact ⟨fun _ => (b10 (hptcB hpt)).1 rfl, fun hne => absurd rfl hne⟩
          · intro hcm
            exact ⟨fun _ => (b11 hcm).1 rfl, fun hne => absurd rfl hne⟩
          · intro hwf hdis
            have := b12 (hwf sd (List.mem_cons_self sd rest)).2 hdis
            exact Outcome.noConfusion this
          · intro ho hw
            obtain ⟨ho2, hw2⟩ := horder ho hw
            exact b13 ho2 hwit2
          · intro hwf hdis j0 hj
            have := b12 (hwf sd (List.mem_cons_self sd rest)).2 hdis
            exact Outcome.noConfusion this
        | raised m =>
          rw [show runStories env i j (sd :: rest) ekey res st =
              (resB, stB, Outcome.raised m) from by
            simp [runStories, doPoll, hdisc, hcsy, hrs]] at heq
          injection heq with h1 h23
          injection h23 with h2 h3
          subst h1; subst h2; subst h3
          refine ⟨[Ev.poll false] ++ Δs ++ ΔB, leB,
            ?_, ?_, ?_, ?_, ?_, ?_, ?_, ?_, ?_, ?_, ?_, ?_, ?_⟩
          · rw [b1, s1']
            simp [List.append_assoc]
          · rw [b2]
          · rw [b3]
          · rw [countOk_append, countOk_append, s3s, b4, b7]
            simp [countOk, isOkCallB]
          · rw [countOk_append, countOk_append, b5,
              countOk_zero_of_onlyTagged (by rfl) s2]
            simp [countOk, isOkCallB]
          · rw [countOk_append, countOk_append, b6,
              countOk_zero_of_onlyTagged (by rfl) s2]
            simp [countOk, isOkCallB]
          · exact svcCompat_trans (b8 ▸ svcCompat_refl _) s5'
          · intro e he
            rcases List.mem_append.mp he with h | h
            · rcases List.mem_append.mp h with h'' | h''
              · simp at h''
                exact Or.inl ⟨false, h''⟩
              · obtain ⟨req, r, hec⟩ := s2 e h''
                exact Or.inr (Or.inl ⟨req, r, j, hec⟩)
            · rcases b9 e h with ⟨b, hb⟩ | ⟨req, r, k0, hb⟩
              · exact Or.inl ⟨b, hb⟩
              · exact Or.inr (Or.inr ⟨req, r, j, k0, hb⟩)
          · intro hpt
            refine ⟨fun h => by simp at h, fun _ => ?_⟩
            have hpt2 := hptcB hpt
            exact (b10 hpt2).2 (by simp)
          · intro hcm
            refine ⟨fun h => by simp at h, fun _ => ?_⟩
            exact (b11 hcm).2 (by simp)
          · intro hwf hdis
            have := b12 (hwf sd (List.mem_cons_self sd rest)).2 hdis
            exact Outcome.noConfusion this
          · intro ho hw
            obtain ⟨ho2, hw2⟩ := horder ho hw
            exact b13 ho2 hwit2
          · intro hwf hdis j0 hj
            have := b12 (hwf sd (List.mem_cons_self sd rest)).2 hdis
            exact Outcome.noConfusion this
      | none =>
        have s3s : countOk tagStoryB Δs = 0 := by
          have := s3 tagStoryB rfl
          simpa [okInd] using this
        cases hsd : sd.summary with
        | some s =>
          rw [show runStories env i j (sd :: rest) ekey res st =
              runStories env i (j + 1) rest ekey
                { res with errors := res.errors ++ ["Failed to create story: " ++ s] }
                st2 from by
            simp [runStories, doPoll, hdisc, hcsy, hsd]] at heq
          obtain ⟨Δr, ler, r1, r2, r3, r4, r5, r6, r7, r8, r9, r10, r11, r12, r13⟩ :=
            ih (j + 1) ekey
              { res with errors := res.errors ++ ["Failed to create story: " ++ s] }
              st2 res' st' oc heq
          have hFne : ("Failed to create story: " ++ s) ≠ cancelMsg :=
            append_ne_cancelMsg "Failed to create story: " s (Or.inl (by decide))
          refine ⟨[Ev.poll false] ++ Δs ++ Δr, ("Failed to create story: " ++ s) :: ler,
            ?_, ?_, ?_, ?_, ?_, ?_, ?_, ?_, ?_, ?_, ?_, ?_, ?_⟩
          · rw [r1, s1']
            simp [List.append_assoc]
          · rw [r2]
            simp
          · rw [r3]
          · rw [r4, countOk_append, countOk_append, s3s]
            simp [countOk, isOkCallB]
          · rw [r5, countOk_append, countOk_append,
              countOk_zero_of_onlyTagged (by rfl) s2]
            simp [countOk, isOkCallB]
          · rw [countOk_append, countOk_append, r6,
              countOk_zero_of_onlyTagged (by rfl) s2]
            simp [countOk, isOkCallB]
          · exact svcCompat_trans r7 s5'
          · intro e he
            rcases List.mem_append.mp he with h | h
            · rcases List.mem_append.mp h with h'' | h''
              · simp at h''
                exact Or.inl ⟨false, h''⟩
              · obtain ⟨req, r, hec⟩ := s2 e h''
                exact Or.inr (Or.inl ⟨req, r, j, hec⟩)
            · exact r8 e h
          · intro hpt
            exact r9 (hptc hpt)
          · intro hcm
            have hcm2 : cancelMsg ∉
                res.errors ++ ["Failed to create story: " ++ s] := by
              intro hm
              rcases List.mem_append.mp hm with h | h
              · exact hcm h
              · simp at h
                exact hFne h.symm
            exact r10 hcm2
          · intro hwf hdis
            exact r11 (fun sd0 h => hwf sd0 (List.mem_cons_of_mem _ h)) hdis
          · intro ho hw
            obtain ⟨ho2, hw2⟩ := horder ho hw
            exact r12 ho2 hw2
          · intro hwf hdis j0 hj
            cases j0 with
            | zero =>
              obtain ⟨reqq, rq, hmq⟩ := create_story_attempted env (Tag.story i j) sd s
                (some ekey)
                { st with nPoll := st.nPoll + 1, trace := st.trace ++ [Ev.poll false] }
                hsd
              rw [hcsy] at hmq
              refine ⟨⟨reqq, rq, ?_⟩, fun _ => ?_⟩
              · rw [r1]
                exact List.mem_append_left _ hmq
              · have hget : ((sd :: rest).get ⟨0, hj⟩).summary = some s := hsd
                rw [r2, hget]
                exact List.mem_append_left _ (List.mem_append_right _ (by simp))
            | succ j0' =>
              have hj' : j0' < rest.length := by simpa using hj
              have h13 := r13 (fun sd0 h => hwf sd0 (List.mem_cons_of_mem _ h))
                hdis j0' hj'
              rw [show j + 1 + j0' = j + (j0' + 1) from by omega] at h13
              exact h13
        | none =>
          rw [show runStories env i j (sd :: rest) ekey res st =
              (res, st2, Outcome.raised "\x27summary\x27") from by
            simp [runStories, doPoll, hdisc, hcsy, hsd]] at heq
          injection heq with h1 h23
          injection h23 with h2 h3
          subst h1; subst h2; subst h3
          refine ⟨[Ev.poll false] ++ Δs, [], ?_, by simp, rfl, ?_, ?_, ?_, s5',
            ?_, ?_, ?_, ?_, ?_, ?_⟩
          · rw [s1']
            simp [List.append_assoc]
          · rw [countOk_append, s3s]
            simp [countOk, isOkCallB]
          · rw [countOk_append, countOk_zero_of_onlyTagged (by rfl) s2]
            simp [countOk, isOkCallB]
          · rw [countOk_append, countOk_zero_of_onlyTagged (by rfl) s2]
            simp [countOk, isOkCallB]
          · intro e he
            rcases List.mem_append.mp he with h | h
            · simp at h
              exact Or.inl ⟨false, h⟩
            · obtain ⟨req, r, hec⟩ := s2 e h
              exact Or.inr (Or.inl ⟨req, r, j, hec⟩)
          · intro hpt
            exact ⟨fun h => by simp at h, fun _ => hptc hpt⟩
          · intro hcm
            exact ⟨fun h => by simp at h, fun _ => hcm⟩
          · intro hwf _
            exact absurd hsd (hwf sd (List.mem_cons_self sd rest)).1
          · intro ho hw
            exact (horder ho hw).1
          · intro hwf _
            exact absurd hsd (hwf sd (List.mem_cons_self sd rest)).1

/-- A well-formed document item per the data model of the spec: every
summary present (the walk raises on missing ones, see runStories). -/
def edWF (ed : EpicData) : Prop :=
  ed.summary ≠ none ∧
  ∀ sd ∈ ed.stories, sd.summary ≠ none ∧ ∀ su ∈ sd.subtasks, su.summary ≠ none

theorem runEpics_spec (env : Env) :
    ∀ (eds : List EpicData) (i : Nat) (res : CreationResult) (st : St)
      (res' : CreationResult) (st' : St) (oc : Outcome),
    runEpics env i eds res st = (res', st', oc) →
    ∃ Δ le,
      st'.trace = st.trace ++ Δ ∧
      res'.errors = res.errors ++ le ∧
      res'.epics.length = res.epics.length + countOk tagEpicB Δ ∧
      res'.stories.length = res.stories.length + countOk tagStoryB Δ ∧
      res'.subtasks.length = res.subtasks.length + countOk tagSubB Δ ∧
      svcCompat st'.svc st.svc ∧
      (Ev.poll true ∉ st.trace →
        (oc = Outcome.cancelled →
          ∃ pre, st'.trace = pre ++ [Ev.poll true] ∧ Ev.poll true ∉ pre) ∧
        (oc ≠ Outcome.cancelled → Ev.poll true ∉ st'.trace)) ∧
      (cancelMsg ∉ res.errors →
        (oc = Outcome.cancelled →
          ∃ es, res'.errors = es ++ [cancelMsg] ∧ cancelMsg ∉ es) ∧
        (oc ≠ Outcome.cancelled → cancelMsg ∉ res'.errors)) ∧
      ((∀ ed ∈ eds, edWF ed) → (∀ n, env.disconnected n = false) →
        oc = Outcome.done) ∧
      (orderOK st.trace → orderOK st'.trace) ∧
      ((∀ ed ∈ eds, edWF ed) → (∀ n, env.disconnected n = false) →
        ∀ i0 (h : i0 < eds.length),
          (∃ req r, Ev.call (Tag.epic (i + i0)) req r ∈ st'.trace) ∧
          ((¬ ∃ req kk, Ev.call (Tag.epic (i + i0)) req (TrackerResp.ok kk) ∈ st'.trace) →
            ("Failed to create epic: " ++ (eds.get ⟨i0, h⟩).summary.getD "") ∈
              res'.errors)) ∧
      ((∀ ed ∈ eds, edWF ed) → (∀ n, env.disconnected n = false) →
        ∀ i0 (h : i0 < eds.length) j0
          (hj : j0 < ((eds.get ⟨i0, h⟩).stories).length),
          ("Failed to create epic: " ++ (eds.get ⟨i0, h⟩).summary.getD "") ∈
            res'.errors ∨
          ((∃ req r, Ev.call (Tag.story (i + i0) j0) req r ∈ st'.trace) ∧
            ((¬ ∃ req kk,
                Ev.call (Tag.story (i + i0) j0) req (TrackerResp.ok kk) ∈ st'.trace) →
              ("Failed to create story: " ++
                  ((eds.get ⟨i0, h⟩).stories.get ⟨j0, hj⟩).summary.getD "") ∈
                res'.errors))) := by
  intro eds
  induction eds with
  | nil =>
    intro i res st res' st' oc heq
    simp [runEpics] at heq
    obtain ⟨h1, h2, h3⟩ := heq
    subst h1; subst h2; subst h3
    refine ⟨[], [], by simp, by simp, by simp [countOk], by simp [countOk],
      by simp [countOk], svcCompat_refl _, ?_, ?_, ?_, ?_, ?_, ?_⟩
    · intro hpt
      exact ⟨fun h => by simp at h, fun _ => hpt⟩
    · intro hcm
      exact ⟨fun h => by simp at h, fun _ => hcm⟩
    · intro _ _
      rfl
    · intro ho
      exact ho
    · intro _ _ i0 h
      exact absurd h (by simp)
    · intro _ _ i0 h
      exact absurd h (by simp)
  | cons ed rest ih =>
    intro i res st res' st' oc heq
    cases hdisc : env.disconnected st.nPoll with
    | true =>
      rw [show runEpics env i (ed :: rest) res st =
          ({ res with errors := res.errors ++ [cancelMsg] },
           { st with nPoll := st.nPoll + 1, trace := st.trace ++ [Ev.poll true] },
           Outcome.cancelled) from by simp [runEpics, doPoll, hdisc]] at heq
      injection heq with h1 h23
      injection h23 with h2 h3
      subst h1; subst h2; subst h3
      refine ⟨[Ev.poll true], [cancelMsg], rfl, rfl, ?_, ?_, ?_,
        svcCompat_refl _, ?_, ?_, ?_, ?_, ?_, ?_⟩
      · simp [countOk, isOkCallB]
      · simp [countOk, isOkCallB]
      · simp [countOk, isOkCallB]
      · intro hpt
        exact ⟨fun _ => ⟨st.trace, rfl, hpt⟩, fun hne => absurd rfl hne⟩
      · intro hcm
        exact ⟨fun _ => ⟨res.errors, rfl, hcm⟩, fun hne => absurd rfl hne⟩
      · intro _ hdis
        rw [hdis st.nPoll] at hdisc
        exact Bool.noConfusion hdisc
      · intro ho
        refine orderOK_append [Ev.poll true] ho ?_ ?_
        · intro e he i0 j0 hsc
          simp at he
          obtain ⟨req, r, hec⟩ := hsc
          rw [he] at hec
          exact absurd hec (by simp)
        · intro e he i0 j0 k0 hsc
          simp at he
          obtain ⟨req, r, hec⟩ := hsc
          rw [he] at hec
          exact absurd hec (by simp)
      · intro _ hdis
        rw [hdis st.nPoll] at hdisc
        exact Bool.noConfusion hdisc
      · intro _ hdis
        rw [hdis st.nPoll] at hdisc
        exact Bool.noConfusion hdisc
    | false =>
      obtain ⟨Δe, e1, e2, e3, e4, e5, e6, e7, e8, e9⟩ := create_epic_spec env i ed
        { st with nPoll := st.nPoll + 1, trace := st.trace ++ [Ev.poll false] }
      rcases hce : create_epic env i ed
        { st with nPoll := st.nPoll + 1, trace := st.trace ++ [Ev.poll false] }
        with ⟨re, st2⟩
      rw [hce] at e1 e3 e4 e5 e9
      have e1' : st2.trace = (st.trace ++ [Ev.poll false]) ++ Δe := e1
      have e5' : svcCompat st2.svc st.svc := e5
      have hptc : Ev.poll true ∉ st.trace → Ev.poll true ∉ st2.trace := by
        intro hpt
        rw [e1']
        intro hm
        rcases List.mem_append.mp hm with h | h
        · rcases List.mem_append.mp h with h' | h'
          · exact hpt h'
          · simp at h'
        · exact poll_not_mem_of_epicDelta e2 true h
      have horder : orderOK st.trace → orderOK st2.trace := by
        intro ho
        have ho1 : orderOK (st.trace ++ [Ev.poll false]) := by
          refine orderOK_append [Ev.poll false] ho ?_ ?_
          · intro e he i0 j0 hsc
            simp at he
            obtain ⟨req, r, hec⟩ := hsc
            rw [he] at hec
            exact absurd hec (by simp)
          · intro e he i0 j0 k0 hsc
            simp at he
            obtain ⟨req, r, hec⟩ := hsc
            rw [he] at hec
            exact absurd hec (by simp)
        rw [e1']
        refine orderOK_append Δe ho1 ?_ ?_
        · intro e he i0 j0 hsc
          obtain ⟨req', r', hec'⟩ := hsc
          rcases e2 e he with ⟨req, r, hec⟩ | ⟨f, b, hec⟩
          · rw [hec] at hec'
            injection hec' with htag _ _
            exact absurd htag (by simp)
          · rw [hec] at hec'
            exact absurd hec' (by simp)
        · intro e he i0 j0 k0 hsc
          obtain ⟨req', r', hec'⟩ := hsc
          rcases e2 e he with ⟨req, r, hec⟩ | ⟨f, b, hec⟩
          · rw [hec] at hec'
            injection hec' with htag _ _
            exact absurd htag (by simp)
          · rw [hec] at hec'
            exact absurd hec' (by simp)
      cases re with
      | error m =>
        rw [show runEpics env i (ed :: rest) res st = (res, st2, Outcome.raised m)
            from by simp [runEpics, doPoll, hdisc, hce]] at heq
        injection heq with h1 h23
        injection h23 with h2 h3
        subst h1; subst h2; subst h3
        have hsumn : ed.summary = none := e9 m rfl
        have e3z : countOk tagEpicB Δe = 0 := by
          have := e3 tagEpicB rfl
          simpa [okIndR] using this
        refine ⟨[Ev.poll false] ++ Δe, [], ?_, by simp, ?_, ?_, ?_, e5',
          ?_, ?_, ?_, ?_, ?_, ?_⟩
        · rw [e1']
          simp [List.append_assoc]
        · rw [countOk_append, e3z]
          simp [countOk, isOkCallB]
        · rw [countOk_append, countOk_zero_of_epicDelta (by rfl) e2]
          simp [countOk, isOkCallB]
        · rw [countOk_append, countOk_zero_of_epicDelta (by rfl) e2]
          simp [countOk, isOkCallB]
        · intro hpt
          exact ⟨fun h => by simp at h, fun _ => hptc hpt⟩
        · intro hcm
          exact ⟨fun h => by simp at h, fun _ => hcm⟩
        · intro hwf _
          exact absurd hsumn (hwf ed (List.mem_cons_self ed rest)).1
        · exact horder
        · intro hwf _
          exact absurd hsumn (hwf ed (List.mem_cons_self ed rest)).1
        · intro hwf _
          exact absurd hsumn (hwf ed (List.mem_cons_self ed rest)).1
      | ok o =>
        cases o with
        | none =>
          cases hsum : ed.summary with
          | some s =>
            rw [show runEpics env i (ed :: rest) res st =
                runEpics env (i + 1) rest
                  { res with errors := res.errors ++ ["Failed to create epic: " ++ s] }
                  st2 from by simp [runEpics, doPoll, hdisc, hce, hsum]] at heq
            obtain ⟨Δr, ler, r1, r2, r3, r4, r5, r6, r7, r8, r9, r10, r11, r12⟩ :=
              ih (i + 1)
                { res with errors := res.errors ++ ["Failed to create epic: " ++ s] }
                st2 res' st' oc heq
            have e3z : countOk tagEpicB Δe = 0 := by
              have := e3 tagEpicB rfl
              simpa [okIndR] using this
            have hFne : ("Failed to create epic: " ++ s) ≠ cancelMsg :=
              append_ne_cancelMsg "Failed to create epic: " s (Or.inl (by decide))
            refine ⟨[Ev.poll false] ++ Δe ++ Δr, ("Failed to create epic: " ++ s) :: ler,
              ?_, ?_, ?_, ?_, ?_, ?_, ?_, ?_, ?_, ?_, ?_, ?_⟩
            · rw [r1, e1']
              simp [List.append_assoc]
            · rw [r2]
              simp
            · rw [r3, countOk_append, countOk_append, e3z]
              simp [countOk, isOkCallB]
            · rw [r4, countOk_append, countOk_append,
                countOk_zero_of_epicDelta (by rfl) e2]
              simp [countOk, isOkCallB]
            · rw [r5, countOk_append, countOk_append,
                countOk_zero_of_epicDelta (by rfl) e2]
              simp [countOk, isOkCallB]
            · exact svcCompat_trans r6 e5'
            · intro hpt
              exact r7 (hptc hpt)
            · intro hcm
              have hcm2 : cancelMsg ∉
                  res.errors ++ ["Failed to create epic: " ++ s] := by
                intro hm
                rcases List.mem_append.mp hm with h | h
                · exact hcm h
                · simp at h
                  exact hFne h.symm
              exact r8 hcm2
            · intro hwf hdis
              exact r9 (fun e0 h => hwf e0 (List.mem_cons_of_mem _ h)) hdis
            · intro ho
              exact r10 (horder ho)
            · intro hwf hdis i0 h0
              cases i0 with
              | zero =>
                constructor
                · obtain ⟨req, r, hm⟩ := e8 s hsum
                  refine ⟨req, r, ?_⟩
                  rw [r1, e1', Nat.add_zero]
                  exact List.mem_append_left _ (List.mem_append_right _ hm)
                · intro _
                  have hs0 : ((ed :: rest).get ⟨0, h0⟩).summary.getD "" = s := by
                    simp [hsum]
                  rw [r2, hs0]
                  refine List.mem_append_left _ ?_
                  exact List.mem_append_right _ (by simp)
              | succ i0' =>
                have h0' : i0' < rest.length := by
                  simpa using h0
                have hidx : i + (i0' + 1) = i + 1 + i0' := by omega
                have := r11 (fun e0 h => hwf e0 (List.mem_cons_of_mem _ h)) hdis i0' h0'
                rw [hidx]
                exact this
            · intro hwf hdis i0 h0 j0 hj
              cases i0 with
              | zero =>
                refine Or.inl ?_
                have hs0 : ((ed :: rest).get ⟨0, h0⟩).summary.getD "" = s := by
                  simp [hsum]
                rw [r2, hs0]
                exact List.mem_append_left _ (List.mem_append_right _ (by simp))
              | succ i0' =>
                have h0' : i0' < rest.length := by
                  simpa using h0
                have hidx : i + (i0' + 1) = i + 1 + i0' := by omega
                have h12 := r12 (fun e0 h => hwf e0 (List.mem_cons_of_mem _ h))
                  hdis i0' h0' j0 hj
                rw [hidx]
                exact h12
          | none =>
            rw [show runEpics env i (ed :: rest) res st =
                (res, st2, Outcome.raised "\x27summary\x27")
                from by simp [runEpics, doPoll, hdisc, hce, hsum]] at heq
            injection heq with h1 h23
            injection h23 with h2 h3
            subst h1; subst h2; subst h3
            have e3z : countOk tagEpicB Δe = 0 := by
              have := e3 tagEpicB rfl
              simpa [okIndR] using this
            refine ⟨[Ev.poll false] ++ Δe, [], ?_, by simp, ?_, ?_, ?_, e5',
              ?_, ?_, ?_, ?_, ?_, ?_⟩
            · rw [e1']
              simp [List.append_assoc]
            · rw [countOk_append, e3z]
              simp [countOk, isOkCallB]
            · rw [countOk_append, countOk_zero_of_epicDelta (by rfl) e2]
              simp [countOk, isOkCallB]
            · rw [countOk_append, countOk_zero_of_epicDelta (by rfl) e2]
              simp [countOk, isOkCallB]
            · intro hpt
              exact ⟨fun h => by simp at h, fun _ => hptc hpt⟩
            · intro hcm
              exact ⟨fun h => by simp at h, fun _ => hcm⟩
            · intro hwf _
              exact absurd hsum (hwf ed (List.mem_cons_self ed rest)).1
            · exact horder
            · intro hwf _
              exact absurd hsum (hwf ed (List.mem_cons_self ed rest)).1
            · intro hwf _
              exact absurd hsum (hwf ed (List.mem_cons_self ed rest)).1
        | some ci =>
          have e3o : countOk tagEpicB Δe = 1 := by
            have := e3 tagEpicB rfl
            simpa [okIndR] using this
          have e4' : ∃ req kk, Ev.call (Tag.epic i) req (TrackerResp.ok kk) ∈ Δe ∧
              kk.key = ci.key := e4 ci rfl
          have hepicw2 : ∃ req kk, Ev.call (Tag.epic i) req (TrackerResp.ok kk) ∈
              st2.trace := by
            obtain ⟨req, kk, hm, _⟩ := e4'
            exact ⟨req, kk, by rw [e1']; exact List.mem_append_right _ hm⟩
          rcases hrs : runStories env i 0 ed.stories ci.key
              { res with epics := res.epics ++ [ci] } st2 with ⟨resB, stB, ocB⟩
          obtain ⟨ΔB, leB, b1, b2, b3, b4, b5, b6, b7, b8, b9, b10, b11, b12, b13⟩ :=
            runStories_spec env i ed.stories 0 ci.key
              { res with epics := res.epics ++ [ci] } st2 resB stB ocB hrs
          have hptcB : Ev.poll true ∉ st.trace → Ev.poll true ∉ st2.trace := hptc
          cases ocB with
          | done =>
            rw [show runEpics env i (ed :: rest) res st =
                runEpics env (i + 1) rest resB stB from by
              simp [runEpics, doPoll, hdisc, hce, hrs]] at heq
            obtain ⟨Δr, ler, r1, r2, r3, r4, r5, r6, r7, r8, r9, r10, r11, r12⟩ :=
              ih (i + 1) resB stB res' st' oc heq
            refine ⟨[Ev.poll false] ++ Δe ++ ΔB ++ Δr, leB ++ ler,
              ?_, ?_, ?_, ?_, ?_, ?_, ?_, ?_, ?_, ?_, ?_, ?_⟩
            · rw [r1, b1, e1']
              simp [List.append_assoc]
            · rw [r2, b2]
              simp
            · rw [r3, countOk_append, countOk_append, countOk_append, e3o, b6]
              have h3 : resB.epics = res.epics ++ [ci] := b3
              rw [h3]
              simp [countOk, isOkCallB]
              omega
            · rw [r4, countOk_append, countOk_append, countOk_append, b4,
                countOk_zero_of_epicDelta (by rfl) e2]
              simp [countOk, isOkCallB]
              omega
            · rw [r5, countOk_append, countOk_append, countOk_append, b5,
                countOk_zero_of_epicDelta (by rfl) e2]
              simp [countOk, isOkCallB]
              omega
            · exact svcCompat_trans r6 (svcCompat_trans b7 e5')
            · intro hpt
              have hptB : Ev.poll true ∉ stB.trace := (b9 (hptcB hpt)).2 (by simp)
              exact r7 hptB
            · intro hcm
              have hcm2 : cancelMsg ∉
                  ({ res with epics := res.epics ++ [ci] } : CreationResult).errors := hcm
              have hcmB : cancelMsg ∉ resB.errors := (b10 hcm2).2 (by simp)
              exact r8 hcmB
            · intro hwf hdis
              exact r9 (fun e0 h => hwf e0 (List.mem_cons_of_mem _ h)) hdis
            · intro ho
              have hoB : orderOK stB.trace := b12 (horder ho) hepicw2
              exact r10 hoB
            · intro hwf hdis i0 h0
              cases i0 with
              | zero =>
                constructor
                · obtain ⟨req, kk, hm, _⟩ := e4'
                  refine ⟨req, TrackerResp.ok kk, ?_⟩
                  rw [r1, b1, e1', Nat.add_zero]
                  refine List.mem_append_left _ ?_
                  refine List.mem_append_left _ ?_
                  exact List.mem_append_right _ hm
                · intro hno
                  obtain ⟨req, kk, hm, _⟩ := e4'
                  refine absurd ⟨req, kk, ?_⟩ hno
                  rw [r1, b1, e1', Nat.add_zero]
                  refine List.mem_append_left _ ?_
                  refine List.mem_append_left _ ?_
                  exact List.mem_append_right _ hm
              | succ i0' =>
                have h0' : i0' < rest.length := by
                  simpa using h0
                have hidx : i + (i0' + 1) = i + 1 + i0' := by omega
                have := r11 (fun e0 h => hwf e0 (List.mem_cons_of_mem _ h)) hdis i0' h0'
                rw [hidx]
                exact this
            · intro hwf hdis i0 h0 j0 hj
              cases i0 with
              | zero =>
                refine Or.inr ?_
                have hwfS : ∀ sd0 ∈ ed.stories, sd0.summary ≠ none ∧
                    ∀ su ∈ sd0.subtasks, su.summary ≠ none :=
                  (hwf ed (List.mem_cons_self ed rest)).2
                have h13 := b13 hwfS hdis j0 hj
                rw [Nat.zero_add] at h13
                refine ⟨?_, ?_⟩
                · obtain ⟨reqq, rq, hmq⟩ := h13.1
                  exact ⟨reqq, rq, by rw [r1]; exact List.mem_append_left _ hmq⟩
                · intro hno
                  have hnoB : ¬ ∃ req kk,
                      Ev.call (Tag.story i j0) req (TrackerResp.ok kk) ∈ stB.trace := by
                    rintro ⟨reqq, kkq, hmq⟩
                    exact hno ⟨reqq, kkq, by rw [r1]; exact List.mem_append_left _ hmq⟩
                  have hb := h13.2 hnoB
                  rw [r2]
                  exact List.mem_append_left _ hb
              | succ i0' =>
                have h0' : i0' < rest.length := by
                  simpa using h0
                have hidx : i + (i0' + 1) = i + 1 + i0' := by omega
                have h12 := r12 (fun e0 h => hwf e0 (List.mem_cons_of_mem _ h))
                  hdis i0' h0' j0 hj
                rw [hidx]
                exact h12
          | cancelled =>
            rw [show runEpics env i (ed :: rest) res st = (resB, stB, Outcome.cancelled)
                from by simp [runEpics, doPoll, hdisc, hce, hrs]] at heq
            injection heq with h1 h23
            injection h23 with h2 h3
            subst h1; subst h2; subst h3
            refine ⟨[Ev.poll false] ++ Δe ++ ΔB, leB,
              ?_, ?_, ?_, ?_, ?_, ?_, ?_, ?_, ?_, ?_, ?_, ?_⟩
            · rw [b1, e1']
              simp [List.append_assoc]
            · rw [b2]
            · rw [countOk_append, countOk_append, e3o, b6]
              have h3 : resB.epics = res.epics ++ [ci] := b3
              rw [h3]
              simp [countOk, isOkCallB]
            · rw [countOk_append, countOk_append, b4,
                countOk_zero_of_epicDelta (by rfl) e2]
              simp [countOk, isOkCallB]
            · rw [countOk_append, countOk_append, b5,
                countOk_zero_of_epicDelta (by rfl) e2]
              simp [countOk, isOkCallB]
            · exact svcCompat_trans b7 e5'
            · intro hpt
              exact ⟨fun _ => (b9 (hptcB hpt)).1 rfl, fun hne => absurd rfl hne⟩
            · intro hcm
              exact ⟨fun _ => (b10 hcm).1 rfl, fun hne => absurd rfl hne⟩
            · intro hwf hdis
              have := b11 (hwf ed (List.mem_cons_self ed rest)).2 hdis
              exact Outcome.noConfusion this
            · intro ho
              exact b12 (horder ho) hepicw2
            · intro hwf hdis
              have := b11 (hwf ed (List.mem_cons_self ed rest)).2 hdis
              exact Outcome.noConfusion this
            · intro hwf hdis i0 h0 j0 hj
              have := b11 (hwf ed (List.mem_cons_self ed rest)).2 hdis
              exact Outcome.noConfusion this
          | raised m =>
            rw [show runEpics env i (ed :: rest) res st = (resB, stB, Outcome.raised m)
                from by simp [runEpics, doPoll, hdisc, hce, hrs]] at heq
            injection heq with h1 h23
            injection h23 with h2 h3
            subst h1; subst h2; subst h3
            refine ⟨[Ev.poll false] ++ Δe ++ ΔB, leB,
              ?_, ?_, ?_, ?_, ?_, ?_, ?_, ?_, ?_, ?_, ?_, ?_⟩
            · rw [b1, e1']
              simp [List.append_assoc]
            · rw [b2]
            · rw [countOk_append, countOk_append, e3o, b6]
              have h3 : resB.epics = res.epics ++ [ci] := b3
              rw [h3]
              simp [countOk, isOkCallB]
            · rw [countOk_append, countOk_append, b4,
                countOk_zero_of_epicDelta (by rfl) e2]
              simp [countOk, isOkCallB]
            · rw [countOk_append, countOk_append, b5,
                countOk_zero_of_epicDelta (by rfl) e2]
              simp [countOk, isOkCallB]
            · exact svcCompat_trans b7 e5'
            · intro hpt
              refine ⟨fun h => by simp at h, fun _ => ?_⟩
              exact (b9 (hptcB hpt)).2 (by simp)
            · intro hcm
              refine ⟨fun h => by simp at h, fun _ => ?_⟩
              exact (b10 hcm).2 (by simp)
            · intro hwf hdis
              have := b11 (hwf ed (List.mem_cons_self ed rest)).2 hdis
              exact Outcome.noConfusion this
            · intro ho
              exact b12 (horder ho) hepicw2
            · intro hwf hdis
              have := b11 (hwf ed (List.mem_cons_self ed rest)).2 hdis
              exact Outcome.noConfusion this
            · intro hwf hdis i0 h0 j0 hj
              have := b11 (hwf ed (List.mem_cons_self ed rest)).2 hdis
              exact Outcome.noConfusion this

/-! ## Part 6: behaviour under an all-successful tracker -/

/-- The Epic-Name candidate create_epic tries first. -/
def epicFirstCand (svc : Svc) : String :=
  match svc.epic_name_field with
  | some f => if f = "" then "customfield_10011" else f
  | none => "customfield_10011"

theorem create_epic_allok (env : Env) (kf : Nat → TrackerOk)
    (hok : ∀ n, env.resp n = TrackerResp.ok (kf n)) (i : Nat) (ed : EpicData)
    (st : St) (s : String) (hs : ed.summary = some s) :
    create_epic env i ed st =
      (Except.ok (some ⟨(kf st.nCall).key, (kf st.nCall).selfUrl, s⟩),
       { st with
           svc := { st.svc with epic_name_field := some (epicFirstCand st.svc) }
           nCall := st.nCall + 1
           trace := st.trace ++
             [Ev.call (Tag.epic i)
               { epicBaseReq st.svc ed s with extra := [(epicFirstCand st.svc, s)] }
               (TrackerResp.ok (kf st.nCall))] }) := by
  cases hf : st.svc.epic_name_field with
  | none =>
    simp [create_epic, hs, epicCandidates, hf, epicNameAttempts, doCreate, hok,
      epicFirstCand]
  | some f =>
    by_cases hf0 : f = "" <;>
      simp [create_epic, hs, epicCandidates, hf, hf0, epicNameAttempts, doCreate,
        hok, epicFirstCand]

theorem create_story_allok (env : Env) (kf : Nat → TrackerOk)
    (hok : ∀ n, env.resp n = TrackerResp.ok (kf n)) (tg : Tag) (sd : StoryData)
    (ek : Option String) (st : St) (s : String) (hs : sd.summary = some s) :
    create_story env tg sd ek st =
      (some ⟨(kf st.nCall).key, (kf st.nCall).selfUrl, s⟩,
       { st with
           nCall := st.nCall + 1
           trace := st.trace ++
             [Ev.call tg (storyReq st.svc sd s st.svc.story_issue_type ek true)
               (TrackerResp.ok (kf st.nCall))] }) := by
  simp [create_story, hs, doCreate, hok]

theorem create_subtask_allok (env : Env) (kf : Nat → TrackerOk)
    (hok : ∀ n, env.resp n = TrackerResp.ok (kf n)) (tg : Tag) (sd : SubtaskData)
    (pk : String) (st : St) (s : String) (hs : sd.summary = some s) :
    create_subtask env tg sd pk st =
      (some ⟨(kf st.nCall).key, (kf st.nCall).selfUrl, s⟩,
       { st with
           nCall := st.nCall + 1
           trace := st.trace ++
             [Ev.call tg (subReqOf st.svc sd s pk) (TrackerResp.ok (kf st.nCall))] }) := by
  simp [create_subtask, hs, doCreate, hok]

/-- When the parent key and the link field are both truthy, the story
request carries exactly the Epic-Link pair. -/
theorem storyReq_extra_link (svc : Svc) (sd : StoryData) (s it ek : String)
    (ip : Bool) (hek : ek ≠ "") (hlf : svc.epic_link_field ≠ "") :
    (storyReq svc sd s it (some ek) ip).extra = [(svc.epic_link_field, ek)] := by
  simp [storyReq, truthy, hek, hlf]

theorem runSubtasks_allok (env : Env) (kf : Nat → TrackerOk)
    (hok : ∀ n, env.resp n = TrackerResp.ok (kf n))
    (hdis : ∀ n, env.disconnected n = false) (lf : String) (i j : Nat) :
    ∀ (subs : List SubtaskData) (k : Nat) (skey : String) (res : CreationResult) (st : St),
    (∀ su ∈ subs, su.summary ≠ none) →
    (∃ req kk, Ev.call (Tag.story i j) req (TrackerResp.ok kk) ∈ st.trace ∧
      kk.key = skey) →
    storiesLinked lf st.trace → subtasksLinked st.trace →
    ∃ res' st',
      runSubtasks env i j k subs skey res st = (res', st', Outcome.done) ∧
      res'.epics = res.epics ∧ res'.stories = res.stories ∧
      res'.errors = res.errors ∧
      res'.subtasks.length = res.subtasks.length + subs.length ∧
      st'.svc = st.svc ∧
      (∃ Δ, st'.trace = st.trace ++ Δ) ∧
      storiesLinked lf st'.trace ∧ subtasksLinked st'.trace := by
  intro subs
  induction subs with
  | nil =>
    intro k skey res st _ _ hsl htl
    exact ⟨res, st, by simp [runSubtasks], rfl, rfl, rfl, by simp, rfl,
      ⟨[], by simp⟩, hsl, htl⟩
  | cons sub rest ihs =>
    intro k skey res st hwf hw hsl htl
    obtain ⟨s0, hs0⟩ : ∃ s0, sub.summary = some s0 := by
      cases hsub : sub.summary with
      | none => exact absurd hsub (hwf sub (List.mem_cons_self sub rest))
      | some s0 => exact ⟨s0, rfl⟩
    obtain ⟨reqW, kkW, hwm, hwk⟩ := hw
    have hstep := create_subtask_allok env kf hok (Tag.subtask i j k) sub skey
      { st with nPoll := st.nPoll + 1, trace := st.trace ++ [Ev.poll false] } s0 hs0
    -- state after the poll and the creation call
    have hznext :
        runSubtasks env i j k (sub :: rest) skey res st =
          runSubtasks env i j (k + 1) rest skey
            { res with subtasks := res.subtasks ++
                [⟨(kf st.nCall).key, (kf st.nCall).selfUrl, s0⟩] }
            { st with
                nCall := st.nCall + 1
                nPoll := st.nPoll + 1
                trace := (st.trace ++ [Ev.poll false]) ++
                  [Ev.call (Tag.subtask i j k)
                    (subReqOf st.svc sub s0 skey)
                    (TrackerResp.ok (kf st.nCall))] } := by
      simp [runSubtasks, doPoll, hdis, hstep]
    have hsl2 : storiesLinked lf ((st.trace ++ [Ev.poll false]) ++
        [Ev.call (Tag.subtask i j k) (subReqOf st.svc sub s0 skey)
          (TrackerResp.ok (kf st.nCall))]) := by
      refine storiesLinked_append _ ?_ ?_
      · refine storiesLinked_append _ hsl ?_
        intro i0 j0 req r hm
        simp at hm
      · intro i0 j0 req r hm
        simp at hm
    have htl2 : subtasksLinked ((st.trace ++ [Ev.poll false]) ++
        [Ev.call (Tag.subtask i j k) (subReqOf st.svc sub s0 skey)
          (TrackerResp.ok (kf st.nCall))]) := by
      refine subtasksLinked_append _ ?_ ?_
      · refine subtasksLinked_append _ htl ?_
        intro i0 j0 k0 req r hm
        simp at hm
      · intro i0 j0 k0 req r hm
        simp at hm
        obtain ⟨h1, h2, _⟩ := hm
        obtain ⟨hi, hj, _⟩ := h1
        subst hi; subst hj
        refine ⟨reqW, kkW, List.mem_append_left _ hwm, ?_⟩
        rw [h2]
        simp [subReqOf, hwk]
    have hw2 : ∃ req kk, Ev.call (Tag.story i j) req (TrackerResp.ok kk) ∈
        ((st.trace ++ [Ev.poll false]) ++
          [Ev.call (Tag.subtask i j k) (subReqOf st.svc sub s0 skey)
            (TrackerResp.ok (kf st.nCall))]) ∧ kk.key = skey :=
      ⟨reqW, kkW, List.mem_append_left _ (List.mem_append_left _ hwm), hwk⟩
    obtain ⟨res', st', hr1, hr2, hr3, hr4, hr5, hr6, ⟨Δr, hr7⟩, hr8, hr9⟩ :=
      ihs (k + 1) skey
        { res with subtasks := res.subtasks ++
            [⟨(kf st.nCall).key, (kf st.nCall).selfUrl, s0⟩] }
        { st with
            nCall := st.nCall + 1
            nPoll := st.nPoll + 1
            trace := (st.trace ++ [Ev.poll false]) ++
              [Ev.call (Tag.subtask i j k)
                (subReqOf st.svc sub s0 skey)
                (TrackerResp.ok (kf st.nCall))] }
        (fun su h => hwf su (List.mem_cons_of_mem _ h)) hw2 hsl2 htl2
    refine ⟨res', st', by rw [hznext]; exact hr1, hr2, hr3, hr4, ?_, hr6, ?_, hr8, hr9⟩
    · rw [hr5]
      simp
      omega
    · refine ⟨[Ev.poll false] ++
        [Ev.call (Tag.subtask i j k) (subReqOf st.svc sub s0 skey)
          (TrackerResp.ok (kf st.nCall))] ++ Δr, ?_⟩
      rw [hr7]
      simp [List.append_assoc]

theorem runStories_allok (env : Env) (kf : Nat → TrackerOk)
    (hok : ∀ n, env.resp n = TrackerResp.ok (kf n))
    (hdis : ∀ n, env.disconnected n = false) (lf : String) (i : Nat) :
    ∀ (sds : List StoryData) (j : Nat) (ekey : String) (res : CreationResult) (st : St),
    (∀ sd ∈ sds, sd.summary ≠ none ∧ ∀ su ∈ sd.subtasks, su.summary ≠ none) →
    st.svc.epic_link_field = lf → lf ≠ "" → ekey ≠ "" →
    (∃ req kk, Ev.call (Tag.epic i) req (TrackerResp.ok kk) ∈ st.trace ∧
      kk.key = ekey) →
    storiesLinked lf st.trace → subtasksLinked st.trace →
    ∃ res' st',
      runStories env i j sds ekey res st = (res', st', Outcome.done) ∧
      res'.epics = res.epics ∧ res'.errors = res.errors ∧
      res'.stories.length = res.stories.length + sds.length ∧
      res'.subtasks.length = res.subtasks.length +
        (sds.map (fun sd => sd.subtasks.length)).sum ∧
      st'.svc = st.svc ∧
      (∃ Δ, st'.trace = st.trace ++ Δ) ∧
      storiesLinked lf st'.trace ∧ subtasksLinked st'.trace := by
  intro sds
  induction sds with
  | nil =>
    intro j ekey res st _ _ _ _ _ hsl htl
    exact ⟨res, st, by simp [runStories], rfl, rfl, by simp, by simp, rfl,
      ⟨[], by simp⟩, hsl, htl⟩
  | cons sd rest ihs =>
    intro j ekey res st hwf hlf hlfne hekne hw hsl htl
    obtain ⟨s0, hs0⟩ : ∃ s0, sd.summary = some s0 := by
      cases hsd : sd.summary with
      | none => exact absurd hsd (hwf sd (List.mem_cons_self sd rest)).1
      | some s0 => exact ⟨s0, rfl⟩
    obtain ⟨reqW, kkW, hwm, hwk⟩ := hw
    have hstep := create_story_allok env kf hok (Tag.story i j) sd (some ekey)
      { st with nPoll := st.nPoll + 1, trace := st.trace ++ [Ev.poll false] } s0 hs0
    -- the story event appended by the successful first attempt
    have hreqx : (storyReq st.svc sd s0 st.svc.story_issue_type (some ekey) true).extra =
        [(lf, ekey)] := by
      rw [← hlf]
      exact storyReq_extra_link st.svc sd s0 st.svc.story_issue_type ekey true hekne
        (by rw [hlf]; exact hlfne)
    have hsl2 : storiesLinked lf ((st.trace ++ [Ev.poll false]) ++
        [Ev.call (Tag.story i j)
          (storyReq st.svc sd s0 st.svc.story_issue_type (some ekey) true)
          (TrackerResp.ok (kf st.nCall))]) := by
      refine storiesLinked_append _ ?_ ?_
      · refine storiesLinked_append _ hsl ?_
        intro i0 j0 req r hm
        simp at hm
      · intro i0 j0 req r hm
        simp at hm
        obtain ⟨h1, h2, _⟩ := hm
        obtain ⟨hi, _⟩ := h1
        subst hi
        refine ⟨reqW, kkW, List.mem_append_left _ hwm, ?_⟩
        rw [h2, hreqx, hwk]
        simp
    have htl2 : subtasksLinked ((st.trace ++ [Ev.poll false]) ++
        [Ev.call (Tag.story i j)
          (storyReq st.svc sd s0 st.svc.story_issue_type (some ekey) true)
          (TrackerResp.ok (kf st.nCall))]) := by
      refine subtasksLinked_append _ ?_ ?_
      · refine subtasksLinked_append _ htl ?_
        intro i0 j0 k0 req r hm
        simp at hm
      · intro i0 j0 k0 req r hm
        simp at hm
    have hw2 : ∃ req kk, Ev.call (Tag.story i j) req (TrackerResp.ok kk) ∈
        ((st.trace ++ [Ev.poll false]) ++
          [Ev.call (Tag.story i j)
            (storyReq st.svc sd s0 st.svc.story_issue_type (some ekey) true)
            (TrackerResp.ok (kf st.nCall))]) ∧ kk.key = (kf st.nCall).key :=
      ⟨storyReq st.svc sd s0 st.svc.story_issue_type (some ekey) true, kf st.nCall,
        List.mem_append_right _ (by simp), rfl⟩
    obtain ⟨resB, stB, hb1, hb2, hb3, hb4, hb5, hb6, ⟨ΔB, hb7⟩, hb8, hb9⟩ :=
      runSubtasks_allok env kf hok hdis lf i j sd.subtasks 0 (kf st.nCall).key
        { res with stories := res.stories ++
            [⟨(kf st.nCall).key, (kf st.nCall).selfUrl, s0⟩] }
        { st with
            nCall := st.nCall + 1
            nPoll := st.nPoll + 1
            trace := (st.trace ++ [Ev.poll false]) ++
              [Ev.call (Tag.story i j)
                (storyReq st.svc sd s0 st.svc.story_issue_type (some ekey) true)
                (TrackerResp.ok (kf st.nCall))] }
        (hwf sd (List.mem_cons_self sd rest)).2 hw2 hsl2 htl2
    have hwB : ∃ req kk, Ev.call (Tag.epic i) req (TrackerResp.ok kk) ∈ stB.trace ∧
        kk.key = ekey := by
      refine ⟨reqW, kkW, ?_, hwk⟩
      rw [hb7]
      exact List.mem_append_left _
        (List.mem_append_left _ (List.mem_append_left _ hwm))
    obtain ⟨res', st', hr1, hr2, hr3, hr4, hr5, hr6, ⟨Δr, hr7⟩, hr8, hr9⟩ :=
      ihs (j + 1) ekey resB stB
        (fun sd0 h => hwf sd0 (List.mem_cons_of_mem _ h))
        (by rw [hb6]; exact hlf) hlfne hekne hwB hb8 hb9
    have hb1' : runSubtasks env i j 0 sd.subtasks (kf st.nCall).key
        { res with stories := res.stories ++
            [⟨(kf st.nCall).key, (kf st.nCall).selfUrl, s0⟩] }
        { st with
            nCall := st.nCall + 1
            nPoll := st.nPoll + 1
            trace := st.trace ++
              [Ev.poll false,
               Ev.call (Tag.story i j)
                 (storyReq st.svc sd s0 st.svc.story_issue_type (some ekey) true)
                 (TrackerResp.ok (kf st.nCall))] } = (resB, stB, Outcome.done) := by
      rw [List.append_assoc] at hb1
      exact hb1
    have hznext :
        runStories env i j (sd :: rest) ekey res st =
          runStories env i (j + 1) rest ekey resB stB := by
      simp [runStories, doPoll, hdis, hstep, hb1']
    refine ⟨res', st', by rw [hznext]; exact hr1, ?_, ?_, ?_, ?_, ?_, ?_, hr8, hr9⟩
    · rw [hr2, hb2]
    · rw [hr3, hb4]
    · rw [hr4]
      have hsx : resB.stories = res.stories ++
          [⟨(kf st.nCall).key, (kf st.nCall).selfUrl, s0⟩] := hb3
      rw [hsx]
      simp
      omega
    · rw [hr5, hb5]
      simp
      omega
    · rw [hr6, hb6]
    · refine ⟨[Ev.poll false] ++
        [Ev.call (Tag.story i j)
          (storyReq st.svc sd s0 st.svc.story_issue_type (some ekey) true)
          (TrackerResp.ok (kf st.nCall))] ++ ΔB ++ Δr, ?_⟩
      rw [hr7, hb7]
      simp [List.append_assoc]

theorem runEpics_allok (env : Env) (kf : Nat → TrackerOk)
    (hok : ∀ n, env.resp n = TrackerResp.ok (kf n))
    (hkey : ∀ n, (kf n).key ≠ "")
    (hdis : ∀ n, env.disconnected n = false) (lf : String) (hlfne : lf ≠ "") :
    ∀ (eds : List EpicData) (i : Nat) (res : CreationResult) (st : St),
    (∀ ed ∈ eds, edWF ed) →
    st.svc.epic_link_field = lf →
    storiesLinked lf st.trace → subtasksLinked st.trace →
    ∃ res' st',
      runEpics env i eds res st = (res', st', Outcome.done) ∧
      res'.errors = res.errors ∧
      res'.epics.length = res.epics.length + eds.length ∧
      res'.stories.length = res.stories.length +
        (eds.map (fun ed => ed.stories.length)).sum ∧
      res'.subtasks.length = res.subtasks.length +
        (eds.map (fun ed => (ed.stories.map (fun sd => sd.subtasks.length)).sum)).sum ∧
      st'.svc.epic_link_field = lf ∧
      storiesLinked lf st'.trace ∧ subtasksLinked st'.trace := by
  intro eds
  induction eds with
  | nil =>
    intro i res st _ hlf hsl htl
    exact ⟨res, st, by simp [runEpics], rfl, by simp, by simp, by simp, hlf,
      hsl, htl⟩
  | cons ed rest ihs =>
    intro i res st hwf hlf hsl htl
    obtain ⟨s0, hs0⟩ : ∃ s0, ed.summary = some s0 := by
      cases hed : ed.summary with
      | none => exact absurd hed (hwf ed (List.mem_cons_self ed rest)).1
      | some s0 => exact ⟨s0, rfl⟩
    have hstep := create_epic_allok env kf hok i ed
      { st with nPoll := st.nPoll + 1, trace := st.trace ++ [Ev.poll false] } s0 hs0
    have hsl2 : storiesLinked lf ((st.trace ++ [Ev.poll false]) ++
        [Ev.call (Tag.epic i)
          { epicBaseReq st.svc ed s0 with extra := [(epicFirstCand st.svc, s0)] }
          (TrackerResp.ok (kf st.nCall))]) := by
      refine storiesLinked_append _ ?_ ?_
      · refine storiesLinked_append _ hsl ?_
        intro i0 j0 req r hm
        simp at hm
      · intro i0 j0 req r hm
        simp at hm
    have htl2 : subtasksLinked ((st.trace ++ [Ev.poll false]) ++
        [Ev.call (Tag.epic i)
          { epicBaseReq st.svc ed s0 with extra := [(epicFirstCand st.svc, s0)] }
          (TrackerResp.ok (kf st.nCall))]) := by
      refine subtasksLinked_append _ ?_ ?_
      · refine subtasksLinked_append _ htl ?_
        intro i0 j0 k0 req r hm
        simp at hm
      · intro i0 j0 k0 req r hm
        simp at hm
    have hw2 : ∃ req kk, Ev.call (Tag.epic i) req (TrackerResp.ok kk) ∈
        ((st.trace ++ [Ev.poll false]) ++
          [Ev.call (Tag.epic i)
            { epicBaseReq st.svc ed s0 with extra := [(epicFirstCand st.svc, s0)] }
            (TrackerResp.ok (kf st.nCall))]) ∧ kk.key = (kf st.nCall).key :=
      ⟨{ epicBaseReq st.svc ed s0 with extra := [(epicFirstCand st.svc, s0)] },
        kf st.nCall, List.mem_append_right _ (by simp), rfl⟩
    obtain ⟨resB, stB, hb1, hb2, hb3, hb4, hb5, hb6, ⟨ΔB, hb7⟩, hb8, hb9⟩ :=
      runStories_allok env kf hok hdis lf i ed.stories 0 (kf st.nCall).key
        { res with epics := res.epics ++
            [⟨(kf st.nCall).key, (kf st.nCall).selfUrl, s0⟩] }
        { st with
            svc := { st.svc with epic_name_field := some (epicFirstCand st.svc) }
            nCall := st.nCall + 1
            nPoll := st.nPoll + 1
            trace := (st.trace ++ [Ev.poll false]) ++
              [Ev.call (Tag.epic i)
                { epicBaseReq st.svc ed s0 with extra := [(epicFirstCand st.svc, s0)] }
                (TrackerResp.ok (kf st.nCall))] }
        (hwf ed (List.mem_cons_self ed rest)).2 hlf hlfne (hkey st.nCall)
        hw2 hsl2 htl2
    obtain ⟨res', st', hr1, hr2, hr3, hr4, hr5, hr6, hr7, hr8⟩ :=
      ihs (i + 1) resB stB
        (fun ed0 h => hwf ed0 (List.mem_cons_of_mem _ h))
        (by rw [hb6]; exact hlf) hb8 hb9
    have hb1' : runStories env i 0 ed.stories (kf st.nCall).key
        { res with epics := res.epics ++
            [⟨(kf st.nCall).key, (kf st.nCall).selfUrl, s0⟩] }
        { st with
            svc := { st.svc with epic_name_field := some (epicFirstCand st.svc) }
            nCall := st.nCall + 1
            nPoll := st.nPoll + 1
            trace := st.trace ++
              [Ev.poll false,
               Ev.call (Tag.epic i)
                 { epicBaseReq st.svc ed s0 with extra := [(epicFirstCand st.svc, s0)] }
                 (TrackerResp.ok (kf st.nCall))] } = (resB, stB, Outcome.done) := by
      rw [List.append_assoc] at hb1
      exact hb1
    have hznext :
        runEpics env i (ed :: rest) res st =
          runEpics env (i + 1) rest resB stB := by
      simp [runEpics, doPoll, hdis, hstep, hb1']
    refine ⟨res', st', by rw [hznext]; exact hr1, ?_, ?_, ?_, ?_, hr6, hr7, hr8⟩
    · rw [hr2, hb3]
    · have hx : resB.epics = res.epics ++
          [⟨(kf st.nCall).key, (kf st.nCall).selfUrl, s0⟩] := hb2
      rw [hr3, hx]
      simp
      omega
    · rw [hr4, hb4]
      simp
      omega
    · rw [hr5, hb5]
      simp
      omega

theorem sum_const_of_all {α : Type} (l : List α) (f : α → Nat) (c : Nat)
    (h : ∀ x ∈ l, f x = c) : (l.map f).sum = l.length * c := by
  induction l with
  | nil => simp
  | cons x xs ihl =>
    simp [h x (List.mem_cons_self x xs),
      ihl (fun y hy => h y (List.mem_cons_of_mem _ hy))]
    ring

/-! ## Part 7: concrete fixtures used by the claims -/

/-- A typical discovered schema (the default Epic-Link fallback id and
the configured issue-type names). -/
def svcBase : Svc :=
  { project_key := "P", epic_issue_type := "Epic", epic_name_field := none,
    epic_link_field := "customfield_10014", story_issue_type := "Story",
    subtask_issue_type := "Sub-task",
    available_issue_types := ["Epic", "Story", "Task", "Sub-task"] }

def stBase : St := { svc := svcBase, nCall := 0, nUpd := 0, nPoll := 0, trace := [] }

/-- A tracker that accepts every creation. -/
def envAllOk : Env :=
  { resp := fun _ => TrackerResp.ok ⟨"K", "U"⟩, updateOk := fun _ => false,
    disconnected := fun _ => false }

/-- A tracker that rejects the second creation call with a generic
message and accepts all others. -/
def envRejectSecond : Env :=
  { resp := fun n => if n = 1 then TrackerResp.err "bad" else TrackerResp.ok ⟨"K", "U"⟩,
    updateOk := fun _ => false, disconnected := fun _ => false }

/-- A client that is already disconnected at the first poll. -/
def envDisc : Env :=
  { resp := fun _ => TrackerResp.ok ⟨"K", "U"⟩, updateOk := fun _ => false,
    disconnected := fun _ => true }

/-- A tracker that rejects everything with a field error. -/
def envFieldErr : Env :=
  { resp := fun _ => TrackerResp.err "field invalid", updateOk := fun _ => false,
    disconnected := fun _ => false }

/-- A tracker that rejects the first creation as an invalid issue type
and accepts the rest. -/
def envBadType : Env :=
  { resp := fun n => if n = 0 then TrackerResp.err "invalid issue type"
      else TrackerResp.ok ⟨"K", "U"⟩,
    updateOk := fun _ => false, disconnected := fun _ => false }

/-- One epic, one story (priority High), one subtask. -/
def docOne : DocData :=
  ⟨some [⟨some "E", some "d", [⟨some "S", none, some "High", [⟨some "T", none⟩]⟩]⟩]⟩

/-- One epic with a single story carrying a priority. -/
def docStory : DocData := ⟨some [⟨some "E", none, [⟨some "S", none, some "High", []⟩]⟩]⟩

/-- One epic with two stories without priorities. -/
def docTwoStories : DocData :=
  ⟨some [⟨some "E", none, [⟨some "S1", none, none, []⟩, ⟨some "S2", none, none, []⟩]⟩]⟩

/-- An epic whose data lacks a summary, followed by a well-formed one. -/
def docBadEpic : DocData := ⟨some [⟨none, none, []⟩, ⟨some "B", none, []⟩]⟩

/-- One epic whose first story lacks a summary, followed by a
well-formed story. -/
def docBadStory : DocData :=
  ⟨some [⟨some "E", none, [⟨none, none, none, []⟩, ⟨some "S2", none, none, []⟩]⟩]⟩

/-! ## Part 8: the claims -/

/-- C1: materializing a document of N epics, each with M stories, each
with K subtasks, against a tracker whose every creation call succeeds
(with a non-empty assigned key) and a connected client, yields exactly
N epics, N*M stories and N*M*K subtasks, an empty error list, and every
story call carries its parent epic's tracker-assigned key in the
Epic-Link field while every subtask call carries its parent story's
tracker-assigned key. -/
theorem c1_roundtrip (env : Env) (kf : Nat → TrackerOk) (doc : List EpicData)
    (st0 : St) (N M K : Nat)
    (hok : ∀ n, env.resp n = TrackerResp.ok (kf n))
    (hkey : ∀ n, (kf n).key ≠ "")
    (hdis : ∀ n, env.disconnected n = false)
    (hlf : st0.svc.epic_link_field ≠ "")
    (htr : st0.trace = [])
    (hwf : ∀ ed ∈ doc, edWF ed)
    (hN : doc.length = N)
    (hM : ∀ ed ∈ doc, ed.stories.length = M)
    (hK : ∀ ed ∈ doc, ∀ sd ∈ ed.stories, sd.subtasks.length = K) :
    (create_issues env ⟨some doc⟩ st0).1.epics.length = N ∧
    (create_issues env ⟨some doc⟩ st0).1.stories.length = N * M ∧
    (create_issues env ⟨some doc⟩ st0).1.subtasks.length = N * M * K ∧
    (create_issues env ⟨some doc⟩ st0).1.errors = [] ∧
    storiesLinked st0.svc.epic_link_field (create_issues env ⟨some doc⟩ st0).2.trace ∧
    subtasksLinked (create_issues env ⟨some doc⟩ st0).2.trace := by
  have hsl0 : storiesLinked st0.svc.epic_link_field st0.trace := by
    rw [htr]
    exact storiesLinked_nil _
  have htl0 : subtasksLinked st0.trace := by
    rw [htr]
    exact subtasksLinked_nil
  obtain ⟨res', st', h1, h2, h3, h4, h5, h6, h7, h8⟩ :=
    runEpics_allok env kf hok hkey hdis st0.svc.epic_link_field hlf doc 0
      emptyResult st0 hwf rfl hsl0 htl0
  have hci : create_issues env ⟨some doc⟩ st0 = (res', st') := by
    simp [create_issues, h1]
  rw [hci]
  refine ⟨?_, ?_, ?_, ?_, h7, h8⟩
  · rw [h3, hN]
    simp [emptyResult]
  · rw [h4, sum_const_of_all doc (fun ed => ed.stories.length) M hM, hN]
    simp [emptyResult]
  · have hin : ∀ ed ∈ doc,
        (ed.stories.map (fun sd => sd.subtasks.length)).sum = M * K := by
      intro ed hed
      rw [sum_const_of_all ed.stories (fun sd => sd.subtasks.length) K (hK ed hed),
        hM ed hed]
    rw [h5, sum_const_of_all doc _ (M * K) hin, hN]
    simp [emptyResult, Nat.mul_assoc]
  · rw [h2]
    simp [emptyResult]

/-- Witness for C1 at a concrete one-epic, one-story, one-subtask
document against an all-accepting tracker. -/
theorem c1_roundtrip_witness :
    (create_issues envAllOk docOne stBase).1.epics.length = 1 ∧
    (create_issues envAllOk docOne stBase).1.stories.length = 1 * 1 ∧
    (create_issues envAllOk docOne stBase).1.subtasks.length = 1 * 1 * 1 ∧
    (create_issues envAllOk docOne stBase).1.errors = [] ∧
    storiesLinked stBase.svc.epic_link_field
      (create_issues envAllOk docOne stBase).2.trace ∧
    subtasksLinked (create_issues envAllOk docOne stBase).2.trace := by
  have h := c1_roundtrip envAllOk (fun _ => ⟨"K", "U"⟩)
    [⟨some "E", some "d", [⟨some "S", none, some "High", [⟨some "T", none⟩]⟩]⟩]
    stBase 1 1 1 (fun _ => rfl)
    (fun _ => by
      show ("K" : String) ≠ ""
      decide)
    (fun _ => rfl)
    (by decide) rfl
    (by
      intro ed hed
      simp only [List.mem_singleton] at hed
      subst hed
      refine ⟨by simp, ?_⟩
      intro sd hsd
      simp only [List.mem_singleton] at hsd
      subst hsd
      refine ⟨by simp, ?_⟩
      intro su hsu
      simp only [List.mem_singleton] at hsu
      subst hsu
      simp)
    rfl (by decide) (by decide)
  exact h

/-- C2 counterexample: when the first epic's data lacks a summary, the
walk does not record a per-item error and continue with the sibling
epic; reading epic_data[\x27summary\x27] outside the try block raises,
the outer handler wraps the KeyError, and the second epic is never
attempted (no creation call tagged for it appears in the trace). -/
theorem c2_counterexample :
    (create_issues envAllOk docBadEpic stBase).1.errors =
      ["Error creating issues in Jira: \x27summary\x27"] ∧
    (create_issues envAllOk docBadEpic stBase).2.trace = [Ev.poll false] ∧
    callsTagged (Tag.epic 1) (create_issues envAllOk docBadEpic stBase).2.trace = 0 :=
  ⟨rfl, rfl, rfl⟩

/-- C2 (amended): in every execution of create_issues started on an
empty trace, a story creation call is attempted only after a successful
creation call for its parent epic and a subtask creation call only
after a successful creation call for its parent story; and provided
every item of the document carries a summary and the client stays
connected: every epic is attempted, an epic none of whose creation
calls succeeded gets a per-epic error string recorded while its sibling
epics are still attempted, and for every story position either its
parent epic has a recorded failure string, or the story itself was
attempted — and if none of its creation calls succeeded, its per-story
failure string is recorded while its sibling stories are still
attempted. (The unconditional sibling-continuation of the original
claim fails when the failed item lacks a summary: the error f-string
raises a KeyError that aborts the whole walk.) -/
theorem c2_order_and_siblings (env : Env) (doc : DocData) (st0 : St)
    (h0 : st0.trace = []) :
    orderOK (create_issues env doc st0).2.trace ∧
    ((∀ ed ∈ doc.epics.getD [], edWF ed) →
      (∀ n, env.disconnected n = false) →
      ∀ i0 (h : i0 < (doc.epics.getD []).length),
        (∃ req r, Ev.call (Tag.epic i0) req r ∈
          (create_issues env doc st0).2.trace) ∧
        ((¬ ∃ req kk, Ev.call (Tag.epic i0) req (TrackerResp.ok kk) ∈
            (create_issues env doc st0).2.trace) →
          ("Failed to create epic: " ++
              ((doc.epics.getD []).get ⟨i0, h⟩).summary.getD "") ∈
            (create_issues env doc st0).1.errors)) ∧
    ((∀ ed ∈ doc.epics.getD [], edWF ed) →
      (∀ n, env.disconnected n = false) →
      ∀ i0 (h : i0 < (doc.epics.getD []).length) j0
        (hj : j0 < (((doc.epics.getD []).get ⟨i0, h⟩).stories).length),
        ("Failed to create epic: " ++
            ((doc.epics.getD []).get ⟨i0, h⟩).summary.getD "") ∈
          (create_issues env doc st0).1.errors ∨
        ((∃ req r, Ev.call (Tag.story i0 j0) req r ∈
            (create_issues env doc st0).2.trace) ∧
          ((¬ ∃ req kk, Ev.call (Tag.story i0 j0) req (TrackerResp.ok kk) ∈
              (create_issues env doc st0).2.trace) →
            ("Failed to create story: " ++
                (((doc.epics.getD []).get ⟨i0, h⟩).stories.get
                  ⟨j0, hj⟩).summary.getD "") ∈
              (create_issues env doc st0).1.errors))) := by
  rcases hre : runEpics env 0 (doc.epics.getD []) emptyResult st0 with ⟨resE, stE, ocE⟩
  obtain ⟨Δ, le, p1, p2, p3, p4, p5, p6, p7, p8, p9, p10, p11, p12⟩ :=
    runEpics_spec env (doc.epics.getD []) 0 emptyResult st0 resE stE ocE hre
  have htr2 : (create_issues env doc st0).2 = stE := by
    cases ocE <;> simp [create_issues, hre]
  have herr : ∀ x, x ∈ resE.errors → x ∈ (create_issues env doc st0).1.errors := by
    cases ocE with
    | done => intro x hx; simpa [create_issues, hre] using hx
    | cancelled => intro x hx; simpa [create_issues, hre] using hx
    | raised m =>
      intro x hx
      simp [create_issues, hre]
      exact Or.inl hx
  refine ⟨?_, ?_, ?_⟩
  · rw [htr2]
    exact p10 (by rw [h0]; exact orderOK_nil)
  · intro hwf hdis i0 h
    have h11 := p11 hwf hdis i0 h
    constructor
    · rw [htr2]
      simpa using h11.1
    · intro hno
      rw [htr2] at hno
      exact herr _ (h11.2 (by simpa using hno))
  · intro hwf hdis i0 h j0 hj
    have h12 := p12 hwf hdis i0 h j0 hj
    rw [Nat.zero_add] at h12
    rcases h12 with hL | ⟨hAtt, hRec⟩
    · exact Or.inl (herr _ hL)
    · refine Or.inr ⟨?_, ?_⟩
      · rw [htr2]
        exact hAtt
      · intro hno
        rw [htr2] at hno
        exact herr _ (hRec hno)

/-- Witness for the amended C2 at a concrete two-story document against
an all-accepting tracker. -/
theorem c2_order_and_siblings_witness :
    orderOK (create_issues envAllOk docTwoStories stBase).2.trace ∧
    ((∀ ed ∈ docTwoStories.epics.getD [], edWF ed) →
      (∀ n, envAllOk.disconnected n = false) →
      ∀ i0 (h : i0 < (docTwoStories.epics.getD []).length),
        (∃ req r, Ev.call (Tag.epic i0) req r ∈
          (create_issues envAllOk docTwoStories stBase).2.trace) ∧
        ((¬ ∃ req kk, Ev.call (Tag.epic i0) req (TrackerResp.ok kk) ∈
            (create_issues envAllOk docTwoStories stBase).2.trace) →
          ("Failed to create epic: " ++
              ((docTwoStories.epics.getD []).get ⟨i0, h⟩).summary.getD "") ∈
            (create_issues envAllOk docTwoStories stBase).1.errors)) ∧
    ((∀ ed ∈ docTwoStories.epics.getD [], edWF ed) →
      (∀ n, envAllOk.disconnected n = false) →
      ∀ i0 (h : i0 < (docTwoStories.epics.getD []).length) j0
        (hj : j0 < (((docTwoStories.epics.getD []).get ⟨i0, h⟩).stories).length),
        ("Failed to create epic: " ++
            ((docTwoStories.epics.getD []).get ⟨i0, h⟩).summary.getD "") ∈
          (create_issues envAllOk docTwoStories stBase).1.errors ∨
        ((∃ req r, Ev.call (Tag.story i0 j0) req r ∈
            (create_issues envAllOk docTwoStories stBase).2.trace) ∧
          ((¬ ∃ req kk, Ev.call (Tag.story i0 j0) req (TrackerResp.ok kk) ∈
              (create_issues envAllOk docTwoStories stBase).2.trace) →
            ("Failed to create story: " ++
                (((docTwoStories.epics.getD []).get ⟨i0, h⟩).stories.get
                  ⟨j0, hj⟩).summary.getD "") ∈
              (create_issues envAllOk docTwoStories stBase).1.errors))) :=
  c2_order_and_siblings envAllOk docTwoStories stBase rfl

/-- C3: if the client-disconnected predicate fires during a walk
started on an empty trace (a positive poll event is in the final
trace), the walk halts at that poll: the trace ends at the first
positive poll with nothing after it, the error list of the returned
partial result ends with exactly one cancellation message, and the
result still holds one issue per successful creation call of each kind
made before the halt (no rollback). -/
theorem c3_cancellation (env : Env) (doc : DocData) (st0 : St)
    (h0 : st0.trace = [])
    (hcanc : Ev.poll true ∈ (create_issues env doc st0).2.trace) :
    (∃ pre, (create_issues env doc st0).2.trace = pre ++ [Ev.poll true] ∧
      Ev.poll true ∉ pre) ∧
    (∃ es, (create_issues env doc st0).1.errors = es ++ [cancelMsg] ∧
      cancelMsg ∉ es) ∧
    (create_issues env doc st0).1.epics.length =
      countOk tagEpicB (create_issues env doc st0).2.trace ∧
    (create_issues env doc st0).1.stories.length =
      countOk tagStoryB (create_issues env doc st0).2.trace ∧
    (create_issues env doc st0).1.subtasks.length =
      countOk tagSubB (create_issues env doc st0).2.trace := by
  rcases hre : runEpics env 0 (doc.epics.getD []) emptyResult st0 with ⟨resE, stE, ocE⟩
  obtain ⟨Δ, le, p1, p2, p3, p4, p5, p6, p7, p8, p9, p10, p11, _⟩ :=
    runEpics_spec env (doc.epics.getD []) 0 emptyResult st0 resE stE ocE hre
  have htr2 : (create_issues env doc st0).2 = stE := by
    cases ocE <;> simp [create_issues, hre]
  have hcanc2 : Ev.poll true ∈ stE.trace := by
    rw [htr2] at hcanc
    exact hcanc
  have hp0 : Ev.poll true ∉ st0.trace := by
    rw [h0]
    simp
  have hc0 : cancelMsg ∉ emptyResult.errors := by
    simp [emptyResult]
  have hoc : ocE = Outcome.cancelled := by
    by_contra hne
    exact absurd hcanc2 ((p7 hp0).2 hne)
  subst hoc
  have hci : create_issues env doc st0 = (resE, stE) := by
    simp [create_issues, hre]
  rw [hci]
  refine ⟨(p7 hp0).1 rfl, (p8 hc0).1 rfl, ?_, ?_, ?_⟩
  · rw [p3, p1, h0]
    simp [emptyResult]
  · rw [p4, p1, h0]
    simp [emptyResult]
  · rw [p5, p1, h0]
    simp [emptyResult]

/-- Witness for C3: an immediately-disconnected client cancels before
the first epic. -/
theorem c3_cancellation_witness :
    (∃ pre, (create_issues envDisc docOne stBase).2.trace = pre ++ [Ev.poll true] ∧
      Ev.poll true ∉ pre) ∧
    (∃ es, (create_issues envDisc docOne stBase).1.errors = es ++ [cancelMsg] ∧
      cancelMsg ∉ es) ∧
    (create_issues envDisc docOne stBase).1.epics.length =
      countOk tagEpicB (create_issues envDisc docOne stBase).2.trace ∧
    (create_issues envDisc docOne stBase).1.stories.length =
      countOk tagStoryB (create_issues envDisc docOne stBase).2.trace ∧
    (create_issues envDisc docOne stBase).1.subtasks.length =
      countOk tagSubB (create_issues envDisc docOne stBase).2.trace :=
  c3_cancellation envDisc docOne stBase rfl (by decide)

/-- C4 counterexample: the text "\x7b \x7b"a":"\x7d"\x7d" contains the
syntactically valid JSON object \x7b"a":"\x7d"\x7d as a substring, yet
extract_json returns none: strategy 2's first-brace-to-last-brace span
is unparseable, and strategy 3's brace-matching regex cannot see braces
inside string literals. -/
theorem c4_counterexample :
    py_in "\x7b\"a\":\"\x7d\"\x7d" "\x7b \x7b\"a\":\"\x7d\"\x7d" = true ∧
    jsonParse "\x7b\"a\":\"\x7d\"\x7d" = some (J.obj [("a", J.str "\x7d")]) ∧
    extract_json "\x7b \x7b\"a\":\"\x7d\"\x7d" = none :=
  ⟨by decide, rfl, rfl⟩

/-- C4 (amended): if the first-open-brace-to-last-close-brace span of
the raw text parses as JSON, extraction succeeds; and whenever the
fence-stripping strategy fails, the extracted value is exactly that
span's parse. (The original claim fails for texts whose valid JSON
object is not recoverable by any of the three strategies, e.g. when a
stray brace precedes an object whose strings contain braces — see the
counterexample.) -/
theorem c4_extraction (t sub : String) (v : J)
    (hs : braceSpan t = some sub) (hv : jsonParse sub = some v) :
    (∃ w, extract_json t = some w) ∧
    (jsonParse (fenceStripped t) = none → extract_json t = some v) := by
  unfold extract_json
  cases hc : jsonParse (fenceStripped t) with
  | some w =>
    refine ⟨⟨w, rfl⟩, ?_⟩
    intro h
    exact Option.noConfusion h
  | none =>
    simp only [hs, hv]
    exact ⟨⟨v, rfl⟩, by simp⟩

/-- Witness for the amended C4 on a prose-wrapped object. -/
theorem c4_extraction_witness :
    (∃ w, extract_json "noise \x7b\"a\":1\x7d end" = some w) ∧
    (jsonParse (fenceStripped "noise \x7b\"a\":1\x7d end") = none →
      extract_json "noise \x7b\"a\":1\x7d end" = some (J.obj [("a", J.num "1")])) :=
  c4_extraction "noise \x7b\"a\":1\x7d end" "\x7b\"a\":1\x7d"
    (J.obj [("a", J.num "1")]) rfl rfl

/-- C5: on raw text from which no strategy extracts JSON, the pipeline
fails with the structured wrapped-invalid-JSON error (never an
unhandled one), and its diagnostics carry only the fixed detail string
plus previews bounded by 500 characters at each end of the raw text,
never more. -/
theorem c5_parse_failure (t : String) (h : extract_json t = none) :
    run_ai_extract t = Except.error
      ⟨"AI analysis failed: 500: AI response was not valid JSON",
        pyTake500 t, pyLast500 t⟩ ∧
    (pyTake500 t).data.length ≤ 500 ∧
    (pyLast500 t).data.length ≤ 500 := by
  refine ⟨?_, ?_, ?_⟩
  · simp [run_ai_extract, h]
  · simp [pyTake500]
  · simp only [pyLast500, List.length_drop]
    omega

/-- Witness for C5 on plain prose. -/
theorem c5_parse_failure_witness :
    run_ai_extract "no json here" = Except.error
      ⟨"AI analysis failed: 500: AI response was not valid JSON",
        pyTake500 "no json here", pyLast500 "no json here"⟩ ∧
    (pyTake500 "no json here").data.length ≤ 500 ∧
    (pyLast500 "no json here").data.length ≤ 500 :=
  c5_parse_failure "no json here" rfl

/-- C6 counterexample: a single story without a summary does not
degrade gracefully: the epic is created, create_story returns None, and
the error f-string story[\x27summary\x27] raises a KeyError that aborts
the walk, so the well-formed second story of the same epic is never
attempted. -/
theorem c6_counterexample :
    (create_issues envAllOk docBadStory stBase).1.stories = [] ∧
    (create_issues envAllOk docBadStory stBase).1.errors =
      ["Error creating issues in Jira: \x27summary\x27"] ∧
    callsTagged (Tag.story 0 1) (create_issues envAllOk docBadStory stBase).2.trace = 0 :=
  ⟨rfl, rfl, rfl⟩

/-- C6 (amended): after a structural parse succeeds there is no
validation: an absent top-level epics field degrades to the empty
sequence (create_issues returns the empty result untouched), and a
missing description on a story degrades to the empty string in the
creation request; but a story without a summary does not merely degrade
— its failed creation raises the walk\x27s KeyError and the rest of the
document is not processed. -/
theorem c6_degradation (env : Env) :
    (∀ st, create_issues env ⟨none⟩ st = (emptyResult, st)) ∧
    (∀ svc sd summ itype ek ip, sd.description = none →
      (storyReq svc sd summ itype ek ip).description = "") ∧
    (∀ i j sd rest ek res st, sd.summary = none →
      env.disconnected st.nPoll = false →
      runStories env i j (sd :: rest) ek res st =
        (res,
          { st with
              nPoll := st.nPoll + 1
              trace := st.trace ++ [Ev.poll false] },
          Outcome.raised "\x27summary\x27")) := by
  refine ⟨?_, ?_, ?_⟩
  · intro st
    simp [create_issues, runEpics]
  · intro svc sd summ itype ek ip h
    simp [storyReq, h]
  · intro i j sd rest ek res st h hd
    simp [runStories, doPoll, hd, h, create_story_none_summary]

/-- Witness for the amended C6 at concrete inputs. -/
theorem c6_degradation_witness :
    create_issues envAllOk ⟨none⟩ stBase = (emptyResult, stBase) ∧
    (storyReq svcBase ⟨some "S", none, none, []⟩ "S" "Story" (some "K")
      true).description = "" ∧
    runStories envAllOk 0 0 [⟨none, none, none, []⟩] "K" emptyResult stBase =
      (emptyResult,
        { stBase with
            nPoll := stBase.nPoll + 1
            trace := stBase.trace ++ [Ev.poll false] },
        Outcome.raised "\x27summary\x27") :=
  ⟨(c6_degradation envAllOk).1 stBase,
   (c6_degradation envAllOk).2.1 svcBase ⟨some "S", none, none, []⟩ "S" "Story"
     (some "K") true rfl,
   (c6_degradation envAllOk).2.2 0 0 ⟨none, none, none, []⟩ [] "K" emptyResult
     stBase rfl rfl⟩

/-- A schema whose Epic-Name field discovery succeeded: create_epic
then has four candidate fields to try before its fallback. -/
def svcEpicName : Svc := { svcBase with epic_name_field := some "customfield_10099" }

def stEpicName : St := { svc := svcEpicName, nCall := 0, nUpd := 0, nPoll := 0, trace := [] }

/-- C7 counterexample: when Epic-Name discovery found a field, an epic
creation against a tracker that rejects every call as a field error
makes 5 creation calls (4 Epic-Name candidates plus the no-Epic-Name
fallback), exceeding the claimed bound of 4. -/
theorem c7_counterexample :
    callsTagged (Tag.epic 0)
      (create_epic envFieldErr 0 ⟨some "E", none, []⟩ stEpicName).2.trace = 5 :=
  rfl

/-- C7 (amended): every strategy step performs at most one creation
call, and the total number of creation calls per issue is bounded: at
most 5 for an epic (up to 4 Epic-Name field candidates — the discovered
field plus three well-known ids — and one fallback), at most
1 + (number of alternate issue types) + 2 for a story, and at most 1
for a subtask. (The original bound of 4 for an epic fails once
discovery found an Epic-Name field.) -/
theorem c7_attempt_bounds (env : Env) (st : St) :
    (∀ i ed, callsTagged (Tag.epic i) (create_epic env i ed st).2.trace ≤
      callsTagged (Tag.epic i) st.trace + 5) ∧
    (∀ i j sd ek, callsTagged (Tag.story i j)
        (create_story env (Tag.story i j) sd ek st).2.trace ≤
      callsTagged (Tag.story i j) st.trace +
        (1 + (storyAltTypes st.svc).length + 2)) ∧
    (∀ i j k sd pk, callsTagged (Tag.subtask i j k)
        (create_subtask env (Tag.subtask i j k) sd pk st).2.trace ≤
      callsTagged (Tag.subtask i j k) st.trace + 1) := by
  refine ⟨?_, ?_, ?_⟩
  · intro i ed
    obtain ⟨Δ, e1, _, _, _, _, e6, _, _, _⟩ := create_epic_spec env i ed st
    rw [e1, callsTagged_append]
    omega
  · intro i j sd ek
    obtain ⟨Δ, s1, _, _, _, _, _, s7⟩ := create_story_spec env (Tag.story i j) sd ek st
    rw [s1, callsTagged_append]
    omega
  · intro i j k sd pk
    obtain ⟨Δ, t1, _, _, _, _, t6, _⟩ := create_subtask_spec env (Tag.subtask i j k) sd pk st
    rw [t1, callsTagged_append]
    omega

/-- In the alternate-type retry loop, if the first m candidates are
rejected and the (m+1)-st call succeeds, the loop returns the created
issue, adopts the m-th candidate as the run\x27s story issue type, and
has made exactly m+1 creation calls. -/
theorem storyAltAttempts_firstOk (env : Env) (tg : Tag) (sd : StoryData)
    (summ : String) (ek : Option String) (k : TrackerOk) :
    ∀ (cands : List String) (m : Nat) (st : St) (hm : m < cands.length),
    (∀ i2, i2 < m → ∃ msg, env.resp (st.nCall + i2) = TrackerResp.err msg) →
    env.resp (st.nCall + m) = TrackerResp.ok k →
    (storyAltAttempts env tg sd summ ek cands st).1 =
      some ⟨k.key, k.selfUrl, summ⟩ ∧
    (storyAltAttempts env tg sd summ ek cands st).2.svc.story_issue_type =
      cands.get ⟨m, hm⟩ ∧
    callsTagged tg (storyAltAttempts env tg sd summ ek cands st).2.trace =
      callsTagged tg st.trace + (m + 1) := by
  intro cands
  induction cands with
  | nil =>
    intro m st hm
    exact absurd hm (by simp)
  | cons c rest ih =>
    intro m st hm hfail hok
    cases m with
    | zero =>
      have h0 : env.resp st.nCall = TrackerResp.ok k := by simpa using hok
      refine ⟨?_, ?_, ?_⟩
      · simp [storyAltAttempts, doCreate, h0]
      · simp [storyAltAttempts, doCreate, h0]
      · simp [storyAltAttempts, doCreate, h0, callsTagged_append, callsTagged, evTag]
    | succ m0 =>
      obtain ⟨msg, hmsg0⟩ := hfail 0 (Nat.succ_pos m0)
      have hmsg : env.resp st.nCall = TrackerResp.err msg := by simpa using hmsg0
      have hstep : storyAltAttempts env tg sd summ ek (c :: rest) st =
          storyAltAttempts env tg sd summ ek rest
            { st with
                nCall := st.nCall + 1
                trace := st.trace ++ [Ev.call tg
                  (storyReq st.svc sd summ c ek true) (TrackerResp.err msg)] } := by
        simp [storyAltAttempts, doCreate, hmsg]
      have hm' : m0 < rest.length := by simpa using hm
      have hfail' : ∀ i2, i2 < m0 →
          ∃ msg2, env.resp (st.nCall + 1 + i2) = TrackerResp.err msg2 := by
        intro i2 hi2
        obtain ⟨msg2, h2⟩ := hfail (i2 + 1) (by omega)
        refine ⟨msg2, ?_⟩
        have he : st.nCall + 1 + i2 = st.nCall + (i2 + 1) := by omega
        rw [he]
        exact h2
      have hok' : env.resp (st.nCall + 1 + m0) = TrackerResp.ok k := by
        have he : st.nCall + 1 + m0 = st.nCall + (m0 + 1) := by omega
        rw [he]
        exact hok
      obtain ⟨r1, r2, r3⟩ := ih m0
        { st with
            nCall := st.nCall + 1
            trace := st.trace ++ [Ev.call tg
              (storyReq st.svc sd summ c ek true) (TrackerResp.err msg)] }
        hm' hfail' hok'
      rw [hstep]
      refine ⟨r1, ?_, ?_⟩
      · rw [r2]
        rfl
      · rw [r3, callsTagged_append]
        simp [callsTagged, evTag]
        omega

/-- C8: when a story\x27s first creation call is rejected with an
invalid-issue-type message, create_story retries once per alternate
available issue type (non-epic, non-subtask, not the current type); if
the first m alternates are also rejected and the (m+1)-st succeeds, the
story is created, that alternate is adopted as the service\x27s story
issue type for the rest of the run, and exactly m+2 story creation
calls were made. -/
theorem c8_alternate_types (env : Env) (i j : Nat) (sd : StoryData) (s : String)
    (ek : Option String) (st : St) (m : Nat)
    (hm : m < (storyAltTypes st.svc).length)
    (hs : sd.summary = some s)
    (e0 : String) (h0 : env.resp st.nCall = TrackerResp.err e0)
    (hit : py_in "issue type" (pyLower e0) = true)
    (hfail : ∀ i2, i2 < m → ∃ msg, env.resp (st.nCall + 1 + i2) = TrackerResp.err msg)
    (k : TrackerOk) (hokm : env.resp (st.nCall + 1 + m) = TrackerResp.ok k) :
    (create_story env (Tag.story i j) sd ek st).1 = some ⟨k.key, k.selfUrl, s⟩ ∧
    (create_story env (Tag.story i j) sd ek st).2.svc.story_issue_type =
      (storyAltTypes st.svc).get ⟨m, hm⟩ ∧
    callsTagged (Tag.story i j) (create_story env (Tag.story i j) sd ek st).2.trace =
      callsTagged (Tag.story i j) st.trace + (m + 2) := by
  rcases ha : storyAltAttempts env (Tag.story i j) sd s ek (storyAltTypes st.svc)
      { st with
          nCall := st.nCall + 1
          trace := st.trace ++ [Ev.call (Tag.story i j)
            (storyReq st.svc sd s st.svc.story_issue_type ek true)
            (TrackerResp.err e0)] }
    with ⟨oa, sta⟩
  have hfo := storyAltAttempts_firstOk env (Tag.story i j) sd s ek k
    (storyAltTypes st.svc) m
    { st with
        nCall := st.nCall + 1
        trace := st.trace ++ [Ev.call (Tag.story i j)
          (storyReq st.svc sd s st.svc.story_issue_type ek true)
          (TrackerResp.err e0)] }
    hm hfail hokm
  rw [ha] at hfo
  obtain ⟨r1, r2, r3⟩ := hfo
  have r1' : oa = some ⟨k.key, k.selfUrl, s⟩ := r1
  have hcs : create_story env (Tag.story i j) sd ek st = (oa, sta) := by
    simp [create_story, hs, doCreate, h0, storyRecover, hit, ha, r1']
  rw [hcs]
  refine ⟨r1, r2, ?_⟩
  rw [r3, callsTagged_append]
  simp [callsTagged, evTag]
  omega

/-- Witness for C8: a first rejection "invalid issue type" against the
configured type Story succeeds immediately on the alternate type Task,
which becomes the run\x27s story issue type. -/
theorem c8_alternate_types_witness :
    (create_story envBadType (Tag.story 0 0) ⟨some "S", none, none, []⟩ none
      stBase).1 = some ⟨"K", "U", "S"⟩ ∧
    (create_story envBadType (Tag.story 0 0) ⟨some "S", none, none, []⟩ none
      stBase).2.svc.story_issue_type =
      (storyAltTypes stBase.svc).get ⟨0, by decide⟩ ∧
    callsTagged (Tag.story 0 0) (create_story envBadType (Tag.story 0 0)
      ⟨some "S", none, none, []⟩ none stBase).2.trace =
      callsTagged (Tag.story 0 0) stBase.trace + (0 + 2) :=
  c8_alternate_types envBadType 0 0 ⟨some "S", none, none, []⟩ "S" none stBase 0
    (by decide) rfl "invalid issue type" rfl (by decide)
    (fun i2 h => absurd h (Nat.not_lt_zero i2)) ⟨"K", "U"⟩ rfl

/-- Creation calls whose request carries the given custom field id,
listed by their ghost tags. -/
def callsUsingField (f : String) (tr : List Ev) : List Tag :=
  tr.filterMap (fun e => match e with
    | Ev.call t req _ => if (req.extra.map Prod.fst).contains f then some t else none
    | _ => none)

/-- C9 counterexample: after the first story\x27s creation call carrying
the default Epic-Link field id customfield_10014 is rejected, the very
next story\x27s creation call carries the same field id again — the
default is not discarded on rejection (only the per-story fallback call
omits it). -/
theorem c9_counterexample :
    (create_issues envRejectSecond docTwoStories stBase).2.trace =
      [Ev.poll false,
       Ev.call (Tag.epic 0)
         ⟨"P", "E", "", "Epic", none, [("customfield_10011", "E")], none⟩
         (TrackerResp.ok ⟨"K", "U"⟩),
       Ev.poll false,
       Ev.call (Tag.story 0 0)
         ⟨"P", "S1", "", "Story", none, [("customfield_10014", "K")], none⟩
         (TrackerResp.err "bad"),
       Ev.call (Tag.story 0 0)
         ⟨"P", "S1", "", "Story", none, [], none⟩
         (TrackerResp.ok ⟨"K", "U"⟩),
       Ev.poll false,
       Ev.call (Tag.story 0 1)
         ⟨"P", "S2", "", "Story", none, [("customfield_10014", "K")], none⟩
         (TrackerResp.ok ⟨"K", "U"⟩)] ∧
    callsUsingField "customfield_10014"
      (create_issues envRejectSecond docTwoStories stBase).2.trace =
      [Tag.story 0 0, Tag.story 0 1] :=
  ⟨rfl, rfl⟩

/-- C9 (amended): the discovered-or-default Epic-Link field id is never
discarded: create_story and the whole walk leave the service\x27s
epic_link_field unchanged, so a creation rejection while using the
default makes only that one story fall back to an unlinked request,
and subsequent story creations carry the same default id again. -/
theorem c9_link_field_retained (env : Env) :
    (∀ tg sd ek st, (create_story env tg sd ek st).2.svc.epic_link_field =
      st.svc.epic_link_field) ∧
    (∀ doc st, (create_issues env doc st).2.svc.epic_link_field =
      st.svc.epic_link_field) := by
  constructor
  · intro tg sd ek st
    obtain ⟨Δ, _, _, _, _, s5, _, _⟩ := create_story_spec env tg sd ek st
    exact s5.2.2.1
  · intro doc st
    rcases hre : runEpics env 0 (doc.epics.getD []) emptyResult st with ⟨resE, stE, ocE⟩
    obtain ⟨Δ, le, _, _, _, _, _, p6, _, _, _, _, _, _⟩ :=
      runEpics_spec env (doc.epics.getD []) 0 emptyResult st resE stE ocE hre
    have htr2 : (create_issues env doc st).2 = stE := by
      cases ocE <;> simp [create_issues, hre]
    rw [htr2]
    exact p6.2.2.1

/-- C10: there is an execution in which a story\x27s initial creation
attempt (carrying its priority and the Epic-Link field) is rejected and
the story is created only by the final fallback, whose request omits
both the priority and the Epic-Link field; the story is appended to the
result and the error list stays empty, so an empty error list does not
guarantee that every created story is linked to its parent epic. -/
theorem c10_silent_unlinked_fallback :
    (create_issues envRejectSecond docStory stBase).1.errors = [] ∧
    (create_issues envRejectSecond docStory stBase).1.stories = [⟨"K", "U", "S"⟩] ∧
    (create_issues envRejectSecond docStory stBase).2.trace =
      [Ev.poll false,
       Ev.call (Tag.epic 0)
         ⟨"P", "E", "", "Epic", none, [("customfield_10011", "E")], none⟩
         (TrackerResp.ok ⟨"K", "U"⟩),
       Ev.poll false,
       Ev.call (Tag.story 0 0)
         ⟨"P", "S", "", "Story", some "High", [("customfield_10014", "K")], none⟩
         (TrackerResp.err "bad"),
       Ev.call (Tag.story 0 0)
         ⟨"P", "S", "", "Story", none, [], none⟩
         (TrackerResp.ok ⟨"K", "U"⟩)] :=
  ⟨rfl, rfl, rfl⟩

end JiraGenie
